import Mathlib

/-!
Music sequencer of `presets/coleco/musicplayer.c`.

A shallow embedding of the ColecoVision music player: the voice bank, the
duration counter, the playback cursor, `music_start` and `music_update`, and
the chip writes that `music_update` issues.

Conventions.
* A `byte` is a natural number below 256; arithmetic that can leave the
  range is reduced modulo 256 explicitly.
* `music_ptr` is `none` for `NULL` and otherwise holds the bytes from the
  pointed-to position to the end of the song array; `*music_ptr++` takes the
  head and keeps the tail.  Reading when no byte is left (or through `NULL`)
  is undefined in C and yields `none` in the model.
* `CV_SOUNDCHANNEL_0` comes from `cv.h`, which is not part of the sources; it
  is a parameter `c0` of everything that writes to the chip.
-/

namespace MusicPlayer

/-! ## Data model -/

/-- The table `note_table[64]` of periods (line 19 of the source). -/
def note_table : List Int :=
  [17356, 32764, 30926, 29190, 27551, 26005, 24546, 23168, 21868, 20640, 19482,
   18388, 17356, 32765, 30926, 29190, 27552, 26005, 24546, 23168, 21868, 20640,
   19482, 18389, 17357, 16382, 15463, 14595, 13776, 13003, 12273, 11584, 10934,
   10320, 9741, 9194, 8678, 8191, 7731, 7298, 6888, 6501, 6136, 5792, 5467,
   5160, 4871, 4597, 4339, 4096, 3866, 3649, 3444, 3251, 3068, 2896, 2733,
   2580, 2435, 2299, 2170, 2048, 1933, 1824]

/-- One element of `voice[3]`: `struct { byte volume; }`. -/
structure Voice where
  volume : Nat

/-- The global `num_voices`, initialised to 3 and never assigned. -/
def num_voices : Nat := 3

/-- The mutable globals of the module.  `voice` is indexed by the channel
number; only the indices `0 .. 2` exist in the C array. -/
structure State where
  voice : Nat → Voice
  music_index : Nat
  cur_duration : Nat
  music_ptr : Option (List Nat)

/-- The state after static initialisation: all volumes zero, `music_index`
and `cur_duration` zero, `music_ptr` null. -/
def initial_state : State :=
  { voice := fun _ => ⟨0⟩, music_index := 0, cur_duration := 0, music_ptr := none }

/-- A write to the sound chip: `cv_set_attenuation(channel, level)` or
`cv_set_frequency(channel, period)`.  The level and the period are the values
of the C `int` expressions passed by the caller. -/
inductive ChipWrite where
  | attenuation (channel : Nat) (level : Int)
  | frequency (channel : Nat) (period : Int)
  deriving DecidableEq, Repr

/-- The chip channel a write is addressed to. -/
def ChipWrite.channel : ChipWrite → Nat
  | .attenuation c _ => c
  | .frequency c _ => c

/-- Whether a write is a frequency write. -/
def ChipWrite.isFrequency : ChipWrite → Bool
  | .attenuation _ _ => false
  | .frequency _ _ => true

/-- A `music_update` in progress or finished: the globals, the chip writes
issued so far (oldest first) and the bytes fetched by `next_music_byte` so
far (oldest first). -/
structure Run where
  st : State
  writes : List ChipWrite
  reads : List Nat

/-! ## Operations -/

/-- Assignment `voice[ch].volume = v`. -/
def set_volume (s : State) (ch v : Nat) : State :=
  { s with voice := Function.update s.voice ch ⟨v⟩ }

/-- The body of the `for` loop of `music_update` (lines 40-44) for channel
`ch`: a sounding voice gets the attenuation write `32 - volume` and its byte
volume is post-decremented; a silent voice becomes `freech`. -/
def decay_step (c0 ch : Nat) (fr : Nat × Run) : Nat × Run :=
  if (fr.2.st.voice ch).volume ≠ 0 then
    (fr.1,
     { fr.2 with
       st := set_volume fr.2.st ch (((fr.2.st.voice ch).volume + 255) % 256)
       writes := fr.2.writes ++
         [ChipWrite.attenuation (c0 + ch * 2) (32 - ((fr.2.st.voice ch).volume : Int))] })
  else
    (ch, fr.2)

/-- The loop `for (ch = ..; ch < num_voices; ch++)` with `n` iterations left,
threading `freech` and the run. -/
def decay_loop (c0 : Nat) : Nat → Nat → Nat × Run → Nat × Run
  | 0, _, fr => fr
  | n + 1, ch, fr => decay_loop c0 n (ch + 1) (decay_step c0 ch fr)

/-- Lines 38-45 of `music_update`: `freech = 0`, then the decay loop over the
channels `0 .. num_voices - 1`.  Returns `freech` and the run. -/
def decay_all (c0 : Nat) (s : State) : Nat × Run :=
  decay_loop c0 num_voices 0 (0, { st := s, writes := [], reads := [] })

/-- Function `next_music_byte` (lines 32-34): `return *music_ptr++;`.  The
byte under the cursor and the state with the cursor advanced by one; `none`
when the cursor is null or no byte of the song array is left. -/
def next_music_byte (s : State) : Option (Nat × State) :=
  match s.music_ptr with
  | some (b :: rest) => some (b, { s with music_ptr := some rest })
  | _ => none

/-- The loop `while (cur_duration == 0) { ... }` of `music_update` (lines
48-61).  Every iteration fetches a byte with `next_music_byte`.  The first
argument is the byte sequence that `music_ptr` points to when the loop is
entered; an iteration consumes one of its bytes, which bounds the number of
iterations.  A fetch that fails gives `none`. -/
def decode_loop (c0 : Nat) : List Nat → Nat → Run → Option Run
  | stream, ch, r =>
    if r.st.cur_duration = 0 then
      match next_music_byte r.st, stream with
      | some (note, st), _ :: rest =>
        if note &&& 0x80 = 0 then
          decode_loop c0 rest (if ch ≠ 0 then ch - 1 else num_voices - 1)
            { st := set_volume st ch 31
              writes := r.writes ++
                [ChipWrite.attenuation (c0 + ch * 2) 32,
                 ChipWrite.frequency (c0 + ch * 2) (note_table.getD (note &&& 63) 0)]
              reads := r.reads ++ [note] }
        else
          decode_loop c0 rest ch
            { st := { st with
                      music_ptr := if note = 0xff then none else st.music_ptr
                      cur_duration := note &&& 63 }
              writes := r.writes
              reads := r.reads ++ [note] }
      | _, _ => none
    else
      some r

/-- Function `music_update` (lines 36-64): the decay pass, then, when
`music_ptr` is not null, the decode loop starting at channel `freech` and the
byte decrement `cur_duration--`. -/
def music_update (c0 : Nat) (s : State) : Option Run :=
  match (decay_all c0 s).2.st.music_ptr with
  | none => some (decay_all c0 s).2
  | some stream =>
    match decode_loop c0 stream (decay_all c0 s).1 (decay_all c0 s).2 with
    | none => none
    | some r =>
      some { r with st := { r.st with cur_duration := (r.st.cur_duration + 255) % 256 } }

/-- Function `music_start` (lines 66-69): `music_ptr = music;` followed by the
expression statement `cur_duration == 0;`, a comparison whose value is
discarded, so `cur_duration` keeps its value. -/
def music_start (music : List Nat) (s : State) : State :=
  { s with music_ptr := some music }

/-- Consecutive calls of `music_update`, `n` of them: the run of each call in
order, or `none` if one of them does not return. -/
def play (c0 : Nat) : Nat → State → Option (List Run)
  | 0, _ => some []
  | n + 1, s =>
    match music_update c0 s with
    | none => none
    | some r =>
      match play c0 n r.st with
      | none => none
      | some rs => some (r :: rs)

/-! ## Notions used to state the properties -/

/-- The specification's `MAX_VOLUME`: the volume a note trigger assigns to a
voice (the literal 31 of `voice[ch].volume = 31`). -/
def MAX_VOLUME : Nat := 31

/-- The voice the specification gives to the note at position `i` (counted
from 0) of a burst whose working channel is `f` at its start: `f - i`
modulo 3. -/
def burst_channel (f i : Nat) : Nat := (f + (3 - i % 3)) % 3

/-- The chip writes the specification expects for a burst of notes, the first
of them at position `i` of the burst: for each note in stream order the
attenuation write and the frequency write of its trigger, on the chip channel
of voice `burst_channel f i`, with the period `note_table[note & 63]`. -/
def chord_writes (c0 f : Nat) : Nat → List Nat → List ChipWrite
  | _, [] => []
  | i, note :: notes =>
    ChipWrite.attenuation (c0 + burst_channel f i * 2) 32 ::
    ChipWrite.frequency (c0 + burst_channel f i * 2) (note_table.getD (note &&& 63) 0) ::
    chord_writes c0 f (i + 1) notes

/-- The test-harness step "reset all voices to silent": every volume becomes
zero; the cursor and the duration counter are left alone. -/
def silence_voices (s : State) : State :=
  { s with voice := fun _ => ⟨0⟩ }

/-- States reachable from the initial state by calls of `music_start` and
returning calls of `music_update`. -/
inductive Reachable (c0 : Nat) : State → Prop where
  | init : Reachable c0 initial_state
  | start (music : List Nat) (s : State) : Reachable c0 s → Reachable c0 (music_start music s)
  | update (s : State) (r : Run) :
      Reachable c0 s → music_update c0 s = some r → Reachable c0 r.st

/-- The globals after a call of `music_update`; unchanged when the call does
not return. -/
def update_state (c0 : Nat) (s : State) : State :=
  match music_update c0 s with
  | some r => r.st
  | none => s

/-- The bytes fetched by a sequence of updates, in order. -/
def bytes_read : List Run → List Nat
  | [] => []
  | r :: rs => r.reads ++ bytes_read rs

/-- The globals after a sequence of updates that started in state `s`. -/
def final_state (s : State) : List Run → State
  | [] => s
  | r :: rs => final_state r.st rs

/-- The period of the last frequency write addressed to the chip channel
`chan` in a list of writes, if there is one. -/
def last_frequency (chan : Nat) : List ChipWrite → Option Int
  | [] => none
  | ChipWrite.frequency c p :: ws =>
    match last_frequency chan ws with
    | some q => some q
    | none => if c = chan then some p else none
  | ChipWrite.attenuation _ _ :: ws => last_frequency chan ws

/-- Bytes 0 to 127 of `music1`. -/
def music1_part0 : List Nat :=
  [0x35, 0x41, 0x8a, 0x37, 0x43, 0x8a, 0x33, 0x3f, 0x8a, 0x30, 0x3c, 0x94, 0x3e, 0x32, 0x8a, 0x3a,
   0x2e, 0x94, 0x35, 0x29, 0x8a, 0x37, 0x2b, 0x8a, 0x33, 0x27, 0x8a, 0x30, 0x24, 0x94, 0x32, 0x26,
   0x8a, 0x2e, 0x22, 0x94, 0x29, 0x1d, 0x8a, 0x2b, 0x1f, 0x8a, 0x27, 0x1b, 0x8a, 0x24, 0x18, 0x94,
   0x1a, 0x26, 0x8a, 0x18, 0x24, 0x8a, 0x17, 0x23, 0x8a, 0x16, 0x22, 0xa8, 0x3a, 0x35, 0x32, 0x94,
   0x29, 0x26, 0x22, 0x8a, 0x2a, 0x8a, 0x2b, 0x1b, 0x8a, 0x33, 0x8a, 0x22, 0x1f, 0x27, 0x8a, 0x2b,
   0x8a, 0x33, 0x22, 0x16, 0x94, 0x2b, 0x27, 0x25, 0x8a, 0x33, 0x8a, 0x20, 0x14, 0x94, 0x27, 0x24,
   0x94, 0x1f, 0x13, 0x8a, 0x3f, 0x37, 0x33, 0x8a, 0x38, 0x35, 0x41, 0x8a, 0x42, 0x39, 0x36, 0x8a,
   0x43, 0x3a, 0x37, 0x8a, 0x3f, 0x37, 0x33, 0x8a, 0x35, 0x41, 0x38, 0x8a, 0x3a, 0x37, 0x43, 0x8a]

/-- Bytes 128 to 255 of `music1`. -/
def music1_part1 : List Nat :=
  [0x16, 0x8a, 0x3e, 0x35, 0x32, 0x8a, 0x41, 0x38, 0x35, 0x94, 0x3f, 0x33, 0x37, 0x94, 0x1f, 0x22,
   0x27, 0x94, 0x27, 0x22, 0x1f, 0x94, 0x29, 0x26, 0x22, 0x8a, 0x2a, 0x8a, 0x2b, 0x1b, 0x8a, 0x33,
   0x8a, 0x1f, 0x22, 0x27, 0x8a, 0x2b, 0x8a, 0x33, 0x22, 0x16, 0x94, 0x2b, 0x27, 0x25, 0x8a, 0x33,
   0x8a, 0x20, 0x14, 0x94, 0x24, 0x27, 0x94, 0x1f, 0x13, 0x94, 0x3c, 0x33, 0x30, 0x8a, 0x3a, 0x33,
   0x2e, 0x8a, 0x39, 0x33, 0x2d, 0x8a, 0x3c, 0x30, 0x8a, 0x3f, 0x33, 0x1d, 0x8a, 0x43, 0x37, 0x8a,
   0x1d, 0x8a, 0x41, 0x35, 0x8a, 0x3f, 0x33, 0x27, 0x8a, 0x3c, 0x30, 0x8a, 0x41, 0x35, 0x38, 0x94,
   0x22, 0x16, 0x94, 0x24, 0x18, 0x94, 0x29, 0x26, 0x1a, 0x8a, 0x2a, 0x8a, 0x2b, 0x1b, 0x8a, 0x33,
   0x8a, 0x27, 0x22, 0x1f, 0x8a, 0x2b, 0x8a, 0x33, 0x16, 0x22, 0x94, 0x2b, 0x27, 0x25, 0x8a, 0x33]

/-- Bytes 256 to 383 of `music1`. -/
def music1_part2 : List Nat :=
  [0x8a, 0x20, 0x14, 0x94, 0x27, 0x24, 0x94, 0x13, 0x1f, 0x8a, 0x3f, 0x33, 0x37, 0x8a, 0x41, 0x38,
   0x35, 0x8a, 0x42, 0x39, 0x36, 0x8a, 0x37, 0x3a, 0x43, 0x8a, 0x3f, 0x37, 0x33, 0x8a, 0x41, 0x38,
   0x35, 0x8a, 0x43, 0x3a, 0x37, 0x8a, 0x16, 0x8a, 0x3e, 0x35, 0x32, 0x8a, 0x41, 0x38, 0x35, 0x94,
   0x3f, 0x37, 0x33, 0x94, 0x27, 0x22, 0x1f, 0x94, 0x2b, 0x27, 0x22, 0x94, 0x3f, 0x33, 0x8a, 0x41,
   0x35, 0x8a, 0x43, 0x37, 0x27, 0x8a, 0x3f, 0x33, 0x8a, 0x41, 0x35, 0x2b, 0x8a, 0x43, 0x37, 0x8a,
   0x25, 0x19, 0x8a, 0x3f, 0x33, 0x8a, 0x41, 0x35, 0x2b, 0x8a, 0x3f, 0x33, 0x8a, 0x43, 0x37, 0x24,
   0x8a, 0x3f, 0x33, 0x8a, 0x41, 0x35, 0x2c, 0x8a, 0x43, 0x37, 0x8a, 0x23, 0x17, 0x8a, 0x3f, 0x33,
   0x8a, 0x41, 0x35, 0x2c, 0x8a, 0x3f, 0x33, 0x8a, 0x3a, 0x37, 0x43, 0x8a, 0x3f, 0x37, 0x33, 0x8a]

/-- Bytes 384 to 511 of `music1`. -/
def music1_part3 : List Nat :=
  [0x41, 0x38, 0x35, 0x8a, 0x43, 0x3a, 0x37, 0x8a, 0x16, 0x8a, 0x3e, 0x32, 0x35, 0x8a, 0x41, 0x35,
   0x38, 0x94, 0x3f, 0x33, 0x37, 0x94, 0x22, 0x16, 0x94, 0x24, 0x18, 0x94, 0x29, 0x26, 0x1a, 0x8a,
   0x2a, 0x8a, 0x2b, 0x1b, 0x8a, 0x33, 0x8a, 0x27, 0x22, 0x1f, 0x8a, 0x2b, 0x8a, 0x33, 0x22, 0x16,
   0x94, 0x2b, 0x25, 0x22, 0x8a, 0x33, 0x8a, 0x20, 0x14, 0x94, 0x27, 0x24, 0x94, 0x1f, 0x13, 0x8a,
   0x3f, 0x37, 0x33, 0x8a, 0x35, 0x41, 0x38, 0x8a, 0x42, 0x39, 0x36, 0x8a, 0x43, 0x3a, 0x37, 0x8a,
   0x3f, 0x37, 0x33, 0x8a, 0x38, 0x35, 0x41, 0x8a, 0x43, 0x3a, 0x37, 0x8a, 0x16, 0x8a, 0x3e, 0x35,
   0x32, 0x8a, 0x35, 0x41, 0x38, 0x94, 0x37, 0x33, 0x3f, 0x94, 0x27, 0x22, 0x1f, 0x94, 0x27, 0x22,
   0x1f, 0x94, 0x29, 0x26, 0x22, 0x8a, 0x2a, 0x8a, 0x2b, 0x1b, 0x8a, 0x33, 0x8a, 0x22, 0x1f, 0x27]

/-- Bytes 512 to 639 of `music1`. -/
def music1_part4 : List Nat :=
  [0x8a, 0x2b, 0x8a, 0x33, 0x22, 0x16, 0x94, 0x2b, 0x27, 0x25, 0x8a, 0x33, 0x8a, 0x20, 0x14, 0x94,
   0x27, 0x24, 0x94, 0x1f, 0x13, 0x94, 0x3c, 0x33, 0x30, 0x8a, 0x3a, 0x33, 0x2e, 0x8a, 0x2d, 0x33,
   0x39, 0x8a, 0x3c, 0x30, 0x8a, 0x3f, 0x33, 0x27, 0x8a, 0x43, 0x37, 0x8a, 0x1d, 0x8a, 0x41, 0x35,
   0x8a, 0x33, 0x3f, 0x27, 0x8a, 0x3c, 0x30, 0x8a, 0x41, 0x38, 0x35, 0x94, 0x22, 0x16, 0x94, 0x24,
   0x18, 0x94, 0x29, 0x26, 0x1a, 0x8a, 0x2a, 0x8a, 0x2b, 0x1b, 0x8a, 0x33, 0x8a, 0x22, 0x27, 0x1f,
   0x8a, 0x2b, 0x8a, 0x33, 0x22, 0x16, 0x94, 0x2b, 0x27, 0x25, 0x8a, 0x33, 0x8a, 0x20, 0x14, 0x94,
   0x24, 0x27, 0x94, 0x1f, 0x13, 0x8a, 0x3f, 0x37, 0x33, 0x8a, 0x41, 0x38, 0x35, 0x8a, 0x36, 0x39,
   0x42, 0x8a, 0x43, 0x3a, 0x37, 0x8a, 0x3f, 0x37, 0x33, 0x8a, 0x41, 0x38, 0x35, 0x8a, 0x37, 0x43]

/-- Bytes 640 to 767 of `music1`. -/
def music1_part5 : List Nat :=
  [0x3a, 0x8a, 0x16, 0x8a, 0x3e, 0x35, 0x32, 0x8a, 0x41, 0x38, 0x35, 0x94, 0x33, 0x37, 0x3f, 0x94,
   0x27, 0x22, 0x1f, 0x94, 0x22, 0x27, 0x2b, 0x94, 0x3f, 0x33, 0x8a, 0x41, 0x35, 0x8a, 0x43, 0x37,
   0x27, 0x8a, 0x3f, 0x33, 0x8a, 0x41, 0x35, 0x2b, 0x8a, 0x43, 0x37, 0x8a, 0x25, 0x19, 0x8a, 0x3f,
   0x33, 0x8a, 0x41, 0x35, 0x2b, 0x8a, 0x3f, 0x33, 0x8a, 0x43, 0x37, 0x24, 0x8a, 0x33, 0x3f, 0x8a,
   0x41, 0x35, 0x2c, 0x8a, 0x43, 0x37, 0x8a, 0x23, 0x17, 0x8a, 0x3f, 0x33, 0x8a, 0x41, 0x35, 0x2c,
   0x8a, 0x3f, 0x33, 0x8a, 0x43, 0x3a, 0x37, 0x8a, 0x3f, 0x37, 0x33, 0x8a, 0x41, 0x38, 0x35, 0x8a,
   0x37, 0x3a, 0x43, 0x8a, 0x16, 0x8a, 0x3e, 0x35, 0x32, 0x8a, 0x41, 0x38, 0x35, 0x94, 0x33, 0x37,
   0x3f, 0x94, 0x22, 0x16, 0x94, 0x1b, 0x0f, 0x8a, 0x37, 0x2b, 0x33, 0x8a, 0x38, 0x2c, 0x35, 0x8a]

/-- Bytes 768 to 895 of `music1`. -/
def music1_part6 : List Nat :=
  [0x39, 0x36, 0x2d, 0x8a, 0x3a, 0x37, 0x2e, 0x94, 0x3c, 0x37, 0x30, 0x8a, 0x3a, 0x2e, 0x37, 0x8a,
   0x16, 0x8a, 0x37, 0x33, 0x2b, 0x8a, 0x2c, 0x38, 0x35, 0x8a, 0x39, 0x36, 0x2d, 0x8a, 0x3a, 0x37,
   0x2e, 0x94, 0x3c, 0x37, 0x30, 0x8a, 0x2e, 0x37, 0x3a, 0x8a, 0x16, 0x8a, 0x37, 0x8a, 0x33, 0x27,
   0x2b, 0x8a, 0x2e, 0x8a, 0x30, 0x14, 0x8a, 0x32, 0x8a, 0x33, 0x2c, 0x27, 0x8a, 0x35, 0x8a, 0x37,
   0x20, 0x8a, 0x35, 0x8a, 0x33, 0x2c, 0x27, 0x8a, 0x35, 0x8a, 0x2e, 0x1f, 0x8a, 0x37, 0x8a, 0x38,
   0x2b, 0x27, 0x8a, 0x3a, 0x8a, 0x3c, 0x16, 0x8a, 0x3a, 0x8a, 0x37, 0x22, 0x2b, 0x8a, 0x38, 0x8a,
   0x3a, 0x37, 0x2e, 0x94, 0x3c, 0x30, 0x37, 0x8a, 0x3a, 0x37, 0x2e, 0x8a, 0x16, 0x8a, 0x37, 0x33,
   0x2b, 0x8a, 0x38, 0x2c, 0x35, 0x8a, 0x39, 0x36, 0x2d, 0x8a, 0x3a, 0x37, 0x2e, 0x94, 0x3c, 0x37]

/-- Bytes 896 to 1023 of `music1`. -/
def music1_part7 : List Nat :=
  [0x30, 0x8a, 0x2e, 0x37, 0x3a, 0x8a, 0x1f, 0x8a, 0x3a, 0x8a, 0x3c, 0x1e, 0x8a, 0x3d, 0x8a, 0x3e,
   0x3a, 0x35, 0x8a, 0x3e, 0x35, 0x3a, 0x8a, 0x22, 0x29, 0x26, 0x8a, 0x3e, 0x33, 0x39, 0x8a, 0x1d,
   0x8a, 0x3c, 0x8a, 0x39, 0x33, 0x29, 0x8a, 0x35, 0x8a, 0x3a, 0x32, 0x29, 0x94, 0x20, 0x14, 0x94,
   0x1f, 0x13, 0x8a, 0x37, 0x2b, 0x33, 0x8a, 0x38, 0x35, 0x2c, 0x8a, 0x39, 0x36, 0x2d, 0x8a, 0x2e,
   0x3a, 0x37, 0x94, 0x3c, 0x37, 0x30, 0x8a, 0x3a, 0x37, 0x2e, 0x8a, 0x16, 0x8a, 0x33, 0x2b, 0x37,
   0x8a, 0x38, 0x35, 0x2c, 0x8a, 0x39, 0x36, 0x2d, 0x8a, 0x3a, 0x37, 0x2e, 0x94, 0x30, 0x37, 0x3c,
   0x8a, 0x3a, 0x2e, 0x37, 0x8a, 0x16, 0x8a, 0x37, 0x8a, 0x33, 0x2b, 0x27, 0x8a, 0x2e, 0x8a, 0x30,
   0x14, 0x8a, 0x32, 0x8a, 0x33, 0x2c, 0x27, 0x8a, 0x35, 0x8a, 0x37, 0x20, 0x8a, 0x35, 0x8a, 0x33]

/-- Bytes 1024 to 1151 of `music1`. -/
def music1_part8 : List Nat :=
  [0x23, 0x2c, 0x8a, 0x35, 0x8a, 0x33, 0x1f, 0x94, 0x2b, 0x22, 0x27, 0x94, 0x1b, 0x8a, 0x2e, 0x8a,
   0x2d, 0x2b, 0x27, 0x8a, 0x2e, 0x8a, 0x33, 0x2c, 0x27, 0x94, 0x30, 0x2c, 0x27, 0x8a, 0x33, 0x8a,
   0x21, 0x24, 0x2a, 0x8a, 0x30, 0x8a, 0x33, 0x2a, 0x27, 0x8a, 0x30, 0x8a, 0x2e, 0x2b, 0x27, 0x8a,
   0x33, 0x8a, 0x37, 0x2b, 0x22, 0x8a, 0x3a, 0x8a, 0x2b, 0x27, 0x22, 0x8a, 0x37, 0x8a, 0x33, 0x2b,
   0x27, 0x8a, 0x2e, 0x8a, 0x30, 0x2d, 0x1d, 0x94, 0x33, 0x2d, 0x24, 0x94, 0x37, 0x2c, 0x26, 0x8a,
   0x35, 0x2c, 0x8a, 0x26, 0x22, 0x8a, 0x33, 0x2b, 0x8a, 0x27, 0x1b, 0x94, 0x22, 0x16, 0x94, 0x1f,
   0x13, 0x8a, 0x43, 0x3f, 0x37, 0x8a, 0x44, 0x41, 0x38, 0x8a, 0x45, 0x42, 0x39, 0x8a, 0x3a, 0x37,
   0x2e, 0x94, 0x3c, 0x30, 0x37, 0x8a, 0x3a, 0x37, 0x2e, 0x8a, 0x16, 0x8a, 0x37, 0x33, 0x2b, 0x8a]

/-- Bytes 1152 to 1279 of `music1`. -/
def music1_part9 : List Nat :=
  [0x38, 0x2c, 0x35, 0x8a, 0x39, 0x36, 0x2d, 0x8a, 0x3a, 0x37, 0x2e, 0x94, 0x3c, 0x37, 0x30, 0x8a,
   0x2e, 0x37, 0x3a, 0x8a, 0x16, 0x8a, 0x37, 0x8a, 0x33, 0x2b, 0x27, 0x8a, 0x2e, 0x8a, 0x30, 0x14,
   0x8a, 0x32, 0x8a, 0x33, 0x2c, 0x27, 0x8a, 0x35, 0x8a, 0x37, 0x20, 0x8a, 0x35, 0x8a, 0x33, 0x23,
   0x27, 0x8a, 0x35, 0x8a, 0x2e, 0x1f, 0x8a, 0x37, 0x8a, 0x38, 0x27, 0x2b, 0x8a, 0x3a, 0x8a, 0x3c,
   0x16, 0x8a, 0x3a, 0x8a, 0x37, 0x2b, 0x27, 0x8a, 0x38, 0x8a, 0x3a, 0x37, 0x2e, 0x94, 0x3c, 0x30,
   0x37, 0x8a, 0x3a, 0x37, 0x2e, 0x8a, 0x16, 0x8a, 0x37, 0x33, 0x2b, 0x8a, 0x38, 0x2c, 0x35, 0x8a,
   0x39, 0x36, 0x2d, 0x8a, 0x3a, 0x37, 0x2e, 0x94, 0x3c, 0x37, 0x30, 0x8a, 0x2e, 0x37, 0x3a, 0x8a,
   0x1f, 0x8a, 0x3a, 0x8a, 0x3c, 0x1e, 0x8a, 0x3d, 0x8a, 0x3e, 0x3a, 0x35, 0x8a, 0x3e, 0x35, 0x3a]

/-- Bytes 1280 to 1407 of `music1`. -/
def music1_part10 : List Nat :=
  [0x8a, 0x29, 0x26, 0x22, 0x8a, 0x3e, 0x33, 0x39, 0x8a, 0x1d, 0x8a, 0x3c, 0x8a, 0x39, 0x33, 0x27,
   0x8a, 0x35, 0x8a, 0x3a, 0x32, 0x29, 0x94, 0x20, 0x14, 0x94, 0x1f, 0x13, 0x8a, 0x37, 0x2b, 0x33,
   0x8a, 0x38, 0x35, 0x2c, 0x8a, 0x39, 0x36, 0x2d, 0x8a, 0x2e, 0x3a, 0x37, 0x94, 0x3c, 0x37, 0x30,
   0x8a, 0x3a, 0x37, 0x2e, 0x8a, 0x16, 0x8a, 0x33, 0x2b, 0x37, 0x8a, 0x38, 0x35, 0x2c, 0x8a, 0x39,
   0x36, 0x2d, 0x8a, 0x3a, 0x37, 0x2e, 0x94, 0x30, 0x3c, 0x37, 0x8a, 0x37, 0x2e, 0x3a, 0x8a, 0x16,
   0x8a, 0x37, 0x8a, 0x33, 0x2b, 0x27, 0x8a, 0x2e, 0x8a, 0x30, 0x14, 0x8a, 0x32, 0x8a, 0x33, 0x27,
   0x24, 0x8a, 0x35, 0x8a, 0x37, 0x20, 0x8a, 0x35, 0x8a, 0x33, 0x2c, 0x27, 0x8a, 0x35, 0x8a, 0x33,
   0x1f, 0x94, 0x2b, 0x27, 0x22, 0x94, 0x1b, 0x8a, 0x2e, 0x8a, 0x2d, 0x2b, 0x27, 0x8a, 0x2e, 0x8a]

/-- Bytes 1408 to 1535 of `music1`. -/
def music1_part11 : List Nat :=
  [0x33, 0x2c, 0x27, 0x94, 0x30, 0x2c, 0x20, 0x8a, 0x33, 0x8a, 0x2a, 0x27, 0x24, 0x8a, 0x30, 0x8a,
   0x33, 0x2a, 0x27, 0x8a, 0x30, 0x8a, 0x2e, 0x2b, 0x22, 0x8a, 0x33, 0x8a, 0x37, 0x2b, 0x27, 0x8a,
   0x3a, 0x8a, 0x2b, 0x27, 0x22, 0x8a, 0x37, 0x8a, 0x33, 0x2b, 0x22, 0x8a, 0x2e, 0x8a, 0x30, 0x2d,
   0x27, 0x94, 0x33, 0x2d, 0x24, 0x94, 0x37, 0x2c, 0x26, 0x8a, 0x35, 0x2c, 0x8a, 0x26, 0x22, 0x8a,
   0x33, 0x2b, 0x8a, 0x27, 0x1b, 0x94, 0x22, 0x16, 0x94, 0x1b, 0x0f, 0x94, 0x29, 0x8a, 0x2a, 0x8a,
   0x2b, 0x1b, 0x8a, 0x33, 0x8a, 0x27, 0x1f, 0x22, 0x8a, 0x2b, 0x8a, 0x33, 0x22, 0x16, 0x94, 0x2b,
   0x27, 0x25, 0x8a, 0x33, 0x8a, 0x20, 0x14, 0x94, 0x27, 0x24, 0x94, 0x1f, 0x13, 0x8a, 0x3f, 0x37,
   0x33, 0x8a, 0x41, 0x38, 0x35, 0x8a, 0x42, 0x39, 0x36, 0x8a, 0x3a, 0x37, 0x43, 0x8a, 0x3f, 0x37]

/-- Bytes 1536 to 1663 of `music1`. -/
def music1_part12 : List Nat :=
  [0x33, 0x8a, 0x41, 0x38, 0x35, 0x8a, 0x43, 0x3a, 0x37, 0x8a, 0x16, 0x8a, 0x3e, 0x35, 0x32, 0x8a,
   0x41, 0x38, 0x35, 0x94, 0x3f, 0x37, 0x33, 0x94, 0x27, 0x22, 0x1f, 0x94, 0x22, 0x1f, 0x27, 0x94,
   0x29, 0x26, 0x22, 0x8a, 0x2a, 0x8a, 0x2b, 0x1b, 0x8a, 0x33, 0x8a, 0x27, 0x22, 0x1f, 0x8a, 0x2b,
   0x8a, 0x33, 0x22, 0x16, 0x94, 0x2b, 0x27, 0x22, 0x8a, 0x33, 0x8a, 0x20, 0x14, 0x94, 0x27, 0x24,
   0x94, 0x1f, 0x13, 0x94, 0x33, 0x3c, 0x30, 0x8a, 0x3a, 0x33, 0x2e, 0x8a, 0x39, 0x33, 0x2d, 0x8a,
   0x3c, 0x30, 0x8a, 0x3f, 0x33, 0x27, 0x8a, 0x43, 0x37, 0x8a, 0x1d, 0x8a, 0x41, 0x35, 0x8a, 0x3f,
   0x33, 0x27, 0x8a, 0x3c, 0x30, 0x8a, 0x35, 0x41, 0x38, 0x94, 0x22, 0x16, 0x94, 0x24, 0x18, 0x94,
   0x29, 0x26, 0x1a, 0x8a, 0x2a, 0x8a, 0x2b, 0x1b, 0x8a, 0x33, 0x8a, 0x1f, 0x22, 0x27, 0x8a, 0x2b]

/-- Bytes 1664 to 1791 of `music1`. -/
def music1_part13 : List Nat :=
  [0x8a, 0x33, 0x22, 0x16, 0x94, 0x2b, 0x27, 0x25, 0x8a, 0x33, 0x8a, 0x20, 0x14, 0x94, 0x24, 0x27,
   0x94, 0x1f, 0x13, 0x8a, 0x3f, 0x37, 0x33, 0x8a, 0x41, 0x38, 0x35, 0x8a, 0x42, 0x39, 0x36, 0x8a,
   0x37, 0x3a, 0x43, 0x8a, 0x3f, 0x33, 0x37, 0x8a, 0x41, 0x35, 0x38, 0x8a, 0x43, 0x3a, 0x37, 0x8a,
   0x16, 0x8a, 0x3e, 0x35, 0x32, 0x8a, 0x38, 0x35, 0x41, 0x94, 0x3f, 0x37, 0x33, 0x94, 0x27, 0x22,
   0x1f, 0x94, 0x22, 0x2b, 0x27, 0x94, 0x3f, 0x33, 0x8a, 0x41, 0x35, 0x8a, 0x43, 0x37, 0x27, 0x8a,
   0x3f, 0x33, 0x8a, 0x41, 0x35, 0x2b, 0x8a, 0x43, 0x37, 0x8a, 0x25, 0x19, 0x8a, 0x33, 0x3f, 0x8a,
   0x41, 0x35, 0x27, 0x8a, 0x3f, 0x33, 0x8a, 0x43, 0x37, 0x24, 0x8a, 0x3f, 0x33, 0x8a, 0x41, 0x35,
   0x2c, 0x8a, 0x43, 0x37, 0x8a, 0x23, 0x17, 0x8a, 0x3f, 0x33, 0x8a, 0x41, 0x35, 0x23, 0x8a, 0x3f]

/-- Bytes 1792 to 1919 of `music1`. -/
def music1_part14 : List Nat :=
  [0x33, 0x8a, 0x43, 0x3a, 0x37, 0x8a, 0x33, 0x37, 0x3f, 0x8a, 0x41, 0x38, 0x35, 0x8a, 0x43, 0x3a,
   0x37, 0x8a, 0x16, 0x8a, 0x32, 0x35, 0x3e, 0x8a, 0x41, 0x38, 0x35, 0x94, 0x3f, 0x37, 0x33, 0x94,
   0x22, 0x16, 0x94, 0x3f, 0x37, 0x33, 0xa8, 0x38, 0x3c, 0x14, 0x8a, 0x3b, 0x8a, 0x3c, 0x38, 0x24,
   0x94, 0x1b, 0x94, 0x3f, 0x3c, 0x38, 0x94, 0x38, 0x3d, 0x41, 0x94, 0x31, 0x2c, 0x29, 0x8a, 0x30,
   0x8a, 0x31, 0x20, 0x8a, 0x33, 0x8a, 0x35, 0x2c, 0x25, 0x94, 0x38, 0x35, 0x11, 0x8a, 0x37, 0x8a,
   0x38, 0x35, 0x2c, 0x94, 0x18, 0x94, 0x3c, 0x38, 0x35, 0x94, 0x35, 0x3a, 0x3d, 0x94, 0x2e, 0x25,
   0x29, 0x8a, 0x2d, 0x8a, 0x2e, 0x1d, 0x8a, 0x30, 0x8a, 0x31, 0x29, 0x25, 0x8a, 0x3a, 0x8a, 0x35,
   0x25, 0x19, 0x94, 0x3a, 0x25, 0x29, 0x8a, 0x35, 0x8a, 0x22, 0x16, 0x8a, 0x3a, 0x8a, 0x35, 0x23]

/-- Bytes 1920 to 2047 of `music1`. -/
def music1_part15 : List Nat :=
  [0x17, 0x94, 0x33, 0x24, 0x18, 0x94, 0x24, 0x27, 0x2c, 0x94, 0x38, 0x1d, 0x94, 0x2c, 0x29, 0x24,
   0x94, 0x37, 0x1f, 0x8a, 0x3b, 0x8a, 0x3e, 0x26, 0x29, 0x8a, 0x43, 0x8a, 0x23, 0x8a, 0x41, 0x8a,
   0x3e, 0x2b, 0x29, 0x8a, 0x3f, 0x8a, 0x3c, 0x2b, 0x27, 0xa8, 0x3d, 0x22, 0x27, 0x94, 0x1b, 0x94,
   0x3c, 0x38, 0x14, 0x8a, 0x3b, 0x8a, 0x38, 0x3c, 0x2c, 0x94, 0x1b, 0x94, 0x3f, 0x3c, 0x38, 0x94,
   0x41, 0x3d, 0x38, 0x94, 0x31, 0x2c, 0x25, 0x8a, 0x30, 0x8a, 0x31, 0x20, 0x8a, 0x33, 0x8a, 0x35,
   0x2c, 0x29, 0x94, 0x38, 0x35, 0x11, 0x8a, 0x37, 0x8a, 0x38, 0x35, 0x2c, 0x94, 0x18, 0x94, 0x35,
   0x3c, 0x38, 0x94, 0x3d, 0x3a, 0x35, 0x94, 0x2e, 0x29, 0x25, 0x8a, 0x2d, 0x8a, 0x2e, 0x1d, 0x8a,
   0x30, 0x8a, 0x31, 0x29, 0x25, 0x8a, 0x3a, 0x8a, 0x35, 0x25, 0x19, 0x94, 0x3a, 0x29, 0x25, 0x8a]

/-- Bytes 2048 to 2175 of `music1`. -/
def music1_part16 : List Nat :=
  [0x35, 0x8a, 0x16, 0x22, 0x8a, 0x3a, 0x8a, 0x35, 0x23, 0x17, 0x94, 0x33, 0x24, 0x18, 0x8a, 0x20,
   0x14, 0x8a, 0x1f, 0x13, 0x8a, 0x11, 0x1d, 0x8a, 0x38, 0x32, 0x2f, 0x9e, 0x38, 0x8a, 0x3c, 0x33,
   0x30, 0x8a, 0x3f, 0x33, 0x8a, 0x2c, 0x27, 0x24, 0x8a, 0x3a, 0x31, 0x8a, 0x27, 0x1b, 0x8a, 0x33,
   0x8a, 0x35, 0x31, 0x1b, 0x8a, 0x37, 0x8a, 0x38, 0x30, 0x20, 0x94, 0x32, 0x8a, 0x33, 0x8a, 0x35,
   0x8a, 0x37, 0x8a, 0x38, 0x8a, 0x3a, 0x8a, 0x3c, 0x38, 0x14, 0x8a, 0x3b, 0x8a, 0x38, 0x3c, 0x2c,
   0x94, 0x1b, 0x94, 0x3f, 0x3c, 0x38, 0x94, 0x41, 0x3d, 0x38, 0x94, 0x31, 0x2c, 0x29, 0x8a, 0x30,
   0x8a, 0x31, 0x20, 0x8a, 0x33, 0x8a, 0x35, 0x29, 0x2c, 0x94, 0x38, 0x35, 0x11, 0x8a, 0x37, 0x8a,
   0x38, 0x35, 0x2c, 0x94, 0x18, 0x94, 0x3c, 0x35, 0x38, 0x94, 0x35, 0x3d, 0x3a, 0x94, 0x2e, 0x29]

/-- Bytes 2176 to 2303 of `music1`. -/
def music1_part17 : List Nat :=
  [0x25, 0x8a, 0x2d, 0x8a, 0x2e, 0x1d, 0x8a, 0x30, 0x8a, 0x31, 0x29, 0x25, 0x8a, 0x3a, 0x8a, 0x35,
   0x25, 0x19, 0x94, 0x3a, 0x29, 0x25, 0x8a, 0x35, 0x8a, 0x22, 0x16, 0x8a, 0x3a, 0x8a, 0x35, 0x23,
   0x17, 0x94, 0x33, 0x24, 0x18, 0x94, 0x2c, 0x27, 0x24, 0x94, 0x38, 0x1d, 0x94, 0x2c, 0x29, 0x24,
   0x94, 0x37, 0x1f, 0x8a, 0x3b, 0x8a, 0x3e, 0x26, 0x2b, 0x8a, 0x43, 0x8a, 0x23, 0x8a, 0x41, 0x8a,
   0x3e, 0x2b, 0x29, 0x8a, 0x3f, 0x8a, 0x3c, 0x2b, 0x27, 0xa8, 0x3d, 0x2b, 0x27, 0x94, 0x1b, 0x94,
   0x3c, 0x38, 0x14, 0x8a, 0x3b, 0x8a, 0x38, 0x3c, 0x24, 0x94, 0x1b, 0x94, 0x3f, 0x3c, 0x38, 0x94,
   0x41, 0x3d, 0x38, 0x94, 0x31, 0x2c, 0x29, 0x8a, 0x30, 0x8a, 0x31, 0x20, 0x8a, 0x33, 0x8a, 0x35,
   0x2c, 0x29, 0x94, 0x35, 0x38, 0x11, 0x8a, 0x37, 0x8a, 0x38, 0x35, 0x2c, 0x94, 0x18, 0x94, 0x3c]

/-- Bytes 2304 to 2431 of `music1`. -/
def music1_part18 : List Nat :=
  [0x38, 0x35, 0x94, 0x3d, 0x3a, 0x35, 0x94, 0x2e, 0x25, 0x29, 0x8a, 0x2d, 0x8a, 0x2e, 0x1d, 0x8a,
   0x30, 0x8a, 0x31, 0x29, 0x25, 0x8a, 0x3a, 0x8a, 0x35, 0x25, 0x19, 0x94, 0x3a, 0x29, 0x25, 0x8a,
   0x35, 0x8a, 0x22, 0x16, 0x8a, 0x3a, 0x8a, 0x35, 0x23, 0x17, 0x94, 0x33, 0x24, 0x18, 0x8a, 0x20,
   0x14, 0x8a, 0x1f, 0x13, 0x8a, 0x1d, 0x11, 0x8a, 0x38, 0x32, 0x2f, 0x9e, 0x38, 0x8a, 0x30, 0x33,
   0x3c, 0x8a, 0x3f, 0x33, 0x8a, 0x2c, 0x27, 0x24, 0x8a, 0x3a, 0x31, 0x8a, 0x27, 0x1b, 0x8a, 0x33,
   0x8a, 0x35, 0x31, 0x1b, 0x8a, 0x37, 0x8a, 0x30, 0x38, 0x20, 0xa8, 0x3f, 0x3c, 0x38, 0xa8, 0x33,
   0x20, 0x27, 0x94, 0x30, 0x2c, 0x27, 0x8a, 0x33, 0x8a, 0x2a, 0x27, 0x24, 0x8a, 0x30, 0x8a, 0x33,
   0x2a, 0x21, 0x8a, 0x30, 0x8a, 0x2e, 0x2b, 0x27, 0x8a, 0x33, 0x8a, 0x37, 0x22, 0x27, 0x8a, 0x3a]

/-- Bytes 2432 to 2559 of `music1`. -/
def music1_part19 : List Nat :=
  [0x8a, 0x2b, 0x27, 0x22, 0x8a, 0x37, 0x8a, 0x33, 0x2b, 0x27, 0x8a, 0x2e, 0x8a, 0x30, 0x2d, 0x27,
   0x94, 0x33, 0x2d, 0x24, 0x94, 0x37, 0x2c, 0x26, 0x8a, 0x35, 0x2c, 0x8a, 0x26, 0x22, 0x8a, 0x33,
   0x2b, 0x8a, 0x27, 0x1b, 0xa8, 0x33, 0x37, 0x3a, 0xa8, 0x2c, 0x29, 0x14, 0x94, 0x2b, 0x28, 0x20,
   0x8a, 0x2c, 0x29, 0x8a, 0x18, 0x8a, 0x2b, 0x28, 0x8a, 0x29, 0x2c, 0x24, 0x94, 0x14, 0x8a, 0x30,
   0x8a, 0x2c, 0x35, 0x24, 0x8a, 0x30, 0x8a, 0x33, 0x18, 0x8a, 0x35, 0x8a, 0x33, 0x24, 0x20, 0x8a,
   0x30, 0x8a, 0x2e, 0x2b, 0x1b, 0x94, 0x2d, 0x2a, 0x27, 0x8a, 0x2e, 0x2b, 0x8a, 0x16, 0x8a, 0x2d,
   0x2a, 0x8a, 0x2e, 0x2b, 0x1f, 0x94, 0x1b, 0x8a, 0x33, 0x8a, 0x37, 0x2e, 0x27, 0x8a, 0x33, 0x8a,
   0x35, 0x16, 0x8a, 0x37, 0x8a, 0x35, 0x1f, 0x22, 0x8a, 0x33, 0x8a, 0x35, 0x32, 0x16, 0x94, 0x34]

/-- Bytes 2560 to 2687 of `music1`. -/
def music1_part20 : List Nat :=
  [0x31, 0x26, 0x8a, 0x35, 0x32, 0x8a, 0x1a, 0x8a, 0x34, 0x31, 0x8a, 0x32, 0x35, 0x26, 0x94, 0x16,
   0x8a, 0x38, 0x8a, 0x3c, 0x32, 0x22, 0x8a, 0x38, 0x8a, 0x3a, 0x1d, 0x8a, 0x3c, 0x8a, 0x3a, 0x26,
   0x22, 0x8a, 0x38, 0x8a, 0x3f, 0x33, 0x27, 0x8a, 0x3f, 0x33, 0x8a, 0x3f, 0x33, 0x27, 0xa8, 0x3c,
   0x33, 0x27, 0x94, 0x3a, 0x33, 0x1f, 0x94, 0x2e, 0x2b, 0x8a, 0x2e, 0x2b, 0x8a, 0x2e, 0x2b, 0x94,
   0x2b, 0x2e, 0x94, 0x2c, 0x29, 0x14, 0x94, 0x2b, 0x28, 0x24, 0x8a, 0x2c, 0x29, 0x8a, 0x18, 0x8a,
   0x2b, 0x28, 0x8a, 0x2c, 0x29, 0x24, 0x94, 0x14, 0x8a, 0x30, 0x8a, 0x35, 0x2c, 0x20, 0x8a, 0x30,
   0x8a, 0x33, 0x18, 0x8a, 0x35, 0x8a, 0x33, 0x24, 0x20, 0x8a, 0x30, 0x8a, 0x2e, 0x2b, 0x1b, 0x94,
   0x2a, 0x2d, 0x27, 0x8a, 0x2e, 0x2b, 0x8a, 0x16, 0x8a, 0x2d, 0x2a, 0x8a, 0x2e, 0x2b, 0x1f, 0x94]

/-- Bytes 2688 to 2815 of `music1`. -/
def music1_part21 : List Nat :=
  [0x1b, 0x8a, 0x33, 0x8a, 0x37, 0x2e, 0x27, 0x8a, 0x33, 0x8a, 0x35, 0x16, 0x8a, 0x37, 0x8a, 0x35,
   0x27, 0x22, 0x8a, 0x33, 0x8a, 0x30, 0x20, 0x14, 0x8a, 0x2f, 0x8a, 0x30, 0x1d, 0x11, 0x8a, 0x3a,
   0x30, 0x8a, 0x1f, 0x13, 0x8a, 0x38, 0x30, 0x8a, 0x20, 0x14, 0x8a, 0x33, 0x30, 0x8a, 0x37, 0x2e,
   0x22, 0x8a, 0x36, 0x8a, 0x37, 0x22, 0x2b, 0x8a, 0x3c, 0x8a, 0x2a, 0x27, 0x21, 0x8a, 0x3f, 0x8a,
   0x3a, 0x2b, 0x27, 0x8a, 0x37, 0x8a, 0x33, 0x2d, 0x18, 0x94, 0x33, 0x2d, 0x1d, 0x94, 0x37, 0x2c,
   0x32, 0x8a, 0x35, 0x32, 0x2c, 0x8a, 0x26, 0x1a, 0x8a, 0x33, 0x2e, 0x2b, 0x8a, 0x27, 0x1b, 0x94,
   0x2b, 0x2e, 0x8a, 0x2e, 0x2b, 0x8a, 0x2e, 0x2b, 0x94, 0x2e, 0x2b, 0x94, 0x2c, 0x29, 0x14, 0x94,
   0x2b, 0x28, 0x20, 0x8a, 0x29, 0x2c, 0x8a, 0x18, 0x8a, 0x2b, 0x28, 0x8a, 0x2c, 0x29, 0x24, 0x94]

/-- Bytes 2816 to 2943 of `music1`. -/
def music1_part22 : List Nat :=
  [0x14, 0x8a, 0x30, 0x8a, 0x35, 0x2c, 0x24, 0x8a, 0x30, 0x8a, 0x33, 0x18, 0x8a, 0x35, 0x8a, 0x33,
   0x24, 0x20, 0x8a, 0x30, 0x8a, 0x2e, 0x2b, 0x1b, 0x94, 0x2d, 0x2a, 0x27, 0x8a, 0x2e, 0x2b, 0x8a,
   0x16, 0x8a, 0x2d, 0x2a, 0x8a, 0x2e, 0x2b, 0x1f, 0x94, 0x1b, 0x8a, 0x33, 0x8a, 0x37, 0x2e, 0x27,
   0x8a, 0x33, 0x8a, 0x35, 0x16, 0x8a, 0x37, 0x8a, 0x35, 0x27, 0x22, 0x8a, 0x33, 0x8a, 0x35, 0x32,
   0x16, 0x94, 0x31, 0x34, 0x26, 0x8a, 0x35, 0x32, 0x8a, 0x1a, 0x8a, 0x34, 0x31, 0x8a, 0x35, 0x32,
   0x26, 0x94, 0x16, 0x8a, 0x38, 0x8a, 0x3c, 0x32, 0x20, 0x8a, 0x38, 0x8a, 0x3a, 0x1d, 0x8a, 0x3c,
   0x8a, 0x3a, 0x26, 0x22, 0x8a, 0x38, 0x8a, 0x33, 0x3f, 0x27, 0x8a, 0x3f, 0x33, 0x8a, 0x3f, 0x33,
   0x1e, 0xa8, 0x3c, 0x33, 0x27, 0x94, 0x3a, 0x33, 0x27, 0x94, 0x2b, 0x2e, 0x8a, 0x2e, 0x2b, 0x8a]

/-- Bytes 2944 to 3071 of `music1`. -/
def music1_part23 : List Nat :=
  [0x2e, 0x2b, 0x94, 0x2e, 0x2b, 0x94, 0x2c, 0x29, 0x14, 0x94, 0x2b, 0x28, 0x20, 0x8a, 0x2c, 0x29,
   0x8a, 0x18, 0x8a, 0x2b, 0x28, 0x8a, 0x2c, 0x29, 0x24, 0x94, 0x14, 0x8a, 0x30, 0x8a, 0x35, 0x2c,
   0x24, 0x8a, 0x30, 0x8a, 0x33, 0x18, 0x8a, 0x35, 0x8a, 0x33, 0x24, 0x20, 0x8a, 0x30, 0x8a, 0x2e,
   0x2b, 0x1b, 0x94, 0x2d, 0x2a, 0x27, 0x8a, 0x2e, 0x2b, 0x8a, 0x16, 0x8a, 0x2a, 0x2d, 0x8a, 0x2e,
   0x2b, 0x27, 0x94, 0x1b, 0x8a, 0x33, 0x8a, 0x37, 0x2e, 0x27, 0x8a, 0x33, 0x8a, 0x35, 0x16, 0x8a,
   0x37, 0x8a, 0x35, 0x22, 0x1f, 0x8a, 0x33, 0x8a, 0x30, 0x20, 0x14, 0x8a, 0x2f, 0x8a, 0x30, 0x1d,
   0x11, 0x8a, 0x3a, 0x30, 0x8a, 0x1f, 0x13, 0x8a, 0x38, 0x30, 0x8a, 0x20, 0x14, 0x8a, 0x33, 0x30,
   0x8a, 0x37, 0x2e, 0x22, 0x8a, 0x36, 0x8a, 0x37, 0x2b, 0x27, 0x8a, 0x3c, 0x8a, 0x21, 0x27, 0x2a]

/-- Bytes 3072 to 3112 of `music1`. -/
def music1_part24 : List Nat :=
  [0x8a, 0x3f, 0x8a, 0x3a, 0x2b, 0x27, 0x8a, 0x37, 0x8a, 0x33, 0x2d, 0x24, 0x94, 0x33, 0x2d, 0x1d,
   0x94, 0x37, 0x32, 0x2c, 0x8a, 0x35, 0x2c, 0x32, 0x8a, 0x26, 0x1a, 0x8a, 0x33, 0x2e, 0x2b, 0x8a,
   0x27, 0x1b, 0x94, 0x22, 0x16, 0x94, 0x3f, 0x3a, 0x37]

/-- The demo song `music1[]` (lines 77-79 of the source), 3114 bytes. -/
def music1 : List Nat :=
  music1_part0 ++ music1_part1 ++ music1_part2 ++ music1_part3 ++
  music1_part4 ++ music1_part5 ++ music1_part6 ++ music1_part7 ++
  music1_part8 ++ music1_part9 ++ music1_part10 ++ music1_part11 ++
  music1_part12 ++ music1_part13 ++ music1_part14 ++ music1_part15 ++
  music1_part16 ++ music1_part17 ++ music1_part18 ++ music1_part19 ++
  music1_part20 ++ music1_part21 ++ music1_part22 ++ music1_part23 ++
  music1_part24 ++ [0xff]

/-- The burst check of a song body (the bytes before the `0xFF` sentinel),
with `k` notes of the current burst already seen: every burst has at most
three notes, every byte with the high bit set ends a burst of at least one
note and has nonzero low six bits, and `0xFF` does not occur.  The result is
the number of notes of the last, unfinished burst. -/
def burst_scan : Nat → List Nat → Option Nat
  | k, [] => some k
  | k, b :: rest =>
    if b &&& 0x80 = 0 then (if k < 3 then burst_scan (k + 1) rest else none)
    else if b = 0xff then none
    else if 1 ≤ k ∧ b &&& 63 ≠ 0 then burst_scan 0 rest else none

/-! ## Facts about the decay pass -/

theorem decay_all_music_ptr (c0 : Nat) (s : State) :
    (decay_all c0 s).2.st.music_ptr = s.music_ptr := by
  simp only [decay_all, decay_loop, decay_step, num_voices, set_volume]
  split_ifs <;> rfl

theorem decay_all_cur_duration (c0 : Nat) (s : State) :
    (decay_all c0 s).2.st.cur_duration = s.cur_duration := by
  simp only [decay_all, decay_loop, decay_step, num_voices, set_volume]
  split_ifs <;> rfl

theorem decay_all_reads (c0 : Nat) (s : State) : (decay_all c0 s).2.reads = [] := by
  simp only [decay_all, decay_loop, decay_step, num_voices, set_volume]
  split_ifs <;> rfl

theorem decay_all_freech_lt (c0 : Nat) (s : State) : (decay_all c0 s).1 < num_voices := by
  simp only [decay_all, decay_loop, decay_step, num_voices, set_volume]
  split_ifs <;> simp

theorem decay_all_volume (c0 : Nat) (s : State) (ch : Nat) :
    ((decay_all c0 s).2.st.voice ch).volume =
      if ch < num_voices ∧ (s.voice ch).volume ≠ 0 then ((s.voice ch).volume + 255) % 256
      else (s.voice ch).volume := by
  simp only [decay_all, decay_loop, decay_step, num_voices, set_volume]
  by_cases h0 : ch = 0
  · subst h0; split_ifs <;> simp_all [Function.update]
  by_cases h1 : ch = 1
  · subst h1; split_ifs <;> simp_all [Function.update]
  by_cases h2 : ch = 2
  · subst h2; split_ifs <;> simp_all [Function.update]
  have h3 : ¬ ch < 3 := by omega
  split_ifs <;> simp_all [Function.update]

/-- The attenuation write the decay pass issues for channel `ch`, if any. -/
theorem decay_all_writes (c0 : Nat) (s : State) :
    (decay_all c0 s).2.writes =
      (List.range num_voices).filterMap (fun ch =>
        if (s.voice ch).volume ≠ 0 then
          some (ChipWrite.attenuation (c0 + ch * 2) (32 - ((s.voice ch).volume : Int)))
        else none) := by
  simp only [decay_all, decay_loop, decay_step, num_voices, set_volume]
  split_ifs <;> simp_all [Function.update, List.range_succ, List.filterMap_append]

/-! ## Facts about the decode loop -/

theorem burst_channel_zero (f : Nat) (hf : f < 3) : burst_channel f 0 = f := by
  simp only [burst_channel]; omega

theorem burst_channel_lt (f i : Nat) : burst_channel f i < 3 := by
  simp only [burst_channel]; omega

theorem burst_channel_succ (f i : Nat) :
    (if burst_channel f i ≠ 0 then burst_channel f i - 1 else num_voices - 1)
      = burst_channel f (i + 1) := by
  simp only [burst_channel, num_voices]
  split_ifs <;> omega

/-- Two writes per note. -/
theorem chord_writes_length (c0 f : Nat) (notes : List Nat) :
    ∀ j, (chord_writes c0 f j notes).length = 2 * notes.length := by
  induction notes with
  | nil => intro j; rfl
  | cons n ns ih => intro j; simp only [chord_writes, List.length_cons, ih (j + 1)]; ring

/-- The writes of `chord_writes` by position: the note at position `i` of
the list owns the writes at positions `2 * i` and `2 * i + 1`. -/
theorem chord_writes_getElem (c0 f : Nat) (notes : List Nat) :
    ∀ (j i : Nat), i < notes.length →
      (chord_writes c0 f j notes)[2 * i]?
        = some (ChipWrite.attenuation (c0 + burst_channel f (j + i) * 2) 32) ∧
      (chord_writes c0 f j notes)[2 * i + 1]?
        = some (ChipWrite.frequency (c0 + burst_channel f (j + i) * 2)
            (note_table.getD (notes.getD i 0 &&& 63) 0)) := by
  induction notes with
  | nil => intro j i hi; simp at hi
  | cons n ns ih =>
    intro j i hi
    cases i with
    | zero => simp [chord_writes]
    | succ i =>
      have hi2 : i < ns.length := by simpa using hi
      obtain ⟨h1, h2⟩ := ih (j + 1) i hi2
      have e1 : 2 * (i + 1) = (2 * i + 1) + 1 := by ring
      have e2 : 2 * (i + 1) + 1 = ((2 * i + 1) + 1) + 1 := by ring
      have e3 : j + 1 + i = j + (i + 1) := by ring
      rw [e3] at h1 h2
      refine ⟨?_, ?_⟩
      · rw [e1]
        simp only [chord_writes, List.getElem?_cons_succ]
        exact h1
      · rw [e2]
        simp only [chord_writes, List.getElem?_cons_succ, List.getD_cons_succ]
        exact h2

/-- A fetch changes the cursor only. -/
theorem next_music_byte_frame (s : State) (b : Nat) (s1 : State)
    (h : next_music_byte s = some (b, s1)) :
    s1.voice = s.voice ∧ s1.music_index = s.music_index ∧ s1.cur_duration = s.cur_duration := by
  unfold next_music_byte at h
  split at h
  · simp only [Option.some.injEq, Prod.mk.injEq] at h
    obtain ⟨_, rfl⟩ := h
    exact ⟨rfl, rfl, rfl⟩
  · simp at h

/-- With a nonzero duration counter the loop body is not entered. -/
theorem decode_loop_armed (c0 : Nat) (stream : List Nat) (ch : Nat) (r : Run)
    (hd : r.st.cur_duration ≠ 0) : decode_loop c0 stream ch r = some r := by
  unfold decode_loop
  simp [hd]

/-- One iteration on a note byte. -/
theorem decode_loop_note (c0 note : Nat) (rest : List Nat) (ch : Nat) (r : Run)
    (hd : r.st.cur_duration = 0) (hp : r.st.music_ptr = some (note :: rest))
    (hn : note &&& 0x80 = 0) :
    decode_loop c0 (note :: rest) ch r =
      decode_loop c0 rest (if ch ≠ 0 then ch - 1 else num_voices - 1)
        { st := set_volume { r.st with music_ptr := some rest } ch 31
          writes := r.writes ++
            [ChipWrite.attenuation (c0 + ch * 2) 32,
             ChipWrite.frequency (c0 + ch * 2) (note_table.getD (note &&& 63) 0)]
          reads := r.reads ++ [note] } := by
  conv_lhs => unfold decode_loop
  simp [hd, hp, hn, next_music_byte]

/-- One iteration on a byte with the high bit set and nonzero low six bits:
the loop ends there. -/
theorem decode_loop_stop (c0 t : Nat) (rest : List Nat) (ch : Nat) (r : Run)
    (hd : r.st.cur_duration = 0) (hp : r.st.music_ptr = some (t :: rest))
    (ht : t &&& 0x80 ≠ 0) (hlow : t &&& 63 ≠ 0) :
    decode_loop c0 (t :: rest) ch r =
      some { st := { r.st with
                     music_ptr := if t = 0xff then none else some rest
                     cur_duration := t &&& 63 }
             writes := r.writes
             reads := r.reads ++ [t] } := by
  conv_lhs => unfold decode_loop
  simp only [hd, hp, ht, if_true, if_false, next_music_byte]
  rw [decode_loop_armed]
  exact hlow

/-- A burst of note bytes: the loop triggers them on the voices
`burst_channel f i`, `burst_channel f (i+1)`, ... and goes on with the bytes
after the burst. -/
theorem decode_loop_burst (c0 f : Nat) (notes tail : List Nat)
    (hnotes : ∀ n ∈ notes, n &&& 0x80 = 0) :
    ∀ (i : Nat) (r : Run), r.st.cur_duration = 0 → r.st.music_ptr = some (notes ++ tail) →
      ∃ r1 : Run,
        decode_loop c0 (notes ++ tail) (burst_channel f i) r
          = decode_loop c0 tail (burst_channel f (i + notes.length)) r1 ∧
        r1.writes = r.writes ++ chord_writes c0 f i notes ∧
        r1.reads = r.reads ++ notes ∧
        r1.st.cur_duration = 0 ∧
        r1.st.music_ptr = some tail ∧
        r1.st.music_index = r.st.music_index ∧
        ∀ k, (r1.st.voice k).volume = 31 ∨ r1.st.voice k = r.st.voice k := by
  induction notes with
  | nil =>
    intro i r hd hp
    exact ⟨r, by simp, by simp [chord_writes], by simp, hd, by simpa using hp, rfl,
      fun k => Or.inr rfl⟩
  | cons n ns ih =>
    intro i r hd hp
    have hn : n &&& 0x80 = 0 := hnotes n (List.mem_cons_self _ _)
    have hns : ∀ m ∈ ns, m &&& 0x80 = 0 := fun m hm => hnotes m (List.mem_cons_of_mem _ hm)
    obtain ⟨r1, h1, h2, h3, h4, h5, h6, h7⟩ := ih hns (i + 1)
      { st := set_volume { r.st with music_ptr := some (ns ++ tail) } (burst_channel f i) 31
        writes := r.writes ++
          [ChipWrite.attenuation (c0 + burst_channel f i * 2) 32,
           ChipWrite.frequency (c0 + burst_channel f i * 2) (note_table.getD (n &&& 63) 0)]
        reads := r.reads ++ [n] }
      (by simpa [set_volume] using hd) (by simp [set_volume])
    refine ⟨r1, ?_, ?_, ?_, h4, h5, ?_, ?_⟩
    · rw [List.cons_append, decode_loop_note c0 n (ns ++ tail) _ r hd hp hn,
        burst_channel_succ, h1]
      simp [Nat.add_assoc, Nat.add_comm 1]
    · rw [h2]; simp [chord_writes]
    · rw [h3]; simp
    · rw [h6]; simp [set_volume]
    · intro k
      rcases h7 k with h | h
      · exact Or.inl h
      · rw [h]
        by_cases hk : k = burst_channel f i
        · subst hk; left; simp [set_volume]
        · right; simp [set_volume, Function.update, hk]

/-- What a returning decode loop leaves: volumes are untouched or 31, the
writes and reads are extended, `music_index` is kept, and the duration counter
is nonzero, being either the one the loop found or a six-bit value. -/
theorem decode_loop_frame (c0 : Nat) (stream : List Nat) :
    ∀ (ch : Nat) (r r1 : Run), decode_loop c0 stream ch r = some r1 →
      (∀ k, (r1.st.voice k).volume = 31 ∨ r1.st.voice k = r.st.voice k) ∧
      r.writes <+: r1.writes ∧ r.reads <+: r1.reads ∧
      r1.st.music_index = r.st.music_index ∧
      r1.st.cur_duration ≠ 0 ∧
      (r1.st.cur_duration ≤ 63 ∨ r1 = r) := by
  induction stream with
  | nil =>
    intro ch r r1 h
    unfold decode_loop at h
    by_cases hd : r.st.cur_duration = 0
    · simp [hd] at h
    · simp only [hd, if_false, Option.some.injEq] at h
      subst h
      exact ⟨fun k => Or.inr rfl, List.prefix_refl _, List.prefix_refl _, rfl, hd, Or.inr rfl⟩
  | cons head rest ih =>
    intro ch r r1 h
    unfold decode_loop at h
    by_cases hd : r.st.cur_duration = 0
    · cases hnb : next_music_byte r.st with
      | none => simp [hd, hnb] at h
      | some x =>
        obtain ⟨note, st⟩ := x
        obtain ⟨hv, hi, hc⟩ := next_music_byte_frame r.st note st hnb
        by_cases hn : note &&& 0x80 = 0
        · simp only [hd, hnb, hn, if_true] at h
          obtain ⟨h1, h2, h3, h4, h5, h6⟩ := ih _ _ _ h
          refine ⟨?_, ?_, ?_, ?_, h5, ?_⟩
          · intro k
            rcases h1 k with hk | hk
            · exact Or.inl hk
            · rw [hk]
              by_cases hkc : k = ch
              · subst hkc; left; simp [set_volume]
              · right; simp [set_volume, Function.update, hkc, hv]
          · exact (List.prefix_append _ _).trans h2
          · exact (List.prefix_append _ _).trans h3
          · rw [h4]; simp [set_volume, hi]
          · rcases h6 with h6 | h6
            · exact Or.inl h6
            · exfalso; apply h5; rw [h6]; simp [set_volume, hc, hd]
        · simp only [hd, hnb, hn, if_true, if_false] at h
          obtain ⟨h1, h2, h3, h4, h5, h6⟩ := ih _ _ _ h
          refine ⟨?_, h2, ?_, ?_, h5, ?_⟩
          · intro k
            rcases h1 k with hk | hk
            · exact Or.inl hk
            · exact Or.inr (by rw [hk, ← hv])
          · exact (List.prefix_append _ _).trans h3
          · rw [h4]; exact hi
          · rcases h6 with h6 | h6
            · exact Or.inl h6
            · left; rw [h6]; exact Nat.and_le_right
    · simp only [hd, if_false, Option.some.injEq] at h
      subst h
      exact ⟨fun k => Or.inr rfl, List.prefix_refl _, List.prefix_refl _, rfl, hd, Or.inr rfl⟩

/-! ## Facts about whole updates -/

/-- An update without a cursor is the decay pass alone. -/
theorem music_update_idle (c0 : Nat) (s : State) (hp : s.music_ptr = none) :
    music_update c0 s = some (decay_all c0 s).2 := by
  simp only [music_update, decay_all_music_ptr, hp]

/-- An update with a cursor and a nonzero duration counter: the decay pass and
the decrement of the counter. -/
theorem music_update_armed (c0 : Nat) (s : State) (p : List Nat)
    (hp : s.music_ptr = some p) (hd : s.cur_duration ≠ 0) :
    music_update c0 s =
      some { (decay_all c0 s).2 with
             st := { (decay_all c0 s).2.st with
                     cur_duration := (s.cur_duration + 255) % 256 } } := by
  simp only [music_update, decay_all_music_ptr, hp]
  rw [decode_loop_armed _ _ _ _ (by rw [decay_all_cur_duration]; exact hd)]
  simp only [decay_all_cur_duration, decay_all_music_ptr, hp]

/-- An update that decodes a burst of notes ended by a byte with the high bit
set and nonzero low six bits. -/
theorem music_update_burst (c0 : Nat) (s : State) (notes : List Nat) (t : Nat)
    (rest : List Nat) (hd : s.cur_duration = 0)
    (hp : s.music_ptr = some (notes ++ t :: rest))
    (hnotes : ∀ n ∈ notes, n &&& 0x80 = 0) (ht : t &&& 0x80 ≠ 0) (hlow : t &&& 63 ≠ 0) :
    ∃ r : Run, music_update c0 s = some r ∧
      r.writes = (decay_all c0 s).2.writes ++ chord_writes c0 (decay_all c0 s).1 0 notes ∧
      r.reads = notes ++ [t] ∧
      r.st.cur_duration = (t &&& 63) - 1 ∧
      r.st.music_ptr = (if t = 0xff then none else some rest) ∧
      ∀ k, (r.st.voice k).volume = 31 ∨ r.st.voice k = (decay_all c0 s).2.st.voice k := by
  have hf : (decay_all c0 s).1 < 3 := decay_all_freech_lt c0 s
  obtain ⟨r1, h1, h2, h3, h4, h5, _, h7⟩ :=
    decode_loop_burst c0 (decay_all c0 s).1 notes (t :: rest) hnotes 0 (decay_all c0 s).2
      (by rw [decay_all_cur_duration]; exact hd) (by rw [decay_all_music_ptr]; exact hp)
  rw [burst_channel_zero _ hf, decode_loop_stop c0 t rest _ r1 h4 h5 ht hlow] at h1
  have h63 : t &&& 63 ≤ 63 := Nat.and_le_right
  have hu : music_update c0 s = some
      { st := { r1.st with
                music_ptr := if t = 0xff then none else some rest
                cur_duration := ((t &&& 63) + 255) % 256 }
        writes := r1.writes
        reads := r1.reads ++ [t] } := by
    simp only [music_update, decay_all_music_ptr, hp]
    rw [h1]
  refine ⟨_, hu, ?_, ?_, ?_, ?_, ?_⟩
  · simp [h2]
  · simp [h3, decay_all_reads]
  · simp only; omega
  · simp
  · simpa using h7

/-- After a duration byte: `n` updates that only wait, then the update that
decodes the next burst. -/
theorem play_wait (c0 : Nat) (notes : List Nat) (t : Nat) (rest : List Nat)
    (hnotes : ∀ n ∈ notes, n &&& 0x80 = 0) (ht : t &&& 0x80 ≠ 0) (hlow : t &&& 63 ≠ 0) :
    ∀ (n : Nat) (s : State), s.cur_duration = n → n < 256 →
      s.music_ptr = some (notes ++ t :: rest) →
      ∃ rs : List Run, play c0 (n + 1) s = some rs ∧
        rs.map (fun r => r.reads) = List.replicate n [] ++ [notes ++ [t]] ∧
        rs.getLast?.map (fun r => r.st.music_ptr)
          = some (if t = 0xff then none else some rest) := by
  intro n
  induction n with
  | zero =>
    intro s hd _ hp
    obtain ⟨r, hu, _, hr, _, hptr, _⟩ := music_update_burst c0 s notes t rest hd hp hnotes ht hlow
    refine ⟨[r], ?_, ?_, ?_⟩
    · simp [play, hu]
    · simp [hr]
    · simp [hptr]
  | succ n ih =>
    intro s hd hlt hp
    have hne : s.cur_duration ≠ 0 := by omega
    obtain ⟨r, hu, hr, hdur, hptr⟩ :
        ∃ r : Run, music_update c0 s = some r ∧ r.reads = [] ∧
          r.st.cur_duration = (s.cur_duration + 255) % 256 ∧ r.st.music_ptr = s.music_ptr :=
      ⟨_, music_update_armed c0 s _ hp hne, decay_all_reads c0 s, rfl,
        decay_all_music_ptr c0 s⟩
    obtain ⟨rs, h1, h2, h3⟩ := ih r.st (by rw [hdur]; omega) (by omega) (by rw [hptr, hp])
    refine ⟨r :: rs, ?_, ?_, ?_⟩
    · rw [play, hu]
      simp only [h1]
    · simp [h2, hr, List.replicate_succ]
    · have hne2 : rs ≠ [] := by
        intro h; rw [h] at h2; simp at h2
      obtain ⟨x, xs, rfl⟩ := List.exists_cons_of_ne_nil hne2
      simpa [List.getLast?_cons_cons] using h3

/-- The decay pass never raises a volume that is at most 31. -/
theorem decay_all_volume_le (c0 : Nat) (s : State) (k : Nat) (h : (s.voice k).volume ≤ 31) :
    ((decay_all c0 s).2.st.voice k).volume ≤ (s.voice k).volume := by
  rw [decay_all_volume]
  split_ifs with hc
  · omega
  · exact Nat.le_refl _

/-- A returning update keeps every volume within `0 .. 31`. -/
theorem music_update_volume_le (c0 : Nat) (s : State) (r : Run)
    (hs : ∀ k, (s.voice k).volume ≤ 31) (hu : music_update c0 s = some r) :
    ∀ k, (r.st.voice k).volume ≤ 31 := by
  intro k
  have hdec : ((decay_all c0 s).2.st.voice k).volume ≤ 31 :=
    Nat.le_trans (decay_all_volume_le c0 s k (hs k)) (hs k)
  cases hp : s.music_ptr with
  | none =>
    rw [music_update_idle c0 s hp] at hu
    cases hu; exact hdec
  | some p =>
    simp only [music_update, decay_all_music_ptr, hp] at hu
    cases hdl : decode_loop c0 p (decay_all c0 s).1 (decay_all c0 s).2 with
    | none => simp [hdl] at hu
    | some r1 =>
      simp only [hdl, Option.some.injEq] at hu
      subst hu
      rcases (decode_loop_frame c0 p _ _ _ hdl).1 k with h | h
      · simp only; omega
      · simp only; rw [h]; exact hdec

/-- The state after an update of a reachable state is reachable. -/
theorem reachable_update_state (c0 : Nat) (s : State) (h : Reachable c0 s) :
    Reachable c0 (update_state c0 s) := by
  unfold update_state
  cases hu : music_update c0 s with
  | none => exact h
  | some r => exact Reachable.update s r h hu

/-- The bit masks of the bytes used in the concrete runs below. -/
theorem and_literals :
    (255 &&& 128 = 128) ∧ (255 &&& 63 = 63) ∧ (134 &&& 128 = 128) ∧ (134 &&& 63 = 6) ∧
    (5 &&& 128 = 0) ∧ (5 &&& 63 = 5) ∧ (129 &&& 128 = 128) ∧ (129 &&& 63 = 1) ∧
    (10 &&& 128 = 0) ∧ (10 &&& 63 = 10) ∧ (131 &&& 128 = 128) ∧ (131 &&& 63 = 3) ∧
    (1 &&& 128 = 0) ∧ (1 &&& 63 = 1) ∧ (2 &&& 128 = 0) ∧ (2 &&& 63 = 2) ∧
    (3 &&& 128 = 0) ∧ (3 &&& 63 = 3) ∧ (4 &&& 128 = 0) ∧ (4 &&& 63 = 4) ∧
    (160 &&& 128 = 128) ∧ (160 &&& 63 = 32) ∧ (128 &&& 128 = 128) ∧ (128 &&& 63 = 0) ∧
    (191 &&& 128 = 128) ∧ (191 &&& 63 = 63) := by
  decide

/-! ## The claims -/

/-- C1 (the code departs from the claim): `music_start` stores the cursor
but does not reset the duration counter.  Playing the one-byte song `[0xFF]`
from the initial state ends after one update with no cursor and a duration
counter of 62; `music_start` called in that state points the cursor at the
first byte of the song and leaves the duration counter at 62, not at 0. -/
theorem music_start_keeps_duration (c0 : Nat) :
    ∃ r : Run, music_update c0 (music_start [0xFF] initial_state) = some r ∧
      r.st.music_ptr = none ∧ r.st.cur_duration = 62 ∧
      (music_start [0xFF] r.st).music_ptr = some [0xFF] ∧
      (music_start [0xFF] r.st).cur_duration = 62 := by
  simp [music_update, decay_all, decay_loop, decay_step, decode_loop, next_music_byte, music_start,
    initial_state, num_voices, set_volume, and_literals]

/-- C2 (the code departs from the claim): a restart in the middle of a wait
does not decode on the next update.  After `[0x86, 0xFF]` has played for one
update the cursor is present and the duration counter is 5; after
`music_start` on `[5, 0x81, 0xFF]` the very next update reads no byte at all,
leaves the cursor on the first byte of the new stream and only counts the
stale duration down to 4. -/
theorem restart_next_update_reads_nothing (c0 : Nat) :
    ∃ r : Run, music_update c0 (music_start [0x86, 0xFF] initial_state) = some r ∧
      r.st.music_ptr = some [0xFF] ∧ r.st.cur_duration = 5 ∧
      ∃ r2 : Run, music_update c0 (music_start [5, 0x81, 0xFF] r.st) = some r2 ∧
        r2.reads = [] ∧ r2.st.music_ptr = some [5, 0x81, 0xFF] ∧ r2.st.cur_duration = 4 := by
  simp [music_update, decay_all, decay_loop, decay_step, decode_loop, next_music_byte, music_start,
    initial_state, num_voices, set_volume, and_literals]

/-- C3 (the code departs from the claim): the replay of `[5, 0x81, 0xFF]`
differs from its first playback.  From the initial state the song takes two
updates, which write the trigger of voice 2 on the first tick and its first
decay level on the second; after silencing the voices and calling
`music_start` on the same song, two updates write nothing and read nothing,
because the duration counter left at 62 by the sentinel is not reset. -/
theorem replay_differs (c0 : Nat) :
    ∃ rs : List Run, play c0 2 (music_start [5, 0x81, 0xFF] initial_state) = some rs ∧
      rs.map (fun r => r.st.music_ptr) = [some [0xFF], none] ∧
      rs.map (fun r => r.writes) =
        [[ChipWrite.attenuation (c0 + 4) 32, ChipWrite.frequency (c0 + 4) 26005],
         [ChipWrite.attenuation (c0 + 4) 1]] ∧
      ∃ last : Run, rs.getLast? = some last ∧
        ∃ rs2 : List Run,
          play c0 2 (music_start [5, 0x81, 0xFF] (silence_voices last.st)) = some rs2 ∧
          rs2.map (fun r => r.writes) = [[], []] ∧
          rs2.map (fun r => r.reads) = [[], []] := by
  simp [play, music_update, decay_all, decay_loop, decay_step, decode_loop, next_music_byte, music_start,
    initial_state, num_voices, set_volume, silence_voices, Function.update, note_table,
    and_literals]

/-- C4: decay monotonicity.  For a voice `ch` whose byte volume is `v > 0`
when `music_update` starts, the decay pass leaves its volume at `v - 1` and
emits exactly one write on its chip channel, an attenuation write.  The pass
does not look at the cursor: without a song the update is this pass alone,
and with a song its writes open the writes of the update. -/
theorem decay_monotonicity (c0 : Nat) (s : State) (ch v : Nat) (hch : ch < num_voices)
    (hv : (s.voice ch).volume = v) (hpos : 0 < v) (hbyte : v < 256) :
    ((decay_all c0 s).2.st.voice ch).volume = v - 1 ∧
    (∃ level : Int,
      (decay_all c0 s).2.writes.filter (fun w => decide (w.channel = c0 + ch * 2))
        = [ChipWrite.attenuation (c0 + ch * 2) level]) ∧
    (s.music_ptr = none → music_update c0 s = some (decay_all c0 s).2) ∧
    (∀ r : Run, music_update c0 s = some r → (decay_all c0 s).2.writes <+: r.writes) := by
  refine ⟨?_, ?_, music_update_idle c0 s, ?_⟩
  · rw [decay_all_volume, if_pos ⟨hch, by omega⟩, hv]; omega
  · refine ⟨32 - (v : Int), ?_⟩
    rw [decay_all_writes]
    have h3 : ch = 0 ∨ ch = 1 ∨ ch = 2 := by simp only [num_voices] at hch; omega
    have hv0 : (s.voice ch).volume ≠ 0 := by omega
    rcases h3 with h | h | h <;> subst h <;>
      simp only [num_voices, List.range_succ, List.range_zero, List.nil_append,
        List.cons_append, List.filterMap_cons] <;>
      split_ifs <;> simp_all [ChipWrite.channel, List.filter]
  · intro r hr
    cases hp : s.music_ptr with
    | none =>
      rw [music_update_idle c0 s hp] at hr
      cases hr; exact List.prefix_refl _
    | some p =>
      simp only [music_update, decay_all_music_ptr, hp] at hr
      cases hdl : decode_loop c0 p (decay_all c0 s).1 (decay_all c0 s).2 with
      | none => simp [hdl] at hr
      | some r1 =>
        simp only [hdl, Option.some.injEq] at hr
        subst hr
        exact (decode_loop_frame c0 p _ _ _ hdl).2.1

/-- C4, at a concrete state: voice 1 at volume 7, no song. -/
theorem decay_monotonicity_witness :
    ((decay_all 0 (set_volume initial_state 1 7)).2.st.voice 1).volume = 7 - 1 ∧
    (∃ level : Int,
      (decay_all 0 (set_volume initial_state 1 7)).2.writes.filter
          (fun w => decide (w.channel = 0 + 1 * 2))
        = [ChipWrite.attenuation (0 + 1 * 2) level]) ∧
    ((set_volume initial_state 1 7).music_ptr = none →
      music_update 0 (set_volume initial_state 1 7)
        = some (decay_all 0 (set_volume initial_state 1 7)).2) ∧
    (∀ r : Run, music_update 0 (set_volume initial_state 1 7) = some r →
      (decay_all 0 (set_volume initial_state 1 7)).2.writes <+: r.writes) :=
  decay_monotonicity 0 (set_volume initial_state 1 7) 1 7 (by decide) rfl (by decide)
    (by decide)

/-- C5 (as stated, refuted): the level the decay pass writes is not
`MAX_VOLUME - v`.  With voice 0 at volume 31, as a trigger leaves it, the pass
writes level 1 for it, while `MAX_VOLUME - 31` is 0. -/
theorem decay_level_not_max_minus_volume :
    ¬ (∀ (c0 : Nat) (s : State) (ch v : Nat), ch < num_voices → (s.voice ch).volume = v →
        0 < v → v ≤ MAX_VOLUME →
        ∀ w ∈ (decay_all c0 s).2.writes, w.channel = c0 + ch * 2 →
          w = ChipWrite.attenuation (c0 + ch * 2) ((MAX_VOLUME : Int) - (v : Int))) := by
  intro h
  have h1 := h 0 (set_volume initial_state 0 31) 0 31 (by decide) rfl (by decide) (by decide)
    (ChipWrite.attenuation 0 1) (by decide) rfl
  exact absurd h1 (by decide)

/-- C5 (amended): for a voice `ch` whose volume is `v > 0` when the update
starts, `v` at most `MAX_VOLUME`, the one write of the decay pass on its chip
channel is the attenuation write of level `32 - v`, that is
`MAX_VOLUME + 1 - v`, where `MAX_VOLUME = 31` is the volume a trigger
assigns. -/
theorem decay_level (c0 : Nat) (s : State) (ch v : Nat) (hch : ch < num_voices)
    (hv : (s.voice ch).volume = v) (hpos : 0 < v) (hmax : v ≤ MAX_VOLUME) :
    (decay_all c0 s).2.writes.filter (fun w => decide (w.channel = c0 + ch * 2))
      = [ChipWrite.attenuation (c0 + ch * 2) ((MAX_VOLUME : Int) + 1 - (v : Int))] ∧
    (MAX_VOLUME : Int) + 1 - (v : Int) = 32 - (v : Int) ∧
    1 ≤ (MAX_VOLUME : Int) + 1 - (v : Int) ∧ (MAX_VOLUME : Int) + 1 - (v : Int) ≤ 31 := by
  have hm : ((MAX_VOLUME : Nat) : Int) = 31 := rfl
  simp only [MAX_VOLUME] at hmax
  refine ⟨?_, by rw [hm]; ring, by rw [hm]; omega, by rw [hm]; omega⟩
  rw [decay_all_writes, hm]
  have h3 : ch = 0 ∨ ch = 1 ∨ ch = 2 := by simp only [num_voices] at hch; omega
  have hv0 : (s.voice ch).volume ≠ 0 := by omega
  rcases h3 with h | h | h <;> subst h <;>
    simp only [num_voices, List.range_succ, List.range_zero, List.nil_append,
      List.cons_append, List.filterMap_cons] <;>
    split_ifs <;> simp_all [ChipWrite.channel, List.filter]

/-- C5 (amended), at a concrete state: voice 2 at volume 31 gets level 1. -/
theorem decay_level_witness :
    (decay_all 0 (set_volume initial_state 2 31)).2.writes.filter
        (fun w => decide (w.channel = 0 + 2 * 2))
      = [ChipWrite.attenuation (0 + 2 * 2) ((MAX_VOLUME : Int) + 1 - ((31 : Nat) : Int))] ∧
    (MAX_VOLUME : Int) + 1 - ((31 : Nat) : Int) = 32 - ((31 : Nat) : Int) ∧
    1 ≤ (MAX_VOLUME : Int) + 1 - ((31 : Nat) : Int) ∧
    (MAX_VOLUME : Int) + 1 - ((31 : Nat) : Int) ≤ 31 :=
  decay_level 0 (set_volume initial_state 2 31) 2 31 (by decide) rfl (by decide) (by decide)

/-- C6: volume range invariant.  In every state reachable from the initial
state by `music_start` and returning `music_update` calls, every voice's
volume is at most `MAX_VOLUME = 31` (and at least 0, being a natural number),
and the byte decrement of the decay pass does not wrap: the volume after the
pass is at most the volume before it. -/
theorem volume_range (c0 : Nat) (s : State) (h : Reachable c0 s) :
    MAX_VOLUME = 31 ∧
    ∀ ch, (s.voice ch).volume ≤ MAX_VOLUME ∧
      ((decay_all c0 s).2.st.voice ch).volume ≤ (s.voice ch).volume := by
  have hinv : ∀ ch, (s.voice ch).volume ≤ 31 := by
    induction h with
    | init => intro ch; simp [initial_state]
    | start music s _ ih => intro ch; exact ih ch
    | update s r _ hu ih => exact music_update_volume_le c0 s r ih hu
  exact ⟨rfl, fun ch => ⟨hinv ch, decay_all_volume_le c0 s ch (hinv ch)⟩⟩

/-- C6, at a concrete reachable state: the state after one update of the song
`[5, 0x81, 0xFF]`, in which voice 2 has just been triggered. -/
theorem volume_range_witness :
    MAX_VOLUME = 31 ∧
    ∀ ch,
      ((update_state 0 (music_start [5, 0x81, 0xFF] initial_state)).voice ch).volume
        ≤ MAX_VOLUME ∧
      ((decay_all 0 (update_state 0 (music_start [5, 0x81, 0xFF] initial_state))).2.st.voice
          ch).volume
        ≤ ((update_state 0 (music_start [5, 0x81, 0xFF] initial_state)).voice ch).volume :=
  volume_range 0 (update_state 0 (music_start [5, 0x81, 0xFF] initial_state))
    (reachable_update_state 0 _ (Reachable.start _ _ Reachable.init))

/-- C7: idle stability.  Without a cursor `music_update` returns, reads no
byte, keeps the cursor absent and the duration counter unchanged, and its
writes are exactly the decay writes: for the voices `0, 1, 2` in this order,
one attenuation write of level `32 - volume` per voice of nonzero volume.
None of them is a frequency write; a voice of volume 0 gets no write and
stays at 0. -/
theorem idle_stability (c0 : Nat) (s : State) (hp : s.music_ptr = none) :
    ∃ r : Run, music_update c0 s = some r ∧
      r.reads = [] ∧ r.st.music_ptr = none ∧ r.st.cur_duration = s.cur_duration ∧
      r.writes = (List.range num_voices).filterMap (fun ch =>
        if (s.voice ch).volume ≠ 0 then
          some (ChipWrite.attenuation (c0 + ch * 2) (32 - ((s.voice ch).volume : Int)))
        else none) ∧
      (∀ w ∈ r.writes, w.isFrequency = false) ∧
      (∀ ch, (s.voice ch).volume = 0 →
        (r.st.voice ch).volume = 0 ∧ ∀ w ∈ r.writes, w.channel ≠ c0 + ch * 2) := by
  refine ⟨_, music_update_idle c0 s hp, decay_all_reads c0 s, ?_, decay_all_cur_duration c0 s,
    decay_all_writes c0 s, ?_, ?_⟩
  · rw [decay_all_music_ptr, hp]
  · intro w hw
    rw [decay_all_writes] at hw
    simp only [List.mem_filterMap] at hw
    obtain ⟨k, _, hk⟩ := hw
    split_ifs at hk
    cases hk; rfl
  · intro ch h0
    refine ⟨?_, ?_⟩
    · rw [decay_all_volume]; simp [h0]
    · intro w hw
      rw [decay_all_writes] at hw
      simp only [List.mem_filterMap] at hw
      obtain ⟨k, _, hk⟩ := hw
      split_ifs at hk with hk0
      cases hk
      simp only [ChipWrite.channel]
      intro hc
      have : k = ch := by omega
      subst this
      exact hk0 h0

/-- C7, at a concrete state: no cursor, voice 1 sounding at volume 7. -/
theorem idle_stability_witness :
    ∃ r : Run, music_update 0 (set_volume initial_state 1 7) = some r ∧
      r.reads = [] ∧ r.st.music_ptr = none ∧
      r.st.cur_duration = (set_volume initial_state 1 7).cur_duration ∧
      r.writes = (List.range num_voices).filterMap (fun ch =>
        if ((set_volume initial_state 1 7).voice ch).volume ≠ 0 then
          some (ChipWrite.attenuation (0 + ch * 2)
            (32 - (((set_volume initial_state 1 7).voice ch).volume : Int)))
        else none) ∧
      (∀ w ∈ r.writes, w.isFrequency = false) ∧
      (∀ ch, ((set_volume initial_state 1 7).voice ch).volume = 0 →
        (r.st.voice ch).volume = 0 ∧ ∀ w ∈ r.writes, w.channel ≠ 0 + ch * 2) :=
  idle_stability 0 (set_volume initial_state 1 7) rfl

/-- C8: sentinel termination.  From the initial state, after `music_start` on
the one-byte stream `[0xFF]`, one `music_update` returns with the cursor
cleared, having read exactly the byte `0xFF`, issued no chip write (so no
frequency write and no trigger) and left every volume at 0. -/
theorem sentinel_termination (c0 : Nat) :
    ∃ r : Run, music_update c0 (music_start [0xFF] initial_state) = some r ∧
      r.st.music_ptr = none ∧ r.reads = [0xFF] ∧ r.writes = [] ∧
      ∀ ch, (r.st.voice ch).volume = 0 := by
  simp [music_update, decay_all, decay_loop, decay_step, decode_loop, next_music_byte, music_start,
    initial_state, num_voices, set_volume, and_literals]

/-- C9: chord burst channel order.  When an update decodes a burst of notes
(bytes with the high bit clear) ended by a terminating byte (high bit set,
low six bits nonzero, `0xFF` included), with working channel `f` (the free
channel found by the decay pass, always below 3) at the start of the burst,
the update returns, reads the burst and its terminating byte, and after the
decay writes issues exactly the trigger writes of the notes in stream order:
the note at position `i` (from 0) is triggered on voice
`(f + (3 - i % 3)) % 3`, that is `f - i` modulo 3, by an attenuation write
followed by a frequency write of period `note_table[note & 63]`. -/
theorem chord_burst_order (c0 : Nat) (s : State) (notes : List Nat) (t : Nat)
    (rest : List Nat) (hd : s.cur_duration = 0)
    (hp : s.music_ptr = some (notes ++ t :: rest))
    (hnotes : ∀ n ∈ notes, n &&& 0x80 = 0) (ht : t &&& 0x80 ≠ 0) (hlow : t &&& 63 ≠ 0) :
    ∃ r : Run, music_update c0 s = some r ∧
      (decay_all c0 s).1 < 3 ∧
      r.reads = notes ++ [t] ∧
      r.writes = (decay_all c0 s).2.writes ++ chord_writes c0 (decay_all c0 s).1 0 notes ∧
      r.writes.length = (decay_all c0 s).2.writes.length + 2 * notes.length ∧
      ∀ i, i < notes.length →
        r.writes[(decay_all c0 s).2.writes.length + 2 * i]?
          = some (ChipWrite.attenuation
              (c0 + (((decay_all c0 s).1 + (3 - i % 3)) % 3) * 2) 32) ∧
        r.writes[(decay_all c0 s).2.writes.length + (2 * i + 1)]?
          = some (ChipWrite.frequency
              (c0 + (((decay_all c0 s).1 + (3 - i % 3)) % 3) * 2)
              (note_table.getD (notes.getD i 0 &&& 63) 0)) := by
  obtain ⟨r, hu, hw, hr, _⟩ := music_update_burst c0 s notes t rest hd hp hnotes ht hlow
  refine ⟨r, hu, decay_all_freech_lt c0 s, hr, hw, ?_, ?_⟩
  · rw [hw, List.length_append, chord_writes_length]
  · intro i hi
    obtain ⟨h1, h2⟩ := chord_writes_getElem c0 (decay_all c0 s).1 notes 0 i hi
    rw [Nat.zero_add] at h1 h2
    rw [hw, List.getElem?_append_right (Nat.le_add_right _ _),
      List.getElem?_append_right (Nat.le_add_right _ _), Nat.add_sub_cancel_left,
      Nat.add_sub_cancel_left]
    exact ⟨h1, h2⟩

/-- C9, on the stream `[5, 10, 0x83, 0xFF]` started from the initial state:
the working channel is 2, note 5 goes to voice 2 (chip channel 4) and note 10
to voice 1 (chip channel 2). -/
theorem chord_burst_order_witness :
    (∃ r : Run, music_update 0 (music_start [5, 10, 0x83, 0xFF] initial_state) = some r ∧
      (decay_all 0 (music_start [5, 10, 0x83, 0xFF] initial_state)).1 < 3 ∧
      r.reads = [5, 10] ++ [0x83] ∧
      r.writes = (decay_all 0 (music_start [5, 10, 0x83, 0xFF] initial_state)).2.writes ++
        chord_writes 0 (decay_all 0 (music_start [5, 10, 0x83, 0xFF] initial_state)).1 0
          [5, 10] ∧
      r.writes.length =
        (decay_all 0 (music_start [5, 10, 0x83, 0xFF] initial_state)).2.writes.length
          + 2 * [5, 10].length ∧
      ∀ i, i < [5, 10].length →
        r.writes[(decay_all 0 (music_start [5, 10, 0x83, 0xFF] initial_state)).2.writes.length
            + 2 * i]?
          = some (ChipWrite.attenuation
              (0 + (((decay_all 0 (music_start [5, 10, 0x83, 0xFF] initial_state)).1
                + (3 - i % 3)) % 3) * 2) 32) ∧
        r.writes[(decay_all 0 (music_start [5, 10, 0x83, 0xFF] initial_state)).2.writes.length
            + (2 * i + 1)]?
          = some (ChipWrite.frequency
              (0 + (((decay_all 0 (music_start [5, 10, 0x83, 0xFF] initial_state)).1
                + (3 - i % 3)) % 3) * 2)
              (note_table.getD ([5, 10].getD i 0 &&& 63) 0))) ∧
    (decay_all 0 (music_start [5, 10, 0x83, 0xFF] initial_state)).1 = 2 ∧
    (decay_all 0 (music_start [5, 10, 0x83, 0xFF] initial_state)).2.writes ++
        chord_writes 0 (decay_all 0 (music_start [5, 10, 0x83, 0xFF] initial_state)).1 0
          [5, 10]
      = [ChipWrite.attenuation 4 32, ChipWrite.frequency 4 26005,
         ChipWrite.attenuation 2 32, ChipWrite.frequency 2 19482] :=
  ⟨chord_burst_order 0 (music_start [5, 10, 0x83, 0xFF] initial_state) [5, 10] 0x83 [0xFF]
      rfl rfl (by decide) (by decide) (by decide),
    by decide, by decide⟩

/-- C10: duration timing.  Let an update (tick `t`) decode a burst of notes
and then a duration byte `b` other than `0xFF` whose low six bits are
`d >= 1`, and let the stream go on with a burst of notes ended by a
terminating byte `tb`.  Then `d + 1` consecutive updates return; the first
reads the burst up to `b`, the next `d - 1` read no byte, and the update on
tick `t + d` reads the following burst, starting with the byte after `b`.
If `tb` is `0xFF` the cursor is absent after that update. -/
theorem duration_timing (c0 : Nat) (s : State) (notes0 : List Nat) (b : Nat)
    (notes : List Nat) (tb : Nat) (rest : List Nat) (hd : s.cur_duration = 0)
    (hp : s.music_ptr = some (notes0 ++ b :: (notes ++ tb :: rest)))
    (hnotes0 : ∀ n ∈ notes0, n &&& 0x80 = 0)
    (hb : b &&& 0x80 ≠ 0) (hbff : b ≠ 0xff) (hdur : 1 ≤ b &&& 63)
    (hnotes : ∀ n ∈ notes, n &&& 0x80 = 0) (htb : tb &&& 0x80 ≠ 0) (hlow : tb &&& 63 ≠ 0) :
    ∃ rs : List Run, play c0 ((b &&& 63) + 1) s = some rs ∧
      rs.map (fun r => r.reads) =
        (notes0 ++ [b]) :: (List.replicate ((b &&& 63) - 1) [] ++ [notes ++ [tb]]) ∧
      rs.getLast?.map (fun r => r.st.music_ptr)
        = some (if tb = 0xff then none else some rest) := by
  obtain ⟨r, hu, _, hr, hdr, hpr, _⟩ :=
    music_update_burst c0 s notes0 b (notes ++ tb :: rest) hd hp hnotes0 hb (by omega)
  have h63 : b &&& 63 ≤ 63 := Nat.and_le_right
  rw [if_neg hbff] at hpr
  obtain ⟨rs, h1, h2, h3⟩ := play_wait c0 notes tb rest hnotes htb hlow ((b &&& 63) - 1) r.st
    hdr (by omega) hpr
  have hn : (b &&& 63) - 1 + 1 = (b &&& 63) := by omega
  rw [hn] at h1
  refine ⟨r :: rs, ?_, ?_, ?_⟩
  · rw [play, hu]
    simp only [h1]
  · simp [h2, hr]
  · have hne2 : rs ≠ [] := by
      intro h; rw [h] at h2; simp at h2
    obtain ⟨x, xs, rfl⟩ := List.exists_cons_of_ne_nil hne2
    simpa [List.getLast?_cons_cons] using h3

/-- C10, on the stream `[5, 10, 0x83, 0xFF]` started from the initial state:
four updates return; the first reads `5, 10, 0x83`, the second and third read
nothing, the fourth reads `0xFF` and leaves no cursor. -/
theorem duration_timing_witness :
    (∃ rs : List Run,
      play 0 ((0x83 &&& 63) + 1) (music_start [5, 10, 0x83, 0xFF] initial_state) = some rs ∧
      rs.map (fun r => r.reads) =
        ([5, 10] ++ [0x83]) :: (List.replicate ((0x83 &&& 63) - 1) [] ++ [[] ++ [0xFF]]) ∧
      rs.getLast?.map (fun r => r.st.music_ptr)
        = some (if 0xFF = 0xff then none else some [])) ∧
    (0x83 &&& 63) + 1 = 4 ∧
    ([5, 10] ++ [0x83]) :: (List.replicate ((0x83 &&& 63) - 1) [] ++ [[] ++ [0xFF]])
      = [[5, 10, 0x83], [], [], [0xFF]] :=
  ⟨duration_timing 0 (music_start [5, 10, 0x83, 0xFF] initial_state) [5, 10] 0x83 [] 0xFF []
      rfl rfl (by decide) (by decide) (by decide) (by decide) (by decide) (by decide)
      (by decide),
    by decide, by decide⟩

/-! ## Channel selection -/

/-- The free channel the decay pass returns: the last voice of `0, 1, 2`
whose volume was zero when the pass started, and 0 when there is none. -/
theorem decay_all_freech (c0 : Nat) (s : State) :
    (decay_all c0 s).1 =
      if (s.voice 2).volume = 0 then 2 else if (s.voice 1).volume = 0 then 1 else 0 := by
  simp only [decay_all, decay_loop, decay_step, num_voices, set_volume]
  split_ifs <;> simp_all [Function.update]

/-- An update that decodes a burst beginning with the note `note`: after the
decay writes come the trigger writes of `note` on the free channel, then
those of the other notes. -/
theorem music_update_first_note (c0 : Nat) (s : State) (note : Nat) (notes : List Nat)
    (t : Nat) (rest : List Nat) (hd : s.cur_duration = 0)
    (hp : s.music_ptr = some (note :: (notes ++ t :: rest)))
    (hnote : note &&& 0x80 = 0) (hnotes : ∀ n ∈ notes, n &&& 0x80 = 0)
    (ht : t &&& 0x80 ≠ 0) (hlow : t &&& 63 ≠ 0) :
    ∃ r : Run, music_update c0 s = some r ∧
      r.reads = note :: (notes ++ [t]) ∧
      r.writes = (decay_all c0 s).2.writes ++
        (ChipWrite.attenuation (c0 + (decay_all c0 s).1 * 2) 32 ::
         ChipWrite.frequency (c0 + (decay_all c0 s).1 * 2) (note_table.getD (note &&& 63) 0) ::
         chord_writes c0 (decay_all c0 s).1 1 notes) := by
  have hall : ∀ n ∈ note :: notes, n &&& 0x80 = 0 := by
    intro n hn
    rcases List.mem_cons.mp hn with h | h
    · rw [h]; exact hnote
    · exact hnotes n h
  obtain ⟨r, hu, hw, hr, _⟩ :=
    music_update_burst c0 s (note :: notes) t rest hd (by simpa using hp) hall ht hlow
  refine ⟨r, hu, by simpa using hr, ?_⟩
  rw [hw]
  simp only [chord_writes, burst_channel_zero _ (decay_all_freech_lt c0 s), Nat.zero_add]

/-- The mask `& 63` keeps the value modulo 64. -/
theorem and_63 (b : Nat) : b &&& 63 = b % 64 := Nat.and_pow_two_sub_one_eq_mod b 6

/-- The mask `& 0x80` isolates bit 7. -/
theorem and_0x80 (b : Nat) : b &&& 0x80 = (b / 128 % 2) * 128 := by
  have h := Nat.and_two_pow b 7
  rw [Nat.testBit_to_div_mod] at h
  have e : (2 : Nat) ^ 7 = 128 := by norm_num
  rw [e] at h
  rw [show (0x80 : Nat) = 128 from rfl, h]
  have h2 : b / 128 % 2 = 0 ∨ b / 128 % 2 = 1 := by omega
  rcases h2 with h2 | h2 <;> simp [h2]

/-- One iteration on a byte with the high bit set and zero low six bits: the
counter stays 0, the cursor stays, and the loop goes on. -/
theorem decode_loop_zero_duration (c0 t : Nat) (rest : List Nat) (ch : Nat) (r : Run)
    (hd : r.st.cur_duration = 0) (hp : r.st.music_ptr = some (t :: rest))
    (ht : t &&& 0x80 ≠ 0) (hlow : t &&& 63 = 0) :
    decode_loop c0 (t :: rest) ch r =
      decode_loop c0 rest ch
        { st := { r.st with music_ptr := some rest, cur_duration := 0 }
          writes := r.writes
          reads := r.reads ++ [t] } := by
  have hne : t ≠ 0xff := by
    intro h; rw [h] at hlow; exact absurd hlow (by decide)
  conv_lhs => unfold decode_loop
  simp only [hd, hp, ht, if_true, if_false, next_music_byte, hne, hlow]

/-- An update with a cursor is the decay pass, the decode loop and the byte
decrement of the counter. -/
theorem music_update_decompose (c0 : Nat) (s : State) (p : List Nat) (r : Run)
    (hp : s.music_ptr = some p) (hu : music_update c0 s = some r) :
    ∃ r1 : Run, decode_loop c0 p (decay_all c0 s).1 (decay_all c0 s).2 = some r1 ∧
      r = { r1 with st := { r1.st with cur_duration := (r1.st.cur_duration + 255) % 256 } } := by
  simp only [music_update, decay_all_music_ptr, hp] at hu
  cases hdl : decode_loop c0 p (decay_all c0 s).1 (decay_all c0 s).2 with
  | none => simp [hdl] at hu
  | some r1 =>
    simp only [hdl, Option.some.injEq] at hu
    exact ⟨r1, rfl, hu.symm⟩

/-- The decay pass issues attenuation writes only. -/
theorem decay_all_no_frequency (c0 : Nat) (s : State) :
    ∀ w ∈ (decay_all c0 s).2.writes, w.isFrequency = false := by
  intro w hw
  rw [decay_all_writes] at hw
  simp only [List.mem_filterMap] at hw
  obtain ⟨k, _, hk⟩ := hw
  split_ifs at hk
  cases hk; rfl

/-- The levels the decay pass writes when every volume is at most 31. -/
theorem decay_all_levels (c0 : Nat) (s : State) (hs : ∀ k, (s.voice k).volume ≤ 31) :
    ∀ w ∈ (decay_all c0 s).2.writes,
      ∃ (ch : Nat) (l : Int), ch < num_voices ∧ w = ChipWrite.attenuation (c0 + ch * 2) l ∧
        l = 32 - ((s.voice ch).volume : Int) ∧ 1 ≤ l ∧ l ≤ 31 := by
  intro w hw
  rw [decay_all_writes] at hw
  simp only [List.mem_filterMap, List.mem_range] at hw
  obtain ⟨k, hk3, hk⟩ := hw
  split_ifs at hk with hk0
  cases hk
  have := hs k
  exact ⟨k, _, hk3, rfl, rfl, by omega, by omega⟩

/-- Reachable states have all volumes at most 31. -/
theorem reachable_volume_le (c0 : Nat) (s : State) (h : Reachable c0 s) :
    ∀ k, (s.voice k).volume ≤ 31 := by
  induction h with
  | init => intro ch; simp [initial_state]
  | start music s _ ih => intro ch; exact ih ch
  | update s r _ hu ih => exact music_update_volume_le c0 s r ih hu

/-- C14: trigger effect.  Decoding a note byte `b < 0x80` with working
channel `ch` appends to the chip writes exactly one attenuation write and one
frequency write, both on the chip channel of voice `ch`, the frequency write
with the value `note_table[b & 63]`; it sets the volume of voice `ch` to
`MAX_VOLUME = 31` and leaves every other voice as it was; the loop goes on
with the next byte and the next working channel.  In an update whose burst is
the single note `b` followed by a terminating byte `t`, the update returns,
the working channel is the free channel `f` of the decay pass, voice `f` ends
at volume 31 and every other voice at the volume the decay pass left. -/
theorem trigger_effect (c0 : Nat) (s : State) (b t : Nat) (rest : List Nat)
    (hb : b < 0x80) (hd : s.cur_duration = 0) (hp : s.music_ptr = some (b :: t :: rest))
    (ht : t &&& 0x80 ≠ 0) (hlow : t &&& 63 ≠ 0) :
    (∀ (ch : Nat) (r : Run) (tail : List Nat), r.st.cur_duration = 0 →
      r.st.music_ptr = some (b :: tail) →
      ∃ r1 : Run,
        decode_loop c0 (b :: tail) ch r
          = decode_loop c0 tail (if ch ≠ 0 then ch - 1 else num_voices - 1) r1 ∧
        r1.writes = r.writes ++
          [ChipWrite.attenuation (c0 + ch * 2) 32,
           ChipWrite.frequency (c0 + ch * 2) (note_table.getD (b &&& 63) 0)] ∧
        (r1.st.voice ch).volume = MAX_VOLUME ∧
        (∀ k, k ≠ ch → r1.st.voice k = r.st.voice k) ∧
        r1.reads = r.reads ++ [b] ∧ r1.st.music_ptr = some tail ∧
        r1.st.cur_duration = 0) ∧
    MAX_VOLUME = 31 ∧
    ∃ r : Run, music_update c0 s = some r ∧
      r.writes = (decay_all c0 s).2.writes ++
        [ChipWrite.attenuation (c0 + (decay_all c0 s).1 * 2) 32,
         ChipWrite.frequency (c0 + (decay_all c0 s).1 * 2) (note_table.getD (b &&& 63) 0)] ∧
      (r.st.voice (decay_all c0 s).1).volume = MAX_VOLUME ∧
      ∀ k, k ≠ (decay_all c0 s).1 → r.st.voice k = (decay_all c0 s).2.st.voice k := by
  have hnote : b &&& 0x80 = 0 := by rw [and_0x80]; omega
  refine ⟨?_, rfl, ?_⟩
  · intro ch r tail hrd hrp
    refine ⟨_, decode_loop_note c0 b tail ch r hrd hrp hnote, rfl, ?_, ?_, rfl, rfl, ?_⟩
    · simp [set_volume, MAX_VOLUME]
    · intro k hk
      simp [set_volume, Function.update, hk]
    · simpa [set_volume] using hrd
  · have hu : music_update c0 s = some
        { st := { set_volume { (decay_all c0 s).2.st with music_ptr := some (t :: rest) }
                    (decay_all c0 s).1 31 with
                  music_ptr := if t = 0xff then none else some rest
                  cur_duration := ((t &&& 63) + 255) % 256 }
          writes := (decay_all c0 s).2.writes ++
            [ChipWrite.attenuation (c0 + (decay_all c0 s).1 * 2) 32,
             ChipWrite.frequency (c0 + (decay_all c0 s).1 * 2)
               (note_table.getD (b &&& 63) 0)]
          reads := (decay_all c0 s).2.reads ++ [b] ++ [t] } := by
      simp only [music_update, decay_all_music_ptr, hp]
      rw [decode_loop_note c0 b (t :: rest) _ _ (by rw [decay_all_cur_duration]; exact hd)
        (by rw [decay_all_music_ptr]; exact hp) hnote]
      rw [decode_loop_stop c0 t rest _ _ (by simp [set_volume, decay_all_cur_duration, hd])
        (by simp [set_volume]) ht hlow]
    refine ⟨_, hu, rfl, ?_, ?_⟩
    · simp [set_volume, MAX_VOLUME]
    · intro k hk
      simp [set_volume, Function.update, hk]

/-- C14, on the stream `[5, 0x81, 0xFF]` started from the initial state. -/
theorem trigger_effect_witness :
    (∀ (ch : Nat) (r : Run) (tail : List Nat), r.st.cur_duration = 0 →
      r.st.music_ptr = some (5 :: tail) →
      ∃ r1 : Run,
        decode_loop 0 (5 :: tail) ch r
          = decode_loop 0 tail (if ch ≠ 0 then ch - 1 else num_voices - 1) r1 ∧
        r1.writes = r.writes ++
          [ChipWrite.attenuation (0 + ch * 2) 32,
           ChipWrite.frequency (0 + ch * 2) (note_table.getD (5 &&& 63) 0)] ∧
        (r1.st.voice ch).volume = MAX_VOLUME ∧
        (∀ k, k ≠ ch → r1.st.voice k = r.st.voice k) ∧
        r1.reads = r.reads ++ [5] ∧ r1.st.music_ptr = some tail ∧
        r1.st.cur_duration = 0) ∧
    MAX_VOLUME = 31 ∧
    ∃ r : Run, music_update 0 (music_start [5, 0x81, 0xFF] initial_state) = some r ∧
      r.writes = (decay_all 0 (music_start [5, 0x81, 0xFF] initial_state)).2.writes ++
        [ChipWrite.attenuation
           (0 + (decay_all 0 (music_start [5, 0x81, 0xFF] initial_state)).1 * 2) 32,
         ChipWrite.frequency
           (0 + (decay_all 0 (music_start [5, 0x81, 0xFF] initial_state)).1 * 2)
           (note_table.getD (5 &&& 63) 0)] ∧
      (r.st.voice (decay_all 0 (music_start [5, 0x81, 0xFF] initial_state)).1).volume
        = MAX_VOLUME ∧
      ∀ k, k ≠ (decay_all 0 (music_start [5, 0x81, 0xFF] initial_state)).1 →
        r.st.voice k = (decay_all 0 (music_start [5, 0x81, 0xFF] initial_state)).2.st.voice k :=
  trigger_effect 0 (music_start [5, 0x81, 0xFF] initial_state) 5 0x81 [0xFF]
    (by decide) rfl rfl (by decide) (by decide)

/-- C15 (as stated, refuted): the trigger level is neither 0 nor below the
decay levels.  On the stream `[5, 0x81, 0xFF]` the first update triggers
voice 2 with the attenuation write of level 32, and the decay pass of the
second update writes level 1 for the same voice: 32 is not
`MAX_VOLUME - MAX_VOLUME` and is not lower than 1. -/
theorem trigger_level_not_full_volume :
    ∃ rs : List Run, play 0 2 (music_start [5, 0x81, 0xFF] initial_state) = some rs ∧
      rs.map (fun r => r.writes) =
        [[ChipWrite.attenuation 4 32, ChipWrite.frequency 4 26005],
         [ChipWrite.attenuation 4 1]] ∧
      (32 : Int) ≠ (MAX_VOLUME : Int) - (MAX_VOLUME : Int) ∧ ¬ ((32 : Int) < 1) := by
  simp [play, music_update, decay_all, decay_loop, decay_step, decode_loop, next_music_byte,
    music_start, initial_state, num_voices, set_volume, Function.update, note_table,
    and_literals, MAX_VOLUME]

/-- C15 (amended): the attenuation level written by a note trigger is 32,
that is `MAX_VOLUME + 1`, whatever the note and the working channel; every
level the decay pass writes in a reachable state is `32 - volume` for a
volume in `1 .. 31`, so it lies in `1 .. 31` and is strictly lower than the
trigger level. -/
theorem trigger_level (c0 : Nat) (s : State) (h : Reachable c0 s) :
    (∀ (b ch : Nat) (r : Run) (tail : List Nat), b &&& 0x80 = 0 → r.st.cur_duration = 0 →
      r.st.music_ptr = some (b :: tail) →
      ∃ r1 : Run,
        decode_loop c0 (b :: tail) ch r
          = decode_loop c0 tail (if ch ≠ 0 then ch - 1 else num_voices - 1) r1 ∧
        r1.writes = r.writes ++
          [ChipWrite.attenuation (c0 + ch * 2) ((MAX_VOLUME : Int) + 1),
           ChipWrite.frequency (c0 + ch * 2) (note_table.getD (b &&& 63) 0)]) ∧
    (MAX_VOLUME : Int) + 1 = 32 ∧
    ∀ w ∈ (decay_all c0 s).2.writes,
      ∃ (ch : Nat) (l : Int), ch < num_voices ∧ w = ChipWrite.attenuation (c0 + ch * 2) l ∧
        l = (MAX_VOLUME : Int) + 1 - ((s.voice ch).volume : Int) ∧
        1 ≤ l ∧ l ≤ 31 ∧ l < (MAX_VOLUME : Int) + 1 := by
  have hm : ((MAX_VOLUME : Nat) : Int) + 1 = 32 := rfl
  refine ⟨?_, hm, ?_⟩
  · intro b ch r tail hb hrd hrp
    rw [hm]
    exact ⟨_, decode_loop_note c0 b tail ch r hrd hrp hb, rfl⟩
  · intro w hw
    obtain ⟨ch, l, h1, h2, h3, h4, h5⟩ :=
      decay_all_levels c0 s (reachable_volume_le c0 s h) w hw
    rw [hm]
    exact ⟨ch, l, h1, h2, h3, h4, h5, by omega⟩

/-- C15 (amended), at the state after the first update of `[5, 0x81, 0xFF]`,
in which voice 2 has just been triggered. -/
theorem trigger_level_witness :
    (∀ (b ch : Nat) (r : Run) (tail : List Nat), b &&& 0x80 = 0 → r.st.cur_duration = 0 →
      r.st.music_ptr = some (b :: tail) →
      ∃ r1 : Run,
        decode_loop 0 (b :: tail) ch r
          = decode_loop 0 tail (if ch ≠ 0 then ch - 1 else num_voices - 1) r1 ∧
        r1.writes = r.writes ++
          [ChipWrite.attenuation (0 + ch * 2) ((MAX_VOLUME : Int) + 1),
           ChipWrite.frequency (0 + ch * 2) (note_table.getD (b &&& 63) 0)]) ∧
    (MAX_VOLUME : Int) + 1 = 32 ∧
    ∀ w ∈ (decay_all 0 (update_state 0 (music_start [5, 0x81, 0xFF] initial_state))).2.writes,
      ∃ (ch : Nat) (l : Int), ch < num_voices ∧ w = ChipWrite.attenuation (0 + ch * 2) l ∧
        l = (MAX_VOLUME : Int) + 1
          - (((update_state 0 (music_start [5, 0x81, 0xFF] initial_state)).voice ch).volume
              : Int) ∧
        1 ≤ l ∧ l ≤ 31 ∧ l < (MAX_VOLUME : Int) + 1 :=
  trigger_level 0 (update_state 0 (music_start [5, 0x81, 0xFF] initial_state))
    (reachable_update_state 0 _ (Reachable.start _ _ Reachable.init))

/-- C16 (as stated, refuted): the byte `0x80` has the high bit set and does
not end the decode loop.  On the stream `[0x80, 5, 0x81, 0xFF]` one update
reads `0x80`, goes on to read the note 5, which it triggers on voice 2, and
stops only at `0x81`. -/
theorem zero_duration_byte_continues :
    ∃ r : Run, music_update 0 (music_start [0x80, 5, 0x81, 0xFF] initial_state) = some r ∧
      r.reads = [0x80, 5, 0x81] ∧
      r.writes = [ChipWrite.attenuation 4 32, ChipWrite.frequency 4 26005] ∧
      r.st.music_ptr = some [0xFF] := by
  simp [play, music_update, decay_all, decay_loop, decay_step, decode_loop, next_music_byte,
    music_start, initial_state, num_voices, set_volume, Function.update, note_table,
    and_literals, MAX_VOLUME]

/-- C16 (amended): for every byte `b` with the high bit set
(`0x80 <= b <= 0xFF`) other than `0x80` and `0xC0`, decoding `b` ends the
decode loop: the loop returns having read `b` last, with the duration counter
at the nonzero value `b & 63` (and the cursor absent exactly when `b` is
`0xFF`); an update that meets `b` after a burst of notes returns and reads
nothing after `b`.  For `0x80` and `0xC0` the counter stays 0, the cursor
stays present and the loop goes on with the next byte. -/
theorem high_bit_byte_ends_loop (c0 : Nat) (b : Nat) (hlo : 0x80 ≤ b) (hhi : b ≤ 0xFF)
    (h80 : b ≠ 0x80) (hc0 : b ≠ 0xC0) :
    (∀ (ch : Nat) (r : Run) (rest : List Nat), r.st.cur_duration = 0 →
      r.st.music_ptr = some (b :: rest) →
      ∃ r1 : Run, decode_loop c0 (b :: rest) ch r = some r1 ∧
        r1.reads = r.reads ++ [b] ∧ r1.writes = r.writes ∧
        r1.st.cur_duration = b &&& 63 ∧ r1.st.cur_duration ≠ 0 ∧
        r1.st.music_ptr = (if b = 0xff then none else some rest)) ∧
    (∀ (s : State) (notes rest : List Nat), s.cur_duration = 0 →
      s.music_ptr = some (notes ++ b :: rest) → (∀ n ∈ notes, n &&& 0x80 = 0) →
      ∃ r : Run, music_update c0 s = some r ∧ r.reads = notes ++ [b]) ∧
    (∀ z : Nat, z = 0x80 ∨ z = 0xC0 →
      ∀ (ch : Nat) (r : Run) (rest : List Nat), r.st.cur_duration = 0 →
        r.st.music_ptr = some (z :: rest) →
        decode_loop c0 (z :: rest) ch r =
          decode_loop c0 rest ch
            { st := { r.st with music_ptr := some rest, cur_duration := 0 }
              writes := r.writes
              reads := r.reads ++ [z] }) := by
  have hbit : b &&& 0x80 ≠ 0 := by rw [and_0x80]; omega
  have hlow : b &&& 63 ≠ 0 := by rw [and_63]; omega
  refine ⟨?_, ?_, ?_⟩
  · intro ch r rest hrd hrp
    exact ⟨_, decode_loop_stop c0 b rest ch r hrd hrp hbit hlow, rfl, rfl, rfl, hlow, rfl⟩
  · intro s notes rest hd hp hnotes
    obtain ⟨r, hu, _, hr, _⟩ := music_update_burst c0 s notes b rest hd hp hnotes hbit hlow
    exact ⟨r, hu, hr⟩
  · intro z hz ch r rest hrd hrp
    have hzbit : z &&& 0x80 ≠ 0 := by rw [and_0x80]; omega
    have hzlow : z &&& 63 = 0 := by rw [and_63]; omega
    exact decode_loop_zero_duration c0 z rest ch r hrd hrp hzbit hzlow

/-- C16 (amended), for the duration byte `0x83`. -/
theorem high_bit_byte_ends_loop_witness :
    (∀ (ch : Nat) (r : Run) (rest : List Nat), r.st.cur_duration = 0 →
      r.st.music_ptr = some (0x83 :: rest) →
      ∃ r1 : Run, decode_loop 0 (0x83 :: rest) ch r = some r1 ∧
        r1.reads = r.reads ++ [0x83] ∧ r1.writes = r.writes ∧
        r1.st.cur_duration = 0x83 &&& 63 ∧ r1.st.cur_duration ≠ 0 ∧
        r1.st.music_ptr = (if 0x83 = 0xff then none else some rest)) ∧
    (∀ (s : State) (notes rest : List Nat), s.cur_duration = 0 →
      s.music_ptr = some (notes ++ 0x83 :: rest) → (∀ n ∈ notes, n &&& 0x80 = 0) →
      ∃ r : Run, music_update 0 s = some r ∧ r.reads = notes ++ [0x83]) ∧
    (∀ z : Nat, z = 0x80 ∨ z = 0xC0 →
      ∀ (ch : Nat) (r : Run) (rest : List Nat), r.st.cur_duration = 0 →
        r.st.music_ptr = some (z :: rest) →
        decode_loop 0 (z :: rest) ch r =
          decode_loop 0 rest ch
            { st := { r.st with music_ptr := some rest, cur_duration := 0 }
              writes := r.writes
              reads := r.reads ++ [z] }) :=
  high_bit_byte_ends_loop 0 0x83 (by decide) (by decide) (by decide) (by decide)

/-- C17 (as stated, refuted): after the sentinel the duration counter is not
zero.  One update on `[0xFF]` from the initial state clears the cursor and
returns with the duration counter at 62. -/
theorem sentinel_counter_not_zero :
    ∃ r : Run, music_update 0 (music_start [0xFF] initial_state) = some r ∧
      r.reads = [0xFF] ∧ r.st.music_ptr = none ∧ r.st.cur_duration = 62 ∧
      r.st.cur_duration ≠ 0 := by
  simp [music_update, decay_all, decay_loop, decay_step, decode_loop, next_music_byte,
    music_start, initial_state, num_voices, set_volume, and_literals]

/-- C17 (amended): when an update decodes the `0xFF` sentinel, after a burst
of notes or at once, it returns with the cursor cleared and the duration
counter at 62: the loop stores `0xFF & 63 = 63` and the decrement at the end
of the update still runs. -/
theorem sentinel_update (c0 : Nat) (s : State) (notes rest : List Nat)
    (hd : s.cur_duration = 0) (hp : s.music_ptr = some (notes ++ 0xFF :: rest))
    (hnotes : ∀ n ∈ notes, n &&& 0x80 = 0) :
    ∃ r : Run, music_update c0 s = some r ∧
      r.reads = notes ++ [0xFF] ∧ r.st.music_ptr = none ∧ r.st.cur_duration = 62 := by
  obtain ⟨r, hu, _, hr, hdur, hptr, _⟩ :=
    music_update_burst c0 s notes 0xFF rest hd hp hnotes (by decide) (by decide)
  refine ⟨r, hu, hr, ?_, ?_⟩
  · rw [hptr]; rfl
  · rw [hdur]; decide

/-- C17 (amended), on the stream `[5, 0xFF]` started from the initial
state. -/
theorem sentinel_update_witness :
    ∃ r : Run, music_update 0 (music_start [5, 0xFF] initial_state) = some r ∧
      r.reads = [5] ++ [0xFF] ∧ r.st.music_ptr = none ∧ r.st.cur_duration = 62 :=
  sentinel_update 0 (music_start [5, 0xFF] initial_state) [5] [] rfl rfl (by decide)

/-- C18 (as stated, refuted): the update that consumes the sentinel does
decrement the duration counter.  On `[0xFF]` from the initial state the
decode loop returns with the cursor cleared and the counter at 63, and the
update returns with the counter at 62. -/
theorem decrement_runs_after_sentinel :
    (∃ r1 : Run,
      decode_loop 0 [0xFF] (decay_all 0 (music_start [0xFF] initial_state)).1
        (decay_all 0 (music_start [0xFF] initial_state)).2 = some r1 ∧
      r1.st.music_ptr = none ∧ r1.st.cur_duration = 63) ∧
    (∃ r : Run, music_update 0 (music_start [0xFF] initial_state) = some r ∧
      r.st.music_ptr = none ∧ r.st.cur_duration = 62) := by
  simp [music_update, decay_all, decay_loop, decay_step, decode_loop, next_music_byte,
    music_start, initial_state, num_voices, set_volume, and_literals]

/-- C18 (amended): the decrement at the end of the update happens whenever
the cursor was present when the update tested it, before the decode loop.
Every returning update that started with a cursor ends with the counter
exactly one below the nonzero value the decode loop left, whether the cursor
is still present or not; in particular the update that consumes the `0xFF`
sentinel returns with the cursor cleared and the counter at `63 - 1`. -/
theorem decrement_when_cursor_at_entry (c0 : Nat) (s : State) (p : List Nat)
    (hp : s.music_ptr = some p) (hbyte : s.cur_duration < 256) :
    (∀ r : Run, music_update c0 s = some r →
      ∃ r1 : Run, decode_loop c0 p (decay_all c0 s).1 (decay_all c0 s).2 = some r1 ∧
        1 ≤ r1.st.cur_duration ∧ r.st.cur_duration = r1.st.cur_duration - 1 ∧
        r.st.music_ptr = r1.st.music_ptr) ∧
    (∀ notes rest : List Nat, p = notes ++ 0xFF :: rest → s.cur_duration = 0 →
      (∀ n ∈ notes, n &&& 0x80 = 0) →
      ∃ r : Run, music_update c0 s = some r ∧ r.st.music_ptr = none ∧
        r.st.cur_duration = 63 - 1) := by
  refine ⟨?_, ?_⟩
  · intro r hu
    obtain ⟨r1, h1, h2⟩ := music_update_decompose c0 s p r hp hu
    obtain ⟨_, _, _, _, hne, hle⟩ := decode_loop_frame c0 p _ _ _ h1
    have hlt : r1.st.cur_duration < 256 := by
      rcases hle with h | h
      · omega
      · rw [h, decay_all_cur_duration]; exact hbyte
    refine ⟨r1, h1, by omega, ?_, ?_⟩
    · rw [h2]; simp only; omega
    · rw [h2]
  · intro notes rest hpe hd hnotes
    obtain ⟨r, hu, _, _, hdur, hptr, _⟩ :=
      music_update_burst c0 s notes 0xFF rest hd (by rw [hp, hpe]) hnotes (by decide)
        (by decide)
    refine ⟨r, hu, ?_, ?_⟩
    · rw [hptr]; rfl
    · rw [hdur]; decide

/-- C18 (amended), on the stream `[5, 0xFF]` started from the initial
state. -/
theorem decrement_when_cursor_at_entry_witness :
    (∀ r : Run, music_update 0 (music_start [5, 0xFF] initial_state) = some r →
      ∃ r1 : Run,
        decode_loop 0 [5, 0xFF] (decay_all 0 (music_start [5, 0xFF] initial_state)).1
          (decay_all 0 (music_start [5, 0xFF] initial_state)).2 = some r1 ∧
        1 ≤ r1.st.cur_duration ∧ r.st.cur_duration = r1.st.cur_duration - 1 ∧
        r.st.music_ptr = r1.st.music_ptr) ∧
    (∀ notes rest : List Nat, [5, 0xFF] = notes ++ 0xFF :: rest →
      (music_start [5, 0xFF] initial_state).cur_duration = 0 →
      (∀ n ∈ notes, n &&& 0x80 = 0) →
      ∃ r : Run, music_update 0 (music_start [5, 0xFF] initial_state) = some r ∧
        r.st.music_ptr = none ∧ r.st.cur_duration = 63 - 1) :=
  decrement_when_cursor_at_entry 0 (music_start [5, 0xFF] initial_state) [5, 0xFF]
    rfl (by decide)

/-- C20: armed tick.  With a cursor present and a byte duration counter
`n > 0`, `music_update` returns, reads no byte, issues only the decay writes
(for the voices `0, 1, 2` in this order one attenuation write of level
`32 - volume` per voice of nonzero volume; no frequency write), leaves the
cursor where it was and the duration counter at `n - 1`. -/
theorem armed_tick (c0 : Nat) (s : State) (p : List Nat) (n : Nat)
    (hp : s.music_ptr = some p) (hn : s.cur_duration = n) (hpos : 0 < n)
    (hbyte : n < 256) :
    ∃ r : Run, music_update c0 s = some r ∧
      r.reads = [] ∧
      r.writes = (List.range num_voices).filterMap (fun ch =>
        if (s.voice ch).volume ≠ 0 then
          some (ChipWrite.attenuation (c0 + ch * 2) (32 - ((s.voice ch).volume : Int)))
        else none) ∧
      (∀ w ∈ r.writes, w.isFrequency = false) ∧
      r.st.music_ptr = some p ∧ r.st.cur_duration = n - 1 ∧
      r.st.voice = (decay_all c0 s).2.st.voice := by
  have hne : s.cur_duration ≠ 0 := by omega
  refine ⟨_, music_update_armed c0 s p hp hne, decay_all_reads c0 s, decay_all_writes c0 s,
    decay_all_no_frequency c0 s, ?_, ?_, rfl⟩
  · simp only [decay_all_music_ptr, hp]
  · simp only; omega

/-- C20, at a concrete state: cursor on `[0xFF]`, duration counter 5, voice 1
at volume 7. -/
theorem armed_tick_witness :
    ∃ r : Run,
      music_update 0 { set_volume initial_state 1 7 with
                       cur_duration := 5, music_ptr := some [0xFF] } = some r ∧
      r.reads = [] ∧
      r.writes = (List.range num_voices).filterMap (fun ch =>
        if (({ set_volume initial_state 1 7 with
               cur_duration := 5, music_ptr := some [0xFF] } : State).voice ch).volume ≠ 0 then
          some (ChipWrite.attenuation (0 + ch * 2)
            (32 - ((({ set_volume initial_state 1 7 with
               cur_duration := 5, music_ptr := some [0xFF] } : State).voice ch).volume : Int)))
        else none) ∧
      (∀ w ∈ r.writes, w.isFrequency = false) ∧
      r.st.music_ptr = some [0xFF] ∧ r.st.cur_duration = 5 - 1 ∧
      r.st.voice = (decay_all 0 { set_volume initial_state 1 7 with
                       cur_duration := 5, music_ptr := some [0xFF] }).2.st.voice :=
  armed_tick 0 { set_volume initial_state 1 7 with cur_duration := 5, music_ptr := some [0xFF] }
    [0xFF] 5 rfl rfl (by decide) (by decide)

/-! ## The cursor -/

/-- A returning decode loop consumes a prefix of the bytes under the cursor:
its reads are that prefix, and it leaves the cursor on the rest, unless the
last byte it read is `0xFF`, in which case the cursor is absent. -/
theorem decode_loop_cursor (c0 : Nat) (stream : List Nat) :
    ∀ (ch : Nat) (r0 r1 : Run), r0.st.music_ptr = some stream →
      decode_loop c0 stream ch r0 = some r1 →
      ∃ consumed q : List Nat, stream = consumed ++ q ∧ r1.reads = r0.reads ++ consumed ∧
        ((r1.st.music_ptr = some q ∧ 0xFF ∉ consumed) ∨
         (r1.st.music_ptr = none ∧ consumed.getLast? = some 0xFF)) := by
  induction stream with
  | nil =>
    intro ch r0 r1 hp h
    unfold decode_loop at h
    by_cases hd : r0.st.cur_duration = 0
    · simp [hd, next_music_byte, hp] at h
    · simp only [hd, if_false, Option.some.injEq] at h
      subst h
      exact ⟨[], [], rfl, by simp, Or.inl ⟨hp, by simp⟩⟩
  | cons b rest ih =>
    intro ch r0 r1 hp h
    unfold decode_loop at h
    by_cases hd : r0.st.cur_duration = 0
    · by_cases hn : b &&& 0x80 = 0
      · simp only [hd, next_music_byte, hp, hn, if_true] at h
        obtain ⟨consumed, q, h1, h2, h3⟩ := ih _ _ _ (by simp [set_volume]) h
        have hbne : (0xFF : Nat) ≠ b := by
          intro hb; rw [← hb] at hn; exact absurd hn (by decide)
        refine ⟨b :: consumed, q, by rw [h1]; rfl, by rw [h2]; simp, ?_⟩
        rcases h3 with ⟨h3, h4⟩ | ⟨h3, h4⟩
        · left
          refine ⟨h3, ?_⟩
          intro hmem
          rcases List.mem_cons.mp hmem with hm | hm
          · exact hbne hm
          · exact h4 hm
        · right
          refine ⟨h3, ?_⟩
          cases consumed with
          | nil => simp at h4
          | cons x xs => rw [List.getLast?_cons_cons]; exact h4
      · simp only [hd, next_music_byte, hp, hn, if_true, if_false] at h
        by_cases hff : b = 0xff
        · simp only [hff, if_true] at h
          rw [decode_loop_armed _ _ _ _ (by simp [and_literals])] at h
          simp only [Option.some.injEq] at h
          subst h
          exact ⟨[0xFF], rest, by rw [hff]; rfl, rfl, Or.inr ⟨rfl, rfl⟩⟩
        · simp only [hff, if_false] at h
          obtain ⟨consumed, q, h1, h2, h3⟩ := ih _ _ _ rfl h
          refine ⟨b :: consumed, q, by rw [h1]; rfl, by rw [h2]; simp, ?_⟩
          rcases h3 with ⟨h3, h4⟩ | ⟨h3, h4⟩
          · left
            refine ⟨h3, ?_⟩
            intro hmem
            rcases List.mem_cons.mp hmem with hm | hm
            · exact hff hm.symm
            · exact h4 hm
          · right
            refine ⟨h3, ?_⟩
            cases consumed with
            | nil => simp at h4
            | cons x xs => rw [List.getLast?_cons_cons]; exact h4
    · simp only [hd, if_false, Option.some.injEq] at h
      subst h
      exact ⟨[], b :: rest, rfl, by simp, Or.inl ⟨hp, by simp⟩⟩

/-- A returning update that started with the cursor on `p` has read a prefix
of `p` and leaves the cursor on the rest, or absent if it read `0xFF`. -/
theorem music_update_cursor (c0 : Nat) (s : State) (p : List Nat) (r : Run)
    (hp : s.music_ptr = some p) (hu : music_update c0 s = some r) :
    ∃ q : List Nat, p = r.reads ++ q ∧
      ((r.st.music_ptr = some q ∧ 0xFF ∉ r.reads) ∨
       (r.st.music_ptr = none ∧ 0xFF ∈ r.reads)) := by
  obtain ⟨r1, h1, h2⟩ := music_update_decompose c0 s p r hp hu
  obtain ⟨consumed, q, h3, h4, h5⟩ :=
    decode_loop_cursor c0 p _ _ _ (by rw [decay_all_music_ptr]; exact hp) h1
  rw [decay_all_reads, List.nil_append] at h4
  have hr : r.reads = consumed := by rw [h2]; exact h4
  have hptr : r.st.music_ptr = r1.st.music_ptr := by rw [h2]
  refine ⟨q, by rw [hr]; exact h3, ?_⟩
  rw [hr, hptr]
  rcases h5 with h5 | ⟨h5, h6⟩
  · exact Or.inl h5
  · exact Or.inr ⟨h5, List.mem_of_mem_getLast? h6⟩

/-- Without a cursor any number of updates return, read nothing and leave
the cursor absent. -/
theorem play_idle (c0 : Nat) :
    ∀ (n : Nat) (s : State), s.music_ptr = none →
      ∃ rs : List Run, play c0 n s = some rs ∧ bytes_read rs = [] ∧
        (final_state s rs).music_ptr = none ∧ ∀ r ∈ rs, r.st.music_ptr = none := by
  intro n
  induction n with
  | zero => intro s hp; exact ⟨[], rfl, rfl, hp, by simp⟩
  | succ n ih =>
    intro s hp
    have hu := music_update_idle c0 s hp
    have hp1 : (decay_all c0 s).2.st.music_ptr = none := by rw [decay_all_music_ptr, hp]
    obtain ⟨rs, h1, h2, h3, h4⟩ := ih (decay_all c0 s).2.st hp1
    refine ⟨(decay_all c0 s).2 :: rs, ?_, ?_, h3, ?_⟩
    · rw [play, hu]; simp only [h1]
    · simp [bytes_read, h2, decay_all_reads]
    · intro r hr
      rcases List.mem_cons.mp hr with h | h
      · rw [h]; exact hp1
      · exact h4 r h

/-- The first `k` updates of a sequence, and the rest of it. -/
theorem play_split (c0 : Nat) :
    ∀ (k n : Nat) (s : State) (rs : List Run), play c0 n s = some rs → k ≤ n →
      play c0 k s = some (rs.take k) ∧
      play c0 (n - k) (final_state s (rs.take k)) = some (rs.drop k) := by
  intro k
  induction k with
  | zero => intro n s rs h _; exact ⟨rfl, by simpa [final_state] using h⟩
  | succ k ih =>
    intro n s rs h hk
    cases n with
    | zero => omega
    | succ n =>
      rw [play] at h
      cases hu : music_update c0 s with
      | none => simp [hu] at h
      | some r =>
        cases hpl : play c0 n r.st with
        | none => simp [hu, hpl] at h
        | some rs1 =>
          simp only [hu, hpl, Option.some.injEq] at h
          subst h
          obtain ⟨h1, h2⟩ := ih n r.st rs1 hpl (by omega)
          refine ⟨?_, ?_⟩
          · rw [play, hu]; simp only [h1, List.take_succ_cons]
          · simpa [final_state] using h2

/-- The cursor after a returning sequence of updates that started with the
cursor on `p`: the bytes read are a prefix of `p` and the cursor is on the
rest, or absent once `0xFF` has been read. -/
theorem play_cursor (c0 : Nat) :
    ∀ (n : Nat) (s : State) (p : List Nat) (rs : List Run), s.music_ptr = some p →
      play c0 n s = some rs →
      ∃ q : List Nat, p = bytes_read rs ++ q ∧
        (((final_state s rs).music_ptr = some q ∧ 0xFF ∉ bytes_read rs) ∨
         ((final_state s rs).music_ptr = none ∧ 0xFF ∈ bytes_read rs)) := by
  intro n
  induction n with
  | zero =>
    intro s p rs hp h
    simp only [play, Option.some.injEq] at h
    subst h
    exact ⟨p, rfl, Or.inl ⟨hp, by simp [bytes_read]⟩⟩
  | succ n ih =>
    intro s p rs hp h
    rw [play] at h
    cases hu : music_update c0 s with
    | none => simp [hu] at h
    | some r =>
      cases hpl : play c0 n r.st with
      | none => simp [hu, hpl] at h
      | some rs1 =>
        simp only [hu, hpl, Option.some.injEq] at h
        subst h
        obtain ⟨q1, h1, h2⟩ := music_update_cursor c0 s p r hp hu
        rcases h2 with ⟨h2, h3⟩ | ⟨h2, h3⟩
        · obtain ⟨q, h4, h5⟩ := ih r.st q1 rs1 h2 hpl
          refine ⟨q, by rw [h1, h4]; simp [bytes_read], ?_⟩
          rcases h5 with ⟨h5, h6⟩ | ⟨h5, h6⟩
          · left
            refine ⟨h5, ?_⟩
            simp only [bytes_read, List.mem_append, not_or]
            exact ⟨h3, h6⟩
          · right
            refine ⟨h5, ?_⟩
            simp only [bytes_read, List.mem_append]
            exact Or.inr h6
        · obtain ⟨rs2, h4, h5, h6, _⟩ := play_idle c0 n r.st h2
          rw [hpl] at h4
          simp only [Option.some.injEq] at h4
          subst h4
          refine ⟨q1, by rw [h1]; simp [bytes_read, h5], Or.inr ⟨h6, ?_⟩⟩
          simp only [bytes_read, List.mem_append]
          exact Or.inl h3

/-- The bytes read by the first `k` updates open the bytes read by all. -/
theorem bytes_read_take_prefix (rs : List Run) :
    ∀ k : Nat, bytes_read (rs.take k) <+: bytes_read rs := by
  induction rs with
  | nil => intro k; simp [bytes_read]
  | cons r rs ih =>
    intro k
    cases k with
    | zero => simp [bytes_read]
    | succ k =>
      simp only [List.take_succ_cons, bytes_read]
      exact (List.prefix_append_right_inj _).mpr (ih k)

/-- C19: the cursor is forward-only and stops at the sentinel.  Let `n`
updates return, started with the cursor on the bytes `p`, with no
`music_start` in between.  After the first `k` of them the bytes read so far
are a prefix of `p`, and either the cursor is on the rest of `p` exactly
(its offset is the number of bytes consumed) and `0xFF` has not been read, or
`0xFF` has been read, the cursor is absent, and the remaining updates read no
byte and leave the cursor absent.  The bytes read after `k` updates open
those read after `k' >= k` updates, so the offset never decreases.  From a
state without cursor any number of updates return without reading. -/
theorem cursor_forward_only (c0 n : Nat) (s : State) (p : List Nat) (rs : List Run)
    (hp : s.music_ptr = some p) (hplay : play c0 n s = some rs) :
    (∀ k, k ≤ n →
      ∃ q : List Nat, p = bytes_read (rs.take k) ++ q ∧
        (((final_state s (rs.take k)).music_ptr = some q ∧ 0xFF ∉ bytes_read (rs.take k)) ∨
         ((final_state s (rs.take k)).music_ptr = none ∧ 0xFF ∈ bytes_read (rs.take k) ∧
           bytes_read (rs.drop k) = [] ∧ ∀ r ∈ rs.drop k, r.st.music_ptr = none))) ∧
    (∀ k k', k ≤ k' → bytes_read (rs.take k) <+: bytes_read (rs.take k')) ∧
    (∀ s1 : State, s1.music_ptr = none → ∀ m : Nat,
      ∃ rs1 : List Run, play c0 m s1 = some rs1 ∧ bytes_read rs1 = [] ∧
        (final_state s1 rs1).music_ptr = none) := by
  refine ⟨?_, ?_, ?_⟩
  · intro k hk
    obtain ⟨h1, h2⟩ := play_split c0 k n s rs hplay hk
    obtain ⟨q, h3, h4⟩ := play_cursor c0 k s p (rs.take k) hp h1
    refine ⟨q, h3, ?_⟩
    rcases h4 with h4 | ⟨h4, h5⟩
    · exact Or.inl h4
    · obtain ⟨rs2, h6, h7, _, h9⟩ := play_idle c0 (n - k) _ h4
      rw [h2] at h6
      simp only [Option.some.injEq] at h6
      subst h6
      exact Or.inr ⟨h4, h5, h7, h9⟩
  · intro k k' hk
    have h := bytes_read_take_prefix (rs.take k') k
    rw [List.take_take, Nat.min_eq_left hk] at h
    exact h
  · intro s1 hs1 m
    obtain ⟨rs1, h1, h2, h3, _⟩ := play_idle c0 m s1 hs1
    exact ⟨rs1, h1, h2, h3⟩

/-- C19, on three updates of the stream `[5, 0x81, 0xFF]` started from the
initial state: the second update reads the sentinel, the third reads
nothing. -/
theorem cursor_forward_only_witness :
    ∃ rs : List Run, play 0 3 (music_start [5, 0x81, 0xFF] initial_state) = some rs ∧
      rs.map (fun r => r.reads) = [[5, 0x81], [0xFF], []] ∧
      (∀ k, k ≤ 3 →
        ∃ q : List Nat, [5, 0x81, 0xFF] = bytes_read (rs.take k) ++ q ∧
          (((final_state (music_start [5, 0x81, 0xFF] initial_state) (rs.take k)).music_ptr
              = some q ∧ 0xFF ∉ bytes_read (rs.take k)) ∨
           ((final_state (music_start [5, 0x81, 0xFF] initial_state) (rs.take k)).music_ptr
              = none ∧ 0xFF ∈ bytes_read (rs.take k) ∧
             bytes_read (rs.drop k) = [] ∧ ∀ r ∈ rs.drop k, r.st.music_ptr = none))) ∧
      (∀ k k', k ≤ k' → bytes_read (rs.take k) <+: bytes_read (rs.take k')) ∧
      (∀ s1 : State, s1.music_ptr = none → ∀ m : Nat,
        ∃ rs1 : List Run, play 0 m s1 = some rs1 ∧ bytes_read rs1 = [] ∧
          (final_state s1 rs1).music_ptr = none) := by
  obtain ⟨rs, h, hr⟩ :
      ∃ rs : List Run, play 0 3 (music_start [5, 0x81, 0xFF] initial_state) = some rs ∧
        rs.map (fun r => r.reads) = [[5, 0x81], [0xFF], []] := by
    simp [play, music_update, decay_all, decay_loop, decay_step, decode_loop,
      next_music_byte, music_start, initial_state, num_voices, set_volume, Function.update,
      note_table, and_literals]
  exact ⟨rs, h, hr,
    cursor_forward_only 0 3 (music_start [5, 0x81, 0xFF] initial_state) [5, 0x81, 0xFF] rs
      rfl h⟩

/-! ## Table and channel bounds -/

/-- A masked index reads an entry of `note_table`. -/
theorem note_table_lookup (b : Nat) :
    b &&& 63 < note_table.length ∧
      note_table[b &&& 63]? = some (note_table.getD (b &&& 63) 0) := by
  have h : b &&& 63 < note_table.length := by
    rw [and_63]; simp only [note_table, List.length_cons, List.length_nil]; omega
  refine ⟨h, ?_⟩
  rw [List.getD_eq_getElem?_getD, List.getElem?_eq_getElem h]; rfl

/-- The decode loop writes on the chip channels of the voices `0, 1, 2` only,
and every period it writes is the table entry at the masked index of a byte
it has read. -/
theorem decode_loop_safe (c0 : Nat) (stream : List Nat) :
    ∀ (ch : Nat) (r r1 : Run), ch < 3 → decode_loop c0 stream ch r = some r1 →
      ((∀ w ∈ r.writes, ∃ v, v < 3 ∧ w.channel = c0 + v * 2) ∧
        (∀ w ∈ r.writes, ∀ c p, w = ChipWrite.frequency c p →
          ∃ b ∈ r.reads, note_table[b &&& 63]? = some p)) →
      ((∀ w ∈ r1.writes, ∃ v, v < 3 ∧ w.channel = c0 + v * 2) ∧
        (∀ w ∈ r1.writes, ∀ c p, w = ChipWrite.frequency c p →
          ∃ b ∈ r1.reads, note_table[b &&& 63]? = some p)) := by
  induction stream with
  | nil =>
    intro ch r r1 _ h hP
    unfold decode_loop at h
    by_cases hd : r.st.cur_duration = 0
    · simp [hd] at h
    · simp only [hd, if_false, Option.some.injEq] at h
      subst h; exact hP
  | cons head rest ih =>
    intro ch r r1 hch h hP
    unfold decode_loop at h
    by_cases hd : r.st.cur_duration = 0
    · cases hnb : next_music_byte r.st with
      | none => simp [hd, hnb] at h
      | some x =>
        obtain ⟨note, st⟩ := x
        by_cases hn : note &&& 0x80 = 0
        · simp only [hd, hnb, hn, if_true] at h
          refine ih _ _ _ (by simp only [num_voices]; split_ifs <;> omega) h ⟨?_, ?_⟩
          · intro w hw
            simp only [List.mem_append, List.mem_cons, List.mem_singleton,
              List.not_mem_nil, or_false] at hw
            rcases hw with hw | hw | hw
            · exact hP.1 w hw
            · exact ⟨ch, hch, by rw [hw]; rfl⟩
            · exact ⟨ch, hch, by rw [hw]; rfl⟩
          · intro w hw c p hwp
            simp only [List.mem_append, List.mem_cons, List.mem_singleton,
              List.not_mem_nil, or_false] at hw
            rcases hw with hw | hw | hw
            · obtain ⟨b, hb, hbp⟩ := hP.2 w hw c p hwp
              exact ⟨b, List.mem_append_left _ hb, hbp⟩
            · rw [hw] at hwp; cases hwp
            · rw [hw] at hwp
              cases hwp
              exact ⟨note, by simp, (note_table_lookup note).2⟩
        · simp only [hd, hnb, hn, if_true, if_false] at h
          refine ih _ _ _ hch h ⟨hP.1, ?_⟩
          intro w hw c p hwp
          obtain ⟨b, hb, hbp⟩ := hP.2 w hw c p hwp
          exact ⟨b, List.mem_append_left _ hb, hbp⟩
    · simp only [hd, if_false, Option.some.injEq] at h
      subst h; exact hP

/-- The decay pass writes on the chip channels of the voices `0, 1, 2`. -/
theorem decay_all_channels (c0 : Nat) (s : State) :
    ∀ w ∈ (decay_all c0 s).2.writes, ∃ v, v < 3 ∧ w.channel = c0 + v * 2 := by
  intro w hw
  rw [decay_all_writes] at hw
  simp only [List.mem_filterMap, List.mem_range, num_voices] at hw
  obtain ⟨k, hk3, hk⟩ := hw
  split_ifs at hk
  cases hk
  exact ⟨k, hk3, rfl⟩

/-- C22: frequency-table lookup safety.  `note_table` has exactly 64 entries
and the index `b & 63` computed from any byte `b` is below 64.  In every
returning update each chip write is addressed to the chip channel of a voice
index in `0 .. 2`, and every period written is the entry of `note_table` at
the index `b & 63` of a byte `b` read in that update, so no lookup leaves the
table. -/
theorem lookup_safety (c0 : Nat) (s : State) (r : Run) (hu : music_update c0 s = some r) :
    note_table.length = 64 ∧
    (∀ b : Nat, b &&& 63 < 64) ∧
    (∀ w ∈ r.writes, ∃ v, v < 3 ∧ w.channel = c0 + v * 2) ∧
    (∀ w ∈ r.writes, ∀ c p, w = ChipWrite.frequency c p →
      ∃ b ∈ r.reads, b &&& 63 < note_table.length ∧ note_table[b &&& 63]? = some p) := by
  have hlen : note_table.length = 64 := rfl
  have hidx : ∀ b : Nat, b &&& 63 < 64 := fun b => by rw [and_63]; omega
  have hdec : (∀ w ∈ (decay_all c0 s).2.writes, ∃ v, v < 3 ∧ w.channel = c0 + v * 2) ∧
      (∀ w ∈ (decay_all c0 s).2.writes, ∀ c p, w = ChipWrite.frequency c p →
        ∃ b ∈ (decay_all c0 s).2.reads, note_table[b &&& 63]? = some p) := by
    refine ⟨decay_all_channels c0 s, ?_⟩
    intro w hw c p hwp
    have := decay_all_no_frequency c0 s w hw
    rw [hwp] at this
    simp [ChipWrite.isFrequency] at this
  have hall : (∀ w ∈ r.writes, ∃ v, v < 3 ∧ w.channel = c0 + v * 2) ∧
      (∀ w ∈ r.writes, ∀ c p, w = ChipWrite.frequency c p →
        ∃ b ∈ r.reads, note_table[b &&& 63]? = some p) := by
    cases hp : s.music_ptr with
    | none =>
      rw [music_update_idle c0 s hp] at hu
      cases hu; exact hdec
    | some q =>
      obtain ⟨r1, h1, h2⟩ := music_update_decompose c0 s q r hp hu
      have := decode_loop_safe c0 q _ _ _ (decay_all_freech_lt c0 s) h1 hdec
      rw [h2]; exact this
  refine ⟨hlen, hidx, hall.1, ?_⟩
  intro w hw c p hwp
  obtain ⟨b, hb, hbp⟩ := hall.2 w hw c p hwp
  exact ⟨b, hb, (note_table_lookup b).1, hbp⟩

/-- C22, on the first update of `[5, 10, 0x83, 0xFF]` from the initial
state. -/
theorem lookup_safety_witness :
    ∃ r : Run, music_update 0 (music_start [5, 10, 0x83, 0xFF] initial_state) = some r ∧
      r.reads = [5, 10, 0x83] ∧
      note_table.length = 64 ∧
      (∀ b : Nat, b &&& 63 < 64) ∧
      (∀ w ∈ r.writes, ∃ v, v < 3 ∧ w.channel = 0 + v * 2) ∧
      (∀ w ∈ r.writes, ∀ c p, w = ChipWrite.frequency c p →
        ∃ b ∈ r.reads, b &&& 63 < note_table.length ∧ note_table[b &&& 63]? = some p) := by
  obtain ⟨r, h, hr⟩ :
      ∃ r : Run, music_update 0 (music_start [5, 10, 0x83, 0xFF] initial_state) = some r ∧
        r.reads = [5, 10, 0x83] := by
    simp [music_update, decay_all, decay_loop, decay_step, decode_loop, next_music_byte,
      music_start, initial_state, num_voices, set_volume, and_literals]
  exact ⟨r, h, hr, lookup_safety 0 (music_start [5, 10, 0x83, 0xFF] initial_state) r h⟩

/-- The decay pass looks at the volumes only. -/
theorem decay_all_congr (c0 : Nat) (s s1 : State) (h : s1.voice = s.voice) :
    (decay_all c0 s1).1 = (decay_all c0 s).1 ∧
    (decay_all c0 s1).2.writes = (decay_all c0 s).2.writes ∧
    ∀ ch, ((decay_all c0 s1).2.st.voice ch).volume = ((decay_all c0 s).2.st.voice ch).volume := by
  refine ⟨?_, ?_, ?_⟩
  · rw [decay_all_freech, decay_all_freech, h]
  · rw [decay_all_writes, decay_all_writes, h]
  · intro ch
    rw [decay_all_volume, decay_all_volume, h]

/-- C23: `music_start` changes the cursor only.  The voices (so every
volume), `music_index` and the duration counter are the ones before the call;
the function issues no chip write (it returns the new globals and nothing
else).  The decay pass of the next update depends on the volumes only, so
after `music_start` it finds the same free channel, issues the same writes
and leaves the same volumes as it would have without the call. -/
theorem music_start_frame (c0 : Nat) (song : List Nat) (s : State) :
    (music_start song s).voice = s.voice ∧
    (∀ ch, ((music_start song s).voice ch).volume = (s.voice ch).volume) ∧
    (music_start song s).music_index = s.music_index ∧
    (music_start song s).cur_duration = s.cur_duration ∧
    (music_start song s).music_ptr = some song ∧
    (decay_all c0 (music_start song s)).1 = (decay_all c0 s).1 ∧
    (decay_all c0 (music_start song s)).2.writes = (decay_all c0 s).2.writes ∧
    ∀ ch, ((decay_all c0 (music_start song s)).2.st.voice ch).volume
      = ((decay_all c0 s).2.st.voice ch).volume :=
  ⟨rfl, fun _ => rfl, rfl, rfl, rfl, decay_all_congr c0 s (music_start song s) rfl⟩

/-! ## The duration counter -/

/-- A returning update of a state whose counter is at most 63 leaves a
counter of at most 63; if it ran with a cursor, the decrement was applied to
a value in `1 .. 63`. -/
theorem music_update_duration (c0 : Nat) (s : State) (r : Run) (hs : s.cur_duration ≤ 63)
    (hu : music_update c0 s = some r) :
    r.st.cur_duration ≤ 63 ∧
    ∀ p, s.music_ptr = some p →
      ∃ r1 : Run, decode_loop c0 p (decay_all c0 s).1 (decay_all c0 s).2 = some r1 ∧
        1 ≤ r1.st.cur_duration ∧ r1.st.cur_duration ≤ 63 ∧
        (r1.st.cur_duration + 255) % 256 = r1.st.cur_duration - 1 ∧
        r.st.cur_duration = r1.st.cur_duration - 1 := by
  have hcur : ∀ p, s.music_ptr = some p →
      ∃ r1 : Run, decode_loop c0 p (decay_all c0 s).1 (decay_all c0 s).2 = some r1 ∧
        1 ≤ r1.st.cur_duration ∧ r1.st.cur_duration ≤ 63 ∧
        (r1.st.cur_duration + 255) % 256 = r1.st.cur_duration - 1 ∧
        r.st.cur_duration = r1.st.cur_duration - 1 := by
    intro p hp
    obtain ⟨r1, h1, h2⟩ := music_update_decompose c0 s p r hp hu
    obtain ⟨_, _, _, _, hne, hle⟩ := decode_loop_frame c0 p _ _ _ h1
    have hle63 : r1.st.cur_duration ≤ 63 := by
      rcases hle with h | h
      · exact h
      · rw [h, decay_all_cur_duration]; exact hs
    refine ⟨r1, h1, by omega, hle63, by omega, ?_⟩
    rw [h2]; simp only; omega
  refine ⟨?_, hcur⟩
  cases hp : s.music_ptr with
  | none =>
    rw [music_update_idle c0 s hp] at hu
    cases hu
    rw [decay_all_cur_duration]; exact hs
  | some p =>
    obtain ⟨r1, _, _, _, _, h5⟩ := hcur p hp
    omega

/-- Reachable states have a duration counter of at most 63. -/
theorem reachable_duration_le (c0 : Nat) (s : State) (h : Reachable c0 s) :
    s.cur_duration ≤ 63 := by
  induction h with
  | init => simp [initial_state]
  | start music s _ ih => exact ih
  | update s r _ hu ih => exact (music_update_duration c0 s r ih hu).1

/-- C28: duration-counter invariant.  In every reachable state the duration
counter is at most 63.  A returning update that ran with a cursor leaves it
at most 62: the decrement at its end is applied to the value the decode loop
left, which lies in `1 .. 63`, so the byte decrement is the plain
subtraction of one and never wraps from 0 to 255. -/
theorem duration_invariant (c0 : Nat) (s : State) (h : Reachable c0 s) :
    s.cur_duration ≤ 63 ∧
    ∀ (p : List Nat) (r : Run), s.music_ptr = some p → music_update c0 s = some r →
      r.st.cur_duration ≤ 62 ∧
      ∃ r1 : Run, decode_loop c0 p (decay_all c0 s).1 (decay_all c0 s).2 = some r1 ∧
        1 ≤ r1.st.cur_duration ∧ r1.st.cur_duration ≤ 63 ∧
        (r1.st.cur_duration + 255) % 256 = r1.st.cur_duration - 1 ∧
        r.st.cur_duration = r1.st.cur_duration - 1 := by
  have hs := reachable_duration_le c0 s h
  refine ⟨hs, ?_⟩
  intro p r hp hu
  obtain ⟨r1, h1, h2, h3, h4, h5⟩ := (music_update_duration c0 s r hs hu).2 p hp
  exact ⟨by omega, r1, h1, h2, h3, h4, h5⟩

/-- C28, at the state reached by `music_start` on `[5, 0xBF, 0xFF]` and one
update, which leaves the counter at 62. -/
theorem duration_invariant_witness :
    (update_state 0 (music_start [5, 0xBF, 0xFF] initial_state)).cur_duration ≤ 63 ∧
    ∀ (p : List Nat) (r : Run),
      (update_state 0 (music_start [5, 0xBF, 0xFF] initial_state)).music_ptr = some p →
      music_update 0 (update_state 0 (music_start [5, 0xBF, 0xFF] initial_state)) = some r →
      r.st.cur_duration ≤ 62 ∧
      ∃ r1 : Run,
        decode_loop 0 p
          (decay_all 0 (update_state 0 (music_start [5, 0xBF, 0xFF] initial_state))).1
          (decay_all 0 (update_state 0 (music_start [5, 0xBF, 0xFF] initial_state))).2
          = some r1 ∧
        1 ≤ r1.st.cur_duration ∧ r1.st.cur_duration ≤ 63 ∧
        (r1.st.cur_duration + 255) % 256 = r1.st.cur_duration - 1 ∧
        r.st.cur_duration = r1.st.cur_duration - 1 :=
  duration_invariant 0 (update_state 0 (music_start [5, 0xBF, 0xFF] initial_state))
    (reachable_update_state 0 _ (Reachable.start _ _ Reachable.init))

/-- C27: restart delay after a finished song.  The update that consumes the
`0xFF` sentinel returns with the cursor cleared and the duration counter at
62.  If `music_start` is called next on a song that begins with a burst of
notes ended by a terminating byte, the next 63 updates return, the first 62
of them read no byte, and the 63rd reads the first burst of the song. -/
theorem restart_delay (c0 : Nat) (s : State) (pre rest0 notes : List Nat) (t : Nat)
    (rest : List Nat) (hd : s.cur_duration = 0)
    (hp : s.music_ptr = some (pre ++ 0xFF :: rest0))
    (hpre : ∀ n ∈ pre, n &&& 0x80 = 0)
    (hnotes : ∀ n ∈ notes, n &&& 0x80 = 0) (ht : t &&& 0x80 ≠ 0) (hlow : t &&& 63 ≠ 0) :
    ∃ r : Run, music_update c0 s = some r ∧
      r.st.music_ptr = none ∧ r.st.cur_duration = 62 ∧
      ∃ rs : List Run, play c0 63 (music_start (notes ++ t :: rest) r.st) = some rs ∧
        rs.map (fun x => x.reads) = List.replicate 62 [] ++ [notes ++ [t]] := by
  obtain ⟨r, hu, _, _, hdur, hptr, _⟩ :=
    music_update_burst c0 s pre 0xFF rest0 hd hp hpre (by decide) (by decide)
  have h62 : r.st.cur_duration = 62 := by rw [hdur]; decide
  refine ⟨r, hu, by rw [hptr]; rfl, h62, ?_⟩
  obtain ⟨rs, h1, h2, _⟩ := play_wait c0 notes t rest hnotes ht hlow 62
    (music_start (notes ++ t :: rest) r.st) h62 (by decide) rfl
  exact ⟨rs, h1, h2⟩

/-- C27, for the song `[0xFF]` followed by a restart on `[5, 0x81, 0xFF]`. -/
theorem restart_delay_witness :
    ∃ r : Run, music_update 0 (music_start [0xFF] initial_state) = some r ∧
      r.st.music_ptr = none ∧ r.st.cur_duration = 62 ∧
      ∃ rs : List Run, play 0 63 (music_start ([5] ++ 0x81 :: [0xFF]) r.st) = some rs ∧
        rs.map (fun x => x.reads) = List.replicate 62 [] ++ [[5] ++ [0x81]] :=
  restart_delay 0 (music_start [0xFF] initial_state) [] [] [5] 0x81 [0xFF] rfl rfl
    (by decide) (by decide) (by decide) (by decide)

/-! ## Bit 6 -/

/-- Flipping bit 6 keeps bit 7. -/
theorem xor_0x40_and_0x80 (b : Nat) : (b ^^^ 0x40) &&& 0x80 = b &&& 0x80 := by
  rw [Nat.and_xor_distrib_right, show (0x40 &&& 0x80 : Nat) = 0 from by decide, Nat.xor_zero]

/-- Flipping bit 6 keeps the low six bits. -/
theorem xor_0x40_and_63 (b : Nat) : (b ^^^ 0x40) &&& 63 = b &&& 63 := by
  rw [Nat.and_xor_distrib_right, show (0x40 &&& 63 : Nat) = 0 from by decide, Nat.xor_zero]

/-- The globals and the writes a decode loop returns do not depend on the
reads recorded so far. -/
theorem decode_loop_reads_irrelevant (c0 : Nat) (stream : List Nat) :
    ∀ (ch : Nat) (r r1 : Run), r.st = r1.st → r.writes = r1.writes →
      (decode_loop c0 stream ch r).map (fun o => (o.st, o.writes))
        = (decode_loop c0 stream ch r1).map (fun o => (o.st, o.writes)) := by
  induction stream with
  | nil =>
    intro ch r r1 hst hw
    unfold decode_loop
    by_cases hd : r.st.cur_duration = 0
    · have hd1 : r1.st.cur_duration = 0 := by rw [← hst]; exact hd
      simp [hd, hd1]
    · have hd1 : ¬ r1.st.cur_duration = 0 := by rw [← hst]; exact hd
      simp only [hd, hd1, if_false, Option.map_some', hst, hw]
  | cons head rest ih =>
    intro ch r r1 hst hw
    unfold decode_loop
    by_cases hd : r.st.cur_duration = 0
    · have hd1 : r1.st.cur_duration = 0 := by rw [← hst]; exact hd
      rw [hst]
      cases hnb : next_music_byte r1.st with
      | none => simp [hd1]
      | some x =>
        obtain ⟨note, st⟩ := x
        by_cases hn : note &&& 0x80 = 0
        · simp only [hd1, hn, if_true]
          exact ih _ _ _ rfl (by simp only [hw])
        · simp only [hd1, hn, if_true, if_false]
          exact ih _ _ _ rfl hw
    · have hd1 : ¬ r1.st.cur_duration = 0 := by rw [← hst]; exact hd
      simp only [hd, hd1, if_false, Option.map_some', hst, hw]

/-- C29: bit 6 of a stream byte is ignored.  Let `b` be a note byte
(`b < 0x80`), or any byte such that neither `b` nor `b XOR 0x40` is `0xFF`.
Decoding from a cursor on `b :: rest` and from a cursor on
`(b XOR 0x40) :: rest`, all else equal, returns in the same cases and then
gives the same globals (voices, duration counter, cursor) and the same chip
writes, both for the decode loop with any working channel and for a whole
update. -/
theorem bit6_ignored (c0 : Nat) (b : Nat) (rest : List Nat) (s : State)
    (hd : s.cur_duration = 0)
    (hb : b < 0x80 ∨ (b ≠ 0xFF ∧ b ^^^ 0x40 ≠ 0xFF)) :
    (∀ (ch : Nat) (writes : List ChipWrite) (reads : List Nat),
      (decode_loop c0 (b :: rest) ch
          { st := { s with music_ptr := some (b :: rest) }, writes := writes, reads := reads }).map
          (fun o => (o.st, o.writes))
        = (decode_loop c0 ((b ^^^ 0x40) :: rest) ch
            { st := { s with music_ptr := some ((b ^^^ 0x40) :: rest) }, writes := writes,
              reads := reads }).map (fun o => (o.st, o.writes))) ∧
    (music_update c0 { s with music_ptr := some (b :: rest) }).map (fun o => (o.st, o.writes))
      = (music_update c0 { s with music_ptr := some ((b ^^^ 0x40) :: rest) }).map
          (fun o => (o.st, o.writes)) := by
  have hne : b ≠ 0xFF ∧ b ^^^ 0x40 ≠ 0xFF := by
    rcases hb with h | h
    · refine ⟨by omega, ?_⟩
      intro hx
      have h1 := xor_0x40_and_0x80 b
      rw [hx, and_0x80 b] at h1
      have : (0xFF &&& 0x80 : Nat) = 128 := by decide
      omega
    · exact h
  have hloop : ∀ (ch : Nat) (r r1 : Run), r.writes = r1.writes → r.st.cur_duration = 0 →
      r.st = { r1.st with music_ptr := some (b :: rest) } →
      r1.st.music_ptr = some ((b ^^^ 0x40) :: rest) →
      (decode_loop c0 (b :: rest) ch r).map (fun o => (o.st, o.writes))
        = (decode_loop c0 ((b ^^^ 0x40) :: rest) ch r1).map (fun o => (o.st, o.writes)) := by
    intro ch r r1 hw hrd hst hp1
    have hrd1 : r1.st.cur_duration = 0 := by
      have := congrArg State.cur_duration hst
      simp only at this
      rw [← this]; exact hrd
    have hp : r.st.music_ptr = some (b :: rest) := by rw [hst]
    by_cases hn : b &&& 0x80 = 0
    · rw [decode_loop_note c0 b rest ch r hrd hp hn,
        decode_loop_note c0 (b ^^^ 0x40) rest ch r1 hrd1 hp1
          (by rw [xor_0x40_and_0x80]; exact hn)]
      refine decode_loop_reads_irrelevant c0 rest _ _ _ ?_ ?_
      · simp only [hst, set_volume]
      · simp only [hw, xor_0x40_and_63]
    · by_cases hlow : b &&& 63 = 0
      · rw [decode_loop_zero_duration c0 b rest ch r hrd hp hn hlow,
          decode_loop_zero_duration c0 (b ^^^ 0x40) rest ch r1 hrd1 hp1
            (by rw [xor_0x40_and_0x80]; exact hn) (by rw [xor_0x40_and_63]; exact hlow)]
        refine decode_loop_reads_irrelevant c0 rest _ _ _ ?_ hw
        simp only [hst]
      · rw [decode_loop_stop c0 b rest ch r hrd hp hn hlow,
          decode_loop_stop c0 (b ^^^ 0x40) rest ch r1 hrd1 hp1
            (by rw [xor_0x40_and_0x80]; exact hn) (by rw [xor_0x40_and_63]; exact hlow)]
        simp only [Option.map_some', hst, hw, xor_0x40_and_63, if_neg hne.1, if_neg hne.2]
  refine ⟨?_, ?_⟩
  · intro ch writes reads
    exact hloop ch _ _ rfl hd rfl rfl
  · have hc := decay_all_congr c0 { s with music_ptr := some ((b ^^^ 0x40) :: rest) }
      { s with music_ptr := some (b :: rest) } rfl
    have hvoice : (decay_all c0 { s with music_ptr := some (b :: rest) }).2.st.voice
        = (decay_all c0 { s with music_ptr := some ((b ^^^ 0x40) :: rest) }).2.st.voice := by
      funext ch
      have := hc.2.2 ch
      cases hx : (decay_all c0 { s with music_ptr := some (b :: rest) }).2.st.voice ch
      cases hy : (decay_all c0 { s with music_ptr := some ((b ^^^ 0x40) :: rest) }).2.st.voice ch
      rw [hx, hy] at this
      simp only at this
      rw [this]
    have hmi : ∀ q : List Nat, (decay_all c0 { s with music_ptr := some q }).2.st.music_index
        = s.music_index := by
      intro q
      simp only [decay_all, decay_loop, decay_step, num_voices, set_volume]
      split_ifs <;> rfl
    have hst : (decay_all c0 { s with music_ptr := some (b :: rest) }).2.st
        = { (decay_all c0 { s with music_ptr := some ((b ^^^ 0x40) :: rest) }).2.st with
            music_ptr := some (b :: rest) } := by
      cases hx : (decay_all c0 { s with music_ptr := some (b :: rest) }).2.st with
      | mk v mi cd mp =>
        have h1 := hvoice
        have h2 := decay_all_cur_duration c0 { s with music_ptr := some (b :: rest) }
        have h3 := decay_all_music_ptr c0 { s with music_ptr := some (b :: rest) }
        have h4 := hmi (b :: rest)
        rw [hx] at h1 h2 h3 h4
        simp only at h1 h2 h3 h4
        simp only [State.mk.injEq]
        refine ⟨h1, ?_, ?_, h3⟩
        · rw [h4, hmi]
        · rw [h2, decay_all_cur_duration]
    have hl := hloop (decay_all c0 { s with music_ptr := some (b :: rest) }).1
      (decay_all c0 { s with music_ptr := some (b :: rest) }).2
      (decay_all c0 { s with music_ptr := some ((b ^^^ 0x40) :: rest) }).2
      hc.2.1 (by rw [decay_all_cur_duration]; exact hd) hst (by rw [decay_all_music_ptr])
    rw [hc.1] at hl
    simp only [music_update, decay_all_music_ptr]
    cases h1 : decode_loop c0 (b :: rest)
        (decay_all c0 { s with music_ptr := some ((b ^^^ 0x40) :: rest) }).1
        (decay_all c0 { s with music_ptr := some (b :: rest) }).2 with
    | none =>
      rw [h1] at hl
      cases h2 : decode_loop c0 ((b ^^^ 0x40) :: rest)
          (decay_all c0 { s with music_ptr := some ((b ^^^ 0x40) :: rest) }).1
          (decay_all c0 { s with music_ptr := some ((b ^^^ 0x40) :: rest) }).2 with
      | none => simp [hc.1, h1]
      | some y => rw [h2] at hl; simp at hl
    | some x =>
      rw [h1] at hl
      cases h2 : decode_loop c0 ((b ^^^ 0x40) :: rest)
          (decay_all c0 { s with music_ptr := some ((b ^^^ 0x40) :: rest) }).1
          (decay_all c0 { s with music_ptr := some ((b ^^^ 0x40) :: rest) }).2 with
      | none => rw [h2] at hl; simp at hl
      | some y =>
        rw [h2] at hl
        simp only [Option.map_some', Option.some.injEq, Prod.mk.injEq] at hl
        simp only [hc.1, h1, Option.map_some', Option.some.injEq, Prod.mk.injEq, hl.1, hl.2,
          and_self]

/-- C29, for the note byte 5 (and its twin 69) in front of `[0x81, 0xFF]`,
from the initial state; the update on the byte 5 returns and triggers
voice 2. -/
theorem bit6_ignored_witness :
    ((∀ (ch : Nat) (writes : List ChipWrite) (reads : List Nat),
      (decode_loop 0 (5 :: [0x81, 0xFF]) ch
          { st := { initial_state with music_ptr := some (5 :: [0x81, 0xFF]) },
            writes := writes, reads := reads }).map (fun o => (o.st, o.writes))
        = (decode_loop 0 ((5 ^^^ 0x40) :: [0x81, 0xFF]) ch
            { st := { initial_state with music_ptr := some ((5 ^^^ 0x40) :: [0x81, 0xFF]) },
              writes := writes, reads := reads }).map (fun o => (o.st, o.writes))) ∧
    (music_update 0 { initial_state with music_ptr := some (5 :: [0x81, 0xFF]) }).map
        (fun o => (o.st, o.writes))
      = (music_update 0
          { initial_state with music_ptr := some ((5 ^^^ 0x40) :: [0x81, 0xFF]) }).map
          (fun o => (o.st, o.writes))) ∧
    ∃ r : Run,
      music_update 0 { initial_state with music_ptr := some (5 :: [0x81, 0xFF]) } = some r ∧
      r.writes = [ChipWrite.attenuation 4 32, ChipWrite.frequency 4 26005] := by
  refine ⟨bit6_ignored 0 5 [0x81, 0xFF] initial_state rfl (Or.inl (by decide)), ?_⟩
  simp [music_update, decay_all, decay_loop, decay_step, decode_loop, next_music_byte,
    initial_state, num_voices, set_volume, note_table, and_literals]

/-! ## The write trace -/

/-- The writes a returning decode loop adds are the trigger writes of the
note bytes it read, in order, on the voices that follow the working
channel. -/
theorem decode_loop_trace (c0 f : Nat) (stream : List Nat) :
    ∀ (i : Nat) (r r1 : Run), decode_loop c0 stream (burst_channel f i) r = some r1 →
      ∃ new : List Nat, r1.reads = r.reads ++ new ∧
        r1.writes = r.writes ++
          chord_writes c0 f i (new.filter (fun b => decide (b &&& 0x80 = 0))) := by
  induction stream with
  | nil =>
    intro i r r1 h
    unfold decode_loop at h
    by_cases hd : r.st.cur_duration = 0
    · simp [hd] at h
    · simp only [hd, if_false, Option.some.injEq] at h
      subst h
      exact ⟨[], by simp, by simp [chord_writes]⟩
  | cons head rest ih =>
    intro i r r1 h
    unfold decode_loop at h
    by_cases hd : r.st.cur_duration = 0
    · cases hnb : next_music_byte r.st with
      | none => simp [hd, hnb] at h
      | some x =>
        obtain ⟨note, st⟩ := x
        by_cases hn : note &&& 0x80 = 0
        · simp only [hd, hnb, hn, if_true] at h
          rw [burst_channel_succ] at h
          obtain ⟨new, h1, h2⟩ := ih (i + 1) _ _ h
          refine ⟨note :: new, by rw [h1]; simp, ?_⟩
          rw [h2]
          simp [List.filter_cons, hn, chord_writes]
        · simp only [hd, hnb, hn, if_true, if_false] at h
          obtain ⟨new, h1, h2⟩ := ih i _ _ h
          refine ⟨note :: new, by rw [h1]; simp, ?_⟩
          rw [h2]
          simp [List.filter_cons, hn]
    · simp only [hd, if_false, Option.some.injEq] at h
      subst h
      exact ⟨[], by simp, by simp [chord_writes]⟩

/-- C30: the exact write trace of one update.  The writes of a returning
update are first the decay writes, for the voices `0, 1, 2` in ascending
order one attenuation write of level `32 - volume` per voice of nonzero
volume, and then, for each note byte read in this update in stream order, an
attenuation write of level 32 followed by a frequency write, both on the chip
channel `c0 + ch * 2` of the working voice `ch` (the free channel for the
first note, then downwards with wraparound, always below 3).  Distinct voices
have distinct chip channels. -/
theorem write_trace (c0 : Nat) (s : State) (r : Run) (hu : music_update c0 s = some r) :
    r.writes =
      (List.range num_voices).filterMap (fun ch =>
        if (s.voice ch).volume ≠ 0 then
          some (ChipWrite.attenuation (c0 + ch * 2) (32 - ((s.voice ch).volume : Int)))
        else none)
      ++ chord_writes c0 (decay_all c0 s).1 0
          (r.reads.filter (fun b => decide (b &&& 0x80 = 0))) ∧
    (decay_all c0 s).1 < 3 ∧
    (∀ i, burst_channel (decay_all c0 s).1 i < 3) ∧
    (∀ a b : Nat, c0 + a * 2 = c0 + b * 2 → a = b) := by
  refine ⟨?_, decay_all_freech_lt c0 s, fun i => burst_channel_lt _ i, fun a b h => by omega⟩
  rw [← decay_all_writes]
  cases hp : s.music_ptr with
  | none =>
    rw [music_update_idle c0 s hp] at hu
    cases hu
    simp [decay_all_reads, chord_writes]
  | some p =>
    obtain ⟨r1, h1, h2⟩ := music_update_decompose c0 s p r hp hu
    rw [← burst_channel_zero (decay_all c0 s).1 (decay_all_freech_lt c0 s)] at h1
    obtain ⟨new, h3, h4⟩ := decode_loop_trace c0 (decay_all c0 s).1 p 0 _ _ h1
    rw [decay_all_reads, List.nil_append] at h3
    rw [h2]
    simp only [h4, h3]

/-- C30, on the second update of `[1, 2, 3, 0x81, 4, 0x81, 0xFF]`, which
decays three voices and triggers one. -/
theorem write_trace_witness :
    ∃ r : Run,
      music_update 0 (update_state 0 (music_start [1, 2, 3, 0x81, 4, 0x81, 0xFF] initial_state))
        = some r ∧
      r.writes =
        [ChipWrite.attenuation 0 1, ChipWrite.attenuation 2 1, ChipWrite.attenuation 4 1,
         ChipWrite.attenuation 0 32, ChipWrite.frequency 0 27551] ∧
      (r.writes =
        (List.range num_voices).filterMap (fun ch =>
          if ((update_state 0
              (music_start [1, 2, 3, 0x81, 4, 0x81, 0xFF] initial_state)).voice ch).volume ≠ 0
          then
            some (ChipWrite.attenuation (0 + ch * 2)
              (32 - (((update_state 0
                (music_start [1, 2, 3, 0x81, 4, 0x81, 0xFF] initial_state)).voice ch).volume
                  : Int)))
          else none)
        ++ chord_writes 0
            (decay_all 0 (update_state 0
              (music_start [1, 2, 3, 0x81, 4, 0x81, 0xFF] initial_state))).1 0
            (r.reads.filter (fun b => decide (b &&& 0x80 = 0))) ∧
      (decay_all 0 (update_state 0
        (music_start [1, 2, 3, 0x81, 4, 0x81, 0xFF] initial_state))).1 < 3 ∧
      (∀ i, burst_channel (decay_all 0 (update_state 0
        (music_start [1, 2, 3, 0x81, 4, 0x81, 0xFF] initial_state))).1 i < 3) ∧
      (∀ a b : Nat, 0 + a * 2 = 0 + b * 2 → a = b)) := by
  obtain ⟨r, h, hw⟩ :
      ∃ r : Run,
        music_update 0
          (update_state 0 (music_start [1, 2, 3, 0x81, 4, 0x81, 0xFF] initial_state))
          = some r ∧
        r.writes =
          [ChipWrite.attenuation 0 1, ChipWrite.attenuation 2 1, ChipWrite.attenuation 4 1,
           ChipWrite.attenuation 0 32, ChipWrite.frequency 0 27551] := by
    simp [update_state, music_update, decay_all, decay_loop, decay_step, decode_loop,
      next_music_byte, music_start, initial_state, num_voices, set_volume, Function.update,
      note_table, and_literals]
  exact ⟨r, h, hw, write_trace 0 _ r h⟩

/-! ## Termination of the decode loop -/

/-- A list with an element satisfying `T` splits at the first such
element. -/
theorem split_at_first (T : Nat → Prop) (stream : List Nat) (h : ∃ b ∈ stream, T b) :
    ∃ (pre : List Nat) (t : Nat) (rest : List Nat),
      stream = pre ++ t :: rest ∧ T t ∧ ∀ b ∈ pre, ¬ T b := by
  induction stream with
  | nil => obtain ⟨b, hb, _⟩ := h; simp at hb
  | cons x xs ih =>
    by_cases hx : T x
    · exact ⟨[], x, xs, rfl, hx, by simp⟩
    · obtain ⟨b, hb, hT⟩ := h
      have hbx : b ∈ xs := by
        rcases List.mem_cons.mp hb with hb | hb
        · rw [hb] at hT; exact absurd hT hx
        · exact hb
      obtain ⟨pre, t, rest, h1, h2, h3⟩ := ih ⟨b, hbx, hT⟩
      refine ⟨x :: pre, t, rest, by rw [h1]; rfl, h2, ?_⟩
      intro y hy
      rcases List.mem_cons.mp hy with hy | hy
      · rw [hy]; exact hx
      · exact h3 y hy

/-- The decode loop runs through note bytes and zero-duration bytes and
returns at the first byte with the high bit set and nonzero low six bits. -/
theorem decode_loop_until_stop (c0 t : Nat) (rest : List Nat)
    (ht : t &&& 0x80 ≠ 0) (hlow : t &&& 63 ≠ 0) (pre : List Nat) :
    ∀ (ch : Nat) (r : Run), (∀ b ∈ pre, ¬ (b &&& 0x80 ≠ 0 ∧ b &&& 63 ≠ 0)) →
      r.st.cur_duration = 0 → r.st.music_ptr = some (pre ++ t :: rest) →
      ∃ r1 : Run, decode_loop c0 (pre ++ t :: rest) ch r = some r1 ∧
        r1.reads = r.reads ++ pre ++ [t] ∧ r1.st.cur_duration = t &&& 63 ∧
        r1.st.music_ptr = (if t = 0xff then none else some rest) := by
  induction pre with
  | nil =>
    intro ch r _ hd hp
    exact ⟨_, decode_loop_stop c0 t rest ch r hd hp ht hlow, by simp, rfl, rfl⟩
  | cons b pre ih =>
    intro ch r hpre hd hp
    have hb := hpre b (List.mem_cons_self _ _)
    have hpre1 : ∀ x ∈ pre, ¬ (x &&& 0x80 ≠ 0 ∧ x &&& 63 ≠ 0) :=
      fun x hx => hpre x (List.mem_cons_of_mem _ hx)
    by_cases hn : b &&& 0x80 = 0
    · obtain ⟨r1, h1, h2, h3, h4⟩ := ih (if ch ≠ 0 then ch - 1 else num_voices - 1)
        { st := set_volume { r.st with music_ptr := some (pre ++ t :: rest) } ch 31
          writes := r.writes ++
            [ChipWrite.attenuation (c0 + ch * 2) 32,
             ChipWrite.frequency (c0 + ch * 2) (note_table.getD (b &&& 63) 0)]
          reads := r.reads ++ [b] }
        hpre1 (by simp [set_volume, hd]) (by simp [set_volume])
      refine ⟨r1, ?_, by rw [h2]; simp, h3, h4⟩
      rw [List.cons_append, decode_loop_note c0 b (pre ++ t :: rest) ch r hd hp hn]
      exact h1
    · have hz : b &&& 63 = 0 := by
        by_contra hne
        exact hb ⟨hn, hne⟩
      obtain ⟨r1, h1, h2, h3, h4⟩ := ih ch
        { st := { r.st with music_ptr := some (pre ++ t :: rest), cur_duration := 0 }
          writes := r.writes
          reads := r.reads ++ [b] }
        hpre1 rfl rfl
      refine ⟨r1, ?_, by rw [h2]; simp, h3, h4⟩
      rw [List.cons_append, decode_loop_zero_duration c0 b (pre ++ t :: rest) ch r hd hp hn hz]
      exact h1

/-- C24: decode-loop termination.  With the cursor present, the duration
counter 0 and, among the bytes under the cursor, one with the high bit set
and nonzero low six bits, `music_update` returns and reads exactly the bytes
up to and including the first such byte `t`.  Every byte before `t` is a note
byte (high bit clear) or has the high bit set and zero low six bits; as a
byte value it is below `0x80` or one of `0x80`, `0xC0`. -/
theorem decode_terminates (c0 : Nat) (s : State) (stream : List Nat)
    (hp : s.music_ptr = some stream) (hd : s.cur_duration = 0)
    (hex : ∃ b ∈ stream, b &&& 0x80 ≠ 0 ∧ b &&& 63 ≠ 0) :
    ∃ (pre : List Nat) (t : Nat) (rest : List Nat) (r : Run),
      stream = pre ++ t :: rest ∧
      (t &&& 0x80 ≠ 0 ∧ t &&& 63 ≠ 0) ∧
      (∀ b ∈ pre, ¬ (b &&& 0x80 ≠ 0 ∧ b &&& 63 ≠ 0)) ∧
      (∀ b ∈ pre, b &&& 0x80 = 0 ∨ (b &&& 0x80 ≠ 0 ∧ b &&& 63 = 0)) ∧
      (∀ b ∈ pre, b < 256 → b < 0x80 ∨ b = 0x80 ∨ b = 0xC0) ∧
      music_update c0 s = some r ∧ r.reads = pre ++ [t] ∧
      r.st.music_ptr = (if t = 0xff then none else some rest) := by
  obtain ⟨pre, t, rest, h1, h2, h3⟩ :=
    split_at_first (fun b => b &&& 0x80 ≠ 0 ∧ b &&& 63 ≠ 0) stream hex
  obtain ⟨r1, h4, h5, h6, h7⟩ :=
    decode_loop_until_stop c0 t rest h2.1 h2.2 pre (decay_all c0 s).1 (decay_all c0 s).2 h3
      (by rw [decay_all_cur_duration]; exact hd)
      (by rw [decay_all_music_ptr, hp, h1])
  have hkind : ∀ b ∈ pre, b &&& 0x80 = 0 ∨ (b &&& 0x80 ≠ 0 ∧ b &&& 63 = 0) := by
    intro b hb
    have := h3 b hb
    by_cases hn : b &&& 0x80 = 0
    · exact Or.inl hn
    · refine Or.inr ⟨hn, ?_⟩
      by_contra hne
      exact this ⟨hn, hne⟩
  refine ⟨pre, t, rest,
    { r1 with st := { r1.st with cur_duration := (r1.st.cur_duration + 255) % 256 } },
    h1, h2, h3, hkind, ?_, ?_, ?_, ?_⟩
  · intro b hb hlt
    rcases hkind b hb with h | ⟨h, h0⟩
    · rw [and_0x80] at h; omega
    · rw [and_0x80] at h; rw [and_63] at h0; omega
  · simp only [music_update, decay_all_music_ptr, hp]
    rw [h1, h4]
  · simp only [h5, decay_all_reads, List.nil_append]
  · simp only [h7]

/-- C24, on the stream `[0x80, 5, 0x81, 0xFF]` from the initial state: the
update reads `0x80`, `5` and stops at `0x81`. -/
theorem decode_terminates_witness :
    ∃ (pre : List Nat) (t : Nat) (rest : List Nat) (r : Run),
      [0x80, 5, 0x81, 0xFF] = pre ++ t :: rest ∧
      (t &&& 0x80 ≠ 0 ∧ t &&& 63 ≠ 0) ∧
      (∀ b ∈ pre, ¬ (b &&& 0x80 ≠ 0 ∧ b &&& 63 ≠ 0)) ∧
      (∀ b ∈ pre, b &&& 0x80 = 0 ∨ (b &&& 0x80 ≠ 0 ∧ b &&& 63 = 0)) ∧
      (∀ b ∈ pre, b < 256 → b < 0x80 ∨ b = 0x80 ∨ b = 0xC0) ∧
      music_update 0 (music_start [0x80, 5, 0x81, 0xFF] initial_state) = some r ∧
      r.reads = pre ++ [t] ∧
      r.st.music_ptr = (if t = 0xff then none else some rest) :=
  decode_terminates 0 (music_start [0x80, 5, 0x81, 0xFF] initial_state) [0x80, 5, 0x81, 0xFF]
    rfl rfl ⟨0x81, by decide, by decide, by decide⟩

/-! ## Voice starvation -/

/-- A burst of note bytes, with the volumes it leaves: the voices it triggers
end at 31 and the others are untouched. -/
theorem decode_loop_burst_voices (c0 f : Nat) (notes tail : List Nat)
    (hnotes : ∀ n ∈ notes, n &&& 0x80 = 0) :
    ∀ (i : Nat) (r : Run), r.st.cur_duration = 0 → r.st.music_ptr = some (notes ++ tail) →
      ∃ r1 : Run,
        decode_loop c0 (notes ++ tail) (burst_channel f i) r
          = decode_loop c0 tail (burst_channel f (i + notes.length)) r1 ∧
        r1.writes = r.writes ++ chord_writes c0 f i notes ∧
        r1.reads = r.reads ++ notes ∧
        r1.st.cur_duration = 0 ∧
        r1.st.music_ptr = some tail ∧
        (∀ m, m < notes.length → (r1.st.voice (burst_channel f (i + m))).volume = 31) ∧
        (∀ k, (∀ m, m < notes.length → k ≠ burst_channel f (i + m)) →
          r1.st.voice k = r.st.voice k) := by
  induction notes with
  | nil =>
    intro i r hd hp
    exact ⟨r, by simp, by simp [chord_writes], by simp, hd, by simpa using hp,
      fun m hm => by simp at hm, fun k _ => rfl⟩
  | cons n ns ih =>
    intro i r hd hp
    have hn : n &&& 0x80 = 0 := hnotes n (List.mem_cons_self _ _)
    have hns : ∀ m ∈ ns, m &&& 0x80 = 0 := fun m hm => hnotes m (List.mem_cons_of_mem _ hm)
    obtain ⟨r1, h1, h2, h3, h4, h5, h6, h7⟩ := ih hns (i + 1)
      { st := set_volume { r.st with music_ptr := some (ns ++ tail) } (burst_channel f i) 31
        writes := r.writes ++
          [ChipWrite.attenuation (c0 + burst_channel f i * 2) 32,
           ChipWrite.frequency (c0 + burst_channel f i * 2) (note_table.getD (n &&& 63) 0)]
        reads := r.reads ++ [n] }
      (by simpa [set_volume] using hd) (by simp [set_volume])
    refine ⟨r1, ?_, ?_, ?_, h4, h5, ?_, ?_⟩
    · rw [List.cons_append, decode_loop_note c0 n (ns ++ tail) _ r hd hp hn,
        burst_channel_succ, h1]
      simp [Nat.add_assoc, Nat.add_comm 1]
    · rw [h2]; simp [chord_writes]
    · rw [h3]; simp
    · intro m hm
      cases m with
      | zero =>
        by_cases hex : ∃ m1, m1 < ns.length ∧ burst_channel f i = burst_channel f (i + 1 + m1)
        · obtain ⟨m1, hm1, he⟩ := hex
          rw [Nat.add_zero, he]
          exact h6 m1 hm1
        · rw [Nat.add_zero, h7 (burst_channel f i) (fun m1 hm1 he => hex ⟨m1, hm1, he⟩)]
          simp [set_volume]
      | succ m1 =>
        have := h6 m1 (by simpa using hm)
        rw [show i + (m1 + 1) = i + 1 + m1 from by omega]
        exact this
    · intro k hk
      have hk0 : k ≠ burst_channel f i := by
        have := hk 0 (by simp)
        simpa using this
      rw [h7 k (fun m1 hm1 => by
        have := hk (m1 + 1) (by simpa using hm1)
        rw [show i + (m1 + 1) = i + 1 + m1 from by omega] at this
        exact this)]
      simp [set_volume, Function.update, hk0]

/-- The last frequency write of a concatenation. -/
theorem last_frequency_append (chan : Nat) (a b : List ChipWrite) :
    last_frequency chan (a ++ b) = (last_frequency chan b).or (last_frequency chan a) := by
  induction a with
  | nil => cases h : last_frequency chan b <;> simp [last_frequency, h]
  | cons w ws ih =>
    cases w with
    | attenuation c l =>
      rw [List.cons_append]
      simp only [last_frequency]
      exact ih
    | frequency c p =>
      rw [List.cons_append]
      simp only [last_frequency]
      rw [ih]
      cases h1 : last_frequency chan b <;> cases h2 : last_frequency chan ws <;> simp

/-- Trigger writes on other voices hold no frequency write for a voice. -/
theorem chord_writes_last_frequency_none (c0 f v : Nat) (notes : List Nat) :
    ∀ i, (∀ m, m < notes.length → burst_channel f (i + m) ≠ v) →
      last_frequency (c0 + v * 2) (chord_writes c0 f i notes) = none := by
  induction notes with
  | nil => intro i _; rfl
  | cons n ns ih =>
    intro i h
    have h0 : burst_channel f i ≠ v := by simpa using h 0 (by simp)
    have hrest := ih (i + 1) (fun m hm => by
      have := h (m + 1) (by simpa using hm)
      rw [show i + (m + 1) = i + 1 + m from by omega] at this
      exact this)
    simp only [chord_writes, last_frequency, hrest]
    have : ¬ (c0 + burst_channel f i * 2 = c0 + v * 2) := by omega
    simp [this]

/-- The last frequency write for the voice of the note at position `j` of a
burst, when no later note of the burst goes to that voice. -/
theorem chord_writes_last_frequency (c0 f : Nat) (notes : List Nat) :
    ∀ (i j : Nat), j < notes.length →
      (∀ m, j < m → m < notes.length → burst_channel f (i + m) ≠ burst_channel f (i + j)) →
      last_frequency (c0 + burst_channel f (i + j) * 2) (chord_writes c0 f i notes)
        = some (note_table.getD (notes.getD j 0 &&& 63) 0) := by
  induction notes with
  | nil => intro i j hj; simp at hj
  | cons n ns ih =>
    intro i j hj h
    cases j with
    | zero =>
      have hnone := chord_writes_last_frequency_none c0 f (burst_channel f (i + 0)) ns (i + 1)
        (fun m hm => by
          have := h (m + 1) (by omega) (by simpa using hm)
          rw [show i + (m + 1) = i + 1 + m from by omega] at this
          exact this)
      simp only [chord_writes, last_frequency, hnone, Nat.add_zero] at hnone ⊢
      simp [hnone]
    | succ j1 =>
      have hrec := ih (i + 1) j1 (by simpa using hj) (fun m hm1 hm2 => by
        have := h (m + 1) (by omega) (by simpa using hm2)
        rw [show i + (m + 1) = i + 1 + m from by omega,
          show i + (j1 + 1) = i + 1 + j1 from by omega] at this
        exact this)
      rw [show i + 1 + j1 = i + (j1 + 1) from by omega] at hrec
      simp only [chord_writes, last_frequency, hrec, List.getD_cons_succ]

/-- C21: voice starvation.  When an update decodes a burst of more than three
notes ended by a terminating byte, it returns like any other update.  The
note at position `j >= 3` is triggered on the voice of the note at position
`j - 3`.  After the update each of the voices `0, 1, 2` has volume 31, and
the last frequency write addressed to a voice carries the period of the last
note of the burst assigned to that voice. -/
theorem voice_starvation (c0 : Nat) (s : State) (notes : List Nat) (t : Nat)
    (rest : List Nat) (hk : 3 < notes.length) (hd : s.cur_duration = 0)
    (hp : s.music_ptr = some (notes ++ t :: rest))
    (hnotes : ∀ n ∈ notes, n &&& 0x80 = 0) (ht : t &&& 0x80 ≠ 0) (hlow : t &&& 63 ≠ 0) :
    ∃ r : Run, music_update c0 s = some r ∧
      r.reads = notes ++ [t] ∧
      r.writes = (decay_all c0 s).2.writes ++ chord_writes c0 (decay_all c0 s).1 0 notes ∧
      (∀ j, 3 ≤ j →
        burst_channel (decay_all c0 s).1 j = burst_channel (decay_all c0 s).1 (j - 3)) ∧
      (∀ v, v < 3 → (r.st.voice v).volume = 31) ∧
      (∀ v, v < 3 →
        ∃ j, j < notes.length ∧ burst_channel (decay_all c0 s).1 j = v ∧
          (∀ m, j < m → m < notes.length → burst_channel (decay_all c0 s).1 m ≠ v) ∧
          last_frequency (c0 + v * 2) r.writes
            = some (note_table.getD (notes.getD j 0 &&& 63) 0)) := by
  have hf : (decay_all c0 s).1 < 3 := decay_all_freech_lt c0 s
  obtain ⟨r1, h1, h2, h3, h4, h5, h6, _⟩ :=
    decode_loop_burst_voices c0 (decay_all c0 s).1 notes (t :: rest) hnotes 0
      (decay_all c0 s).2
      (by rw [decay_all_cur_duration]; exact hd) (by rw [decay_all_music_ptr]; exact hp)
  rw [burst_channel_zero _ hf, decode_loop_stop c0 t rest _ r1 h4 h5 ht hlow] at h1
  have hu : music_update c0 s = some
      { st := { r1.st with
                music_ptr := if t = 0xff then none else some rest
                cur_duration := ((t &&& 63) + 255) % 256 }
        writes := r1.writes
        reads := r1.reads ++ [t] } := by
    simp only [music_update, decay_all_music_ptr, hp]
    rw [h1]
  refine ⟨_, hu, ?_, ?_, ?_, ?_, ?_⟩
  · simp [h3, decay_all_reads]
  · simp [h2]
  · intro j hj
    simp only [burst_channel]; omega
  · intro v hv
    have hm : burst_channel (decay_all c0 s).1 (0 + ((decay_all c0 s).1 + 3 - v) % 3) = v := by
      simp only [burst_channel]; omega
    have := h6 (((decay_all c0 s).1 + 3 - v) % 3) (by omega)
    rw [hm] at this
    exact this
  · intro v hv
    have hcase : burst_channel (decay_all c0 s).1 (notes.length - 3) = v ∨
        burst_channel (decay_all c0 s).1 (notes.length - 2) = v ∨
        burst_channel (decay_all c0 s).1 (notes.length - 1) = v := by
      simp only [burst_channel]; omega
    have hfin : ∀ j, j < notes.length → notes.length - 3 ≤ j →
        burst_channel (decay_all c0 s).1 j = v →
        ∃ j, j < notes.length ∧ burst_channel (decay_all c0 s).1 j = v ∧
          (∀ m, j < m → m < notes.length → burst_channel (decay_all c0 s).1 m ≠ v) ∧
          last_frequency (c0 + v * 2) (r1.writes)
            = some (note_table.getD (notes.getD j 0 &&& 63) 0) := by
      intro j hj1 hj2 hjv
      have hlater : ∀ m, j < m → m < notes.length →
          burst_channel (decay_all c0 s).1 m ≠ v := by
        intro m hm1 hm2
        rw [← hjv]
        simp only [burst_channel]; omega
      refine ⟨j, hj1, hjv, hlater, ?_⟩
      have hl := chord_writes_last_frequency c0 (decay_all c0 s).1 notes 0 j hj1
        (by
          intro m hm1 hm2
          rw [Nat.zero_add, Nat.zero_add, hjv]
          exact hlater m hm1 hm2)
      rw [Nat.zero_add, hjv] at hl
      rw [h2, last_frequency_append, hl]
      rfl
    rcases hcase with h | h | h
    · exact hfin _ (by omega) (by omega) h
    · exact hfin _ (by omega) (by omega) h
    · exact hfin _ (by omega) (by omega) h

/-- C21, on the burst `[1, 2, 3, 4, 5]` ended by `0x81`, from the initial
state. -/
theorem voice_starvation_witness :
    ∃ r : Run, music_update 0 (music_start [1, 2, 3, 4, 5, 0x81, 0xFF] initial_state) = some r ∧
      r.reads = [1, 2, 3, 4, 5] ++ [0x81] ∧
      r.writes = (decay_all 0 (music_start [1, 2, 3, 4, 5, 0x81, 0xFF] initial_state)).2.writes ++
        chord_writes 0 (decay_all 0 (music_start [1, 2, 3, 4, 5, 0x81, 0xFF] initial_state)).1
          0 [1, 2, 3, 4, 5] ∧
      (∀ j, 3 ≤ j →
        burst_channel (decay_all 0 (music_start [1, 2, 3, 4, 5, 0x81, 0xFF] initial_state)).1 j
          = burst_channel
              (decay_all 0 (music_start [1, 2, 3, 4, 5, 0x81, 0xFF] initial_state)).1 (j - 3)) ∧
      (∀ v, v < 3 → (r.st.voice v).volume = 31) ∧
      (∀ v, v < 3 →
        ∃ j, j < [1, 2, 3, 4, 5].length ∧
          burst_channel
            (decay_all 0 (music_start [1, 2, 3, 4, 5, 0x81, 0xFF] initial_state)).1 j = v ∧
          (∀ m, j < m → m < [1, 2, 3, 4, 5].length →
            burst_channel
              (decay_all 0 (music_start [1, 2, 3, 4, 5, 0x81, 0xFF] initial_state)).1 m ≠ v) ∧
          last_frequency (0 + v * 2) r.writes
            = some (note_table.getD ([1, 2, 3, 4, 5].getD j 0 &&& 63) 0)) :=
  voice_starvation 0 (music_start [1, 2, 3, 4, 5, 0x81, 0xFF] initial_state) [1, 2, 3, 4, 5]
    0x81 [0xFF] (by decide) rfl rfl (by decide) (by decide) (by decide)

/-! ## The decay envelope -/

/-- The writes a returning decode loop adds; when none of them is a frequency
write for voice `k`, that voice is untouched and none of them is on its chip
channel. -/
theorem decode_loop_untouched (c0 k : Nat) (stream : List Nat) :
    ∀ (ch : Nat) (r r1 : Run), decode_loop c0 stream ch r = some r1 →
      ∃ new : List ChipWrite, r1.writes = r.writes ++ new ∧
        ((∀ p, ChipWrite.frequency (c0 + k * 2) p ∉ new) →
          r1.st.voice k = r.st.voice k ∧
          new.filter (fun w => decide (w.channel = c0 + k * 2)) = []) := by
  induction stream with
  | nil =>
    intro ch r r1 h
    unfold decode_loop at h
    by_cases hd : r.st.cur_duration = 0
    · simp [hd] at h
    · simp only [hd, if_false, Option.some.injEq] at h
      subst h
      exact ⟨[], by simp, fun _ => ⟨rfl, rfl⟩⟩
  | cons head rest ih =>
    intro ch r r1 h
    unfold decode_loop at h
    by_cases hd : r.st.cur_duration = 0
    · cases hnb : next_music_byte r.st with
      | none => simp [hd, hnb] at h
      | some x =>
        obtain ⟨note, st⟩ := x
        obtain ⟨hv, _, _⟩ := next_music_byte_frame r.st note st hnb
        by_cases hn : note &&& 0x80 = 0
        · simp only [hd, hnb, hn, if_true] at h
          obtain ⟨new, h1, h2⟩ := ih _ _ _ h
          refine ⟨[ChipWrite.attenuation (c0 + ch * 2) 32,
            ChipWrite.frequency (c0 + ch * 2) (note_table.getD (note &&& 63) 0)] ++ new,
            by rw [h1]; simp, ?_⟩
          intro hno
          have hck : ch ≠ k := by
            intro he
            exact hno (note_table.getD (note &&& 63) 0) (by rw [he]; simp)
          obtain ⟨h3, h4⟩ := h2 (fun p hp => hno p (by simp [hp]))
          refine ⟨?_, ?_⟩
          · rw [h3]
            simp [set_volume, Function.update, Ne.symm hck, hv]
          · have hc : ¬ (c0 + ch * 2 = c0 + k * 2) := by omega
            rw [List.filter_append, h4]
            simp [List.filter, ChipWrite.channel, hc]
        · simp only [hd, hnb, hn, if_true, if_false] at h
          obtain ⟨new, h1, h2⟩ := ih _ _ _ h
          refine ⟨new, h1, ?_⟩
          intro hno
          obtain ⟨h3, h4⟩ := h2 hno
          exact ⟨by rw [h3, ← hv], h4⟩
    · simp only [hd, if_false, Option.some.injEq] at h
      subst h
      exact ⟨[], by simp, fun _ => ⟨rfl, rfl⟩⟩

/-- The decay write on the chip channel of voice `k`. -/
theorem decay_all_writes_filter (c0 : Nat) (s : State) (k : Nat) (hk : k < 3) :
    (decay_all c0 s).2.writes.filter (fun w => decide (w.channel = c0 + k * 2))
      = if (s.voice k).volume ≠ 0 then
          [ChipWrite.attenuation (c0 + k * 2) (32 - ((s.voice k).volume : Int))]
        else [] := by
  rw [decay_all_writes]
  have h3 : k = 0 ∨ k = 1 ∨ k = 2 := by omega
  rcases h3 with h | h | h <;> subst h <;>
    simp only [num_voices, List.range_succ, List.range_zero, List.nil_append,
      List.cons_append, List.filterMap_cons] <;>
    split_ifs <;> simp_all [ChipWrite.channel, List.filter]

/-- A returning update without a frequency write for voice `k`: the voice has
the volume the decay pass left and the writes on its chip channel are those
of the decay pass. -/
theorem music_update_untouched (c0 : Nat) (s : State) (r : Run) (k : Nat) (hk : k < 3)
    (hu : music_update c0 s = some r)
    (hno : ∀ p, ChipWrite.frequency (c0 + k * 2) p ∉ r.writes) :
    r.st.voice k = (decay_all c0 s).2.st.voice k ∧
    r.writes.filter (fun w => decide (w.channel = c0 + k * 2))
      = if (s.voice k).volume ≠ 0 then
          [ChipWrite.attenuation (c0 + k * 2) (32 - ((s.voice k).volume : Int))]
        else [] := by
  rw [← decay_all_writes_filter c0 s k hk]
  cases hp : s.music_ptr with
  | none =>
    rw [music_update_idle c0 s hp] at hu
    cases hu
    exact ⟨rfl, rfl⟩
  | some q =>
    obtain ⟨r1, h1, h2⟩ := music_update_decompose c0 s q r hp hu
    obtain ⟨new, h3, h4⟩ := decode_loop_untouched c0 k q _ _ _ h1
    have hw : r.writes = (decay_all c0 s).2.writes ++ new := by rw [h2]; exact h3
    obtain ⟨h5, h6⟩ := h4 (fun p hp1 => hno p (by rw [hw]; simp [hp1]))
    refine ⟨by rw [h2]; exact h5, ?_⟩
    rw [hw, List.filter_append, h6, List.append_nil]

/-- The envelope of a voice of volume `v` that is not triggered during a
sequence of updates. -/
theorem envelope_from_volume (c0 k : Nat) (hk : k < 3) :
    ∀ (n : Nat) (s : State) (rs : List Run) (v : Nat), (s.voice k).volume = v → v ≤ 31 →
      play c0 n s = some rs →
      (∀ r ∈ rs, ∀ p, ChipWrite.frequency (c0 + k * 2) p ∉ r.writes) →
      ∀ (j : Nat) (r : Run), rs[j]? = some r →
        r.writes.filter (fun w => decide (w.channel = c0 + k * 2))
          = (if j < v then [ChipWrite.attenuation (c0 + k * 2) (32 - ((v - j : Nat) : Int))]
             else []) ∧
        (r.st.voice k).volume = v - (j + 1) := by
  intro n
  induction n with
  | zero =>
    intro s rs v _ _ h _ j r hj
    simp only [play, Option.some.injEq] at h
    subst h
    simp at hj
  | succ n ih =>
    intro s rs v hv hle h hno j r hj
    rw [play] at h
    cases hu : music_update c0 s with
    | none => simp [hu] at h
    | some r0 =>
      cases hpl : play c0 n r0.st with
      | none => simp [hu, hpl] at h
      | some rs1 =>
        simp only [hu, hpl, Option.some.injEq] at h
        subst h
        obtain ⟨h1, h2⟩ := music_update_untouched c0 s r0 k hk hu
          (hno r0 (List.mem_cons_self _ _))
        have hvol : (r0.st.voice k).volume = v - 1 := by
          rw [h1, decay_all_volume, hv]
          simp only [num_voices]
          split_ifs <;> omega
        cases j with
        | zero =>
          simp only [List.getElem?_cons_zero, Option.some.injEq] at hj
          subst hj
          refine ⟨?_, hvol⟩
          rw [h2, hv]
          by_cases hv0 : v = 0
          · simp [hv0]
          · have : 0 < v := by omega
            simp [hv0, this]
        | succ j1 =>
          simp only [List.getElem?_cons_succ] at hj
          obtain ⟨h3, h4⟩ := ih r0.st rs1 (v - 1) hvol (by omega) hpl
            (fun x hx => hno x (List.mem_cons_of_mem _ hx)) j1 r hj
          refine ⟨?_, by rw [h4]; omega⟩
          rw [h3]
          by_cases hlt : j1 + 1 < v
          · have : j1 < v - 1 := by omega
            simp only [hlt, this, if_true]
            rw [show v - 1 - j1 = v - (j1 + 1) from by omega]
          · have : ¬ j1 < v - 1 := by omega
            simp only [hlt, this, if_false]

/-- Updates that wait: with a cursor and a byte duration counter of at least
`n`, the next `n` updates return, read nothing, issue no frequency write and
count the duration counter down by `n`. -/
theorem play_armed (c0 : Nat) :
    ∀ (n : Nat) (s : State) (p : List Nat), s.music_ptr = some p → n ≤ s.cur_duration →
      s.cur_duration < 256 →
      ∃ rs : List Run, play c0 n s = some rs ∧ rs.length = n ∧
        (final_state s rs).cur_duration = s.cur_duration - n ∧
        (final_state s rs).music_ptr = some p ∧
        ∀ r ∈ rs, r.reads = [] ∧ ∀ w ∈ r.writes, w.isFrequency = false := by
  intro n
  induction n with
  | zero => intro s p hp _ _; exact ⟨[], rfl, rfl, rfl, hp, by simp⟩
  | succ n ih =>
    intro s p hp hn hlt
    have hne : s.cur_duration ≠ 0 := by omega
    obtain ⟨r, hu, hr, hdur, hptr, hfreq⟩ :
        ∃ r : Run, music_update c0 s = some r ∧ r.reads = [] ∧
          r.st.cur_duration = (s.cur_duration + 255) % 256 ∧ r.st.music_ptr = s.music_ptr ∧
          ∀ w ∈ r.writes, w.isFrequency = false :=
      ⟨_, music_update_armed c0 s _ hp hne, decay_all_reads c0 s, rfl,
        decay_all_music_ptr c0 s, decay_all_no_frequency c0 s⟩
    obtain ⟨rs, h1, h2, h3, h4, h5⟩ := ih r.st p (by rw [hptr, hp]) (by rw [hdur]; omega)
      (by rw [hdur]; omega)
    refine ⟨r :: rs, by rw [play, hu]; simp only [h1], by simp [h2], ?_, ?_, ?_⟩
    · simp only [final_state, h3, hdur]; omega
    · simp only [final_state, h4]
    · intro x hx
      rcases List.mem_cons.mp hx with h | h
      · rw [h]
        exact ⟨hr, hfreq⟩
      · exact h5 x h

/-- C25: linear decay envelope.  Let voice `ch` have volume 31, as a trigger
on tick `t` leaves it, and let the following updates return without a
frequency write for that voice (no retrigger).  Then the update on tick
`t + 1 + j` writes on the chip channel of the voice exactly one attenuation
write of level `j + 1` when `j < 31` and nothing when `j >= 31`, and leaves
the volume at `31 - (j + 1)`: the levels are 1, 2, ..., 31 on the ticks
`t + 1 .. t + 31`, the volume is 0 after tick `t + 31` and no write follows
from tick `t + 32` on. -/
theorem decay_envelope (c0 : Nat) (s : State) (ch n : Nat) (rs : List Run)
    (hch : ch < num_voices) (hv : (s.voice ch).volume = 31)
    (hplay : play c0 n s = some rs)
    (hno : ∀ r ∈ rs, ∀ p, ChipWrite.frequency (c0 + ch * 2) p ∉ r.writes) :
    ∀ (j : Nat) (r : Run), rs[j]? = some r →
      r.writes.filter (fun w => decide (w.channel = c0 + ch * 2))
        = (if j < 31 then [ChipWrite.attenuation (c0 + ch * 2) ((j : Int) + 1)] else []) ∧
      (r.st.voice ch).volume = 31 - (j + 1) := by
  intro j r hj
  obtain ⟨h1, h2⟩ := envelope_from_volume c0 ch hch n s rs 31 hv (Nat.le_refl _) hplay hno j r hj
  refine ⟨?_, h2⟩
  rw [h1]
  by_cases hlt : j < 31
  · simp only [hlt, if_true]
    have : (32 : Int) - ((31 - j : Nat) : Int) = (j : Int) + 1 := by omega
    rw [this]
  · simp only [hlt, if_false]

/-- C25, for voice 2 after the first update of `[5, 0xBF, 0xFF]`, over the 40
updates that follow. -/
theorem decay_envelope_witness :
    ∃ rs : List Run,
      play 0 40 (update_state 0 (music_start [5, 0xBF, 0xFF] initial_state)) = some rs ∧
      rs.length = 40 ∧
      ∀ (j : Nat) (r : Run), rs[j]? = some r →
        r.writes.filter (fun w => decide (w.channel = 0 + 2 * 2))
          = (if j < 31 then [ChipWrite.attenuation (0 + 2 * 2) ((j : Int) + 1)] else []) ∧
        (r.st.voice 2).volume = 31 - (j + 1) := by
  have hs : ((update_state 0 (music_start [5, 0xBF, 0xFF] initial_state)).voice 2).volume = 31 ∧
      (update_state 0 (music_start [5, 0xBF, 0xFF] initial_state)).music_ptr = some [0xFF] ∧
      (update_state 0 (music_start [5, 0xBF, 0xFF] initial_state)).cur_duration = 62 := by
    simp [update_state, music_update, decay_all, decay_loop, decay_step, decode_loop,
      next_music_byte, music_start, initial_state, num_voices, set_volume, Function.update,
      and_literals]
  obtain ⟨rs, h1, h2, _, _, h5⟩ := play_armed 0 40
    (update_state 0 (music_start [5, 0xBF, 0xFF] initial_state)) [0xFF] hs.2.1
    (by rw [hs.2.2]; decide) (by rw [hs.2.2]; decide)
  refine ⟨rs, h1, h2, ?_⟩
  exact decay_envelope 0 (update_state 0 (music_start [5, 0xBF, 0xFF] initial_state)) 2 40 rs
    (by decide) hs.1 h1 (fun r hr p hp => by
      have := (h5 r hr).2 _ hp
      simp [ChipWrite.isFrequency] at this)

/-! ## The demo song -/

/-- The burst check of a concatenation goes on from the count the first part
leaves. -/
theorem burst_scan_append_some (a b : List Nat) :
    ∀ (j k : Nat), burst_scan j a = some k → burst_scan j (a ++ b) = burst_scan k b := by
  induction a with
  | nil =>
    intro j k h
    simp only [burst_scan, Option.some.injEq] at h
    subst h; rfl
  | cons x xs ih =>
    intro j k h
    simp only [List.cons_append, burst_scan] at h ⊢
    split_ifs at h ⊢ with h1 h2 h3 h4
    · exact ih _ _ h
    · exact ih _ _ h

set_option maxRecDepth 8000 in
/-- Part 0 of `music1`: its burst check, started with 0 notes seen, and its
length. -/
theorem music1_part0_check :
    burst_scan 0 music1_part0 = some 0 ∧ music1_part0.length = 128 := by
  decide

set_option maxRecDepth 8000 in
/-- Part 1 of `music1`: its burst check, started with 0 notes seen, and its
length. -/
theorem music1_part1_check :
    burst_scan 0 music1_part1 = some 1 ∧ music1_part1.length = 128 := by
  decide

set_option maxRecDepth 8000 in
/-- Part 2 of `music1`: its burst check, started with 1 notes seen, and its
length. -/
theorem music1_part2_check :
    burst_scan 1 music1_part2 = some 0 ∧ music1_part2.length = 128 := by
  decide

set_option maxRecDepth 8000 in
/-- Part 3 of `music1`: its burst check, started with 0 notes seen, and its
length. -/
theorem music1_part3_check :
    burst_scan 0 music1_part3 = some 3 ∧ music1_part3.length = 128 := by
  decide

set_option maxRecDepth 8000 in
/-- Part 4 of `music1`: its burst check, started with 3 notes seen, and its
length. -/
theorem music1_part4_check :
    burst_scan 3 music1_part4 = some 2 ∧ music1_part4.length = 128 := by
  decide

set_option maxRecDepth 8000 in
/-- Part 5 of `music1`: its burst check, started with 2 notes seen, and its
length. -/
theorem music1_part5_check :
    burst_scan 2 music1_part5 = some 0 ∧ music1_part5.length = 128 := by
  decide

set_option maxRecDepth 8000 in
/-- Part 6 of `music1`: its burst check, started with 0 notes seen, and its
length. -/
theorem music1_part6_check :
    burst_scan 0 music1_part6 = some 2 ∧ music1_part6.length = 128 := by
  decide

set_option maxRecDepth 8000 in
/-- Part 7 of `music1`: its burst check, started with 2 notes seen, and its
length. -/
theorem music1_part7_check :
    burst_scan 2 music1_part7 = some 1 ∧ music1_part7.length = 128 := by
  decide

set_option maxRecDepth 8000 in
/-- Part 8 of `music1`: its burst check, started with 1 notes seen, and its
length. -/
theorem music1_part8_check :
    burst_scan 1 music1_part8 = some 0 ∧ music1_part8.length = 128 := by
  decide

set_option maxRecDepth 8000 in
/-- Part 9 of `music1`: its burst check, started with 0 notes seen, and its
length. -/
theorem music1_part9_check :
    burst_scan 0 music1_part9 = some 3 ∧ music1_part9.length = 128 := by
  decide

set_option maxRecDepth 8000 in
/-- Part 10 of `music1`: its burst check, started with 3 notes seen, and its
length. -/
theorem music1_part10_check :
    burst_scan 3 music1_part10 = some 0 ∧ music1_part10.length = 128 := by
  decide

set_option maxRecDepth 8000 in
/-- Part 11 of `music1`: its burst check, started with 0 notes seen, and its
length. -/
theorem music1_part11_check :
    burst_scan 0 music1_part11 = some 2 ∧ music1_part11.length = 128 := by
  decide

set_option maxRecDepth 8000 in
/-- Part 12 of `music1`: its burst check, started with 2 notes seen, and its
length. -/
theorem music1_part12_check :
    burst_scan 2 music1_part12 = some 1 ∧ music1_part12.length = 128 := by
  decide

set_option maxRecDepth 8000 in
/-- Part 13 of `music1`: its burst check, started with 1 notes seen, and its
length. -/
theorem music1_part13_check :
    burst_scan 1 music1_part13 = some 1 ∧ music1_part13.length = 128 := by
  decide

set_option maxRecDepth 8000 in
/-- Part 14 of `music1`: its burst check, started with 1 notes seen, and its
length. -/
theorem music1_part14_check :
    burst_scan 1 music1_part14 = some 2 ∧ music1_part14.length = 128 := by
  decide

set_option maxRecDepth 8000 in
/-- Part 15 of `music1`: its burst check, started with 2 notes seen, and its
length. -/
theorem music1_part15_check :
    burst_scan 2 music1_part15 = some 0 ∧ music1_part15.length = 128 := by
  decide

set_option maxRecDepth 8000 in
/-- Part 16 of `music1`: its burst check, started with 0 notes seen, and its
length. -/
theorem music1_part16_check :
    burst_scan 0 music1_part16 = some 2 ∧ music1_part16.length = 128 := by
  decide

set_option maxRecDepth 8000 in
/-- Part 17 of `music1`: its burst check, started with 2 notes seen, and its
length. -/
theorem music1_part17_check :
    burst_scan 2 music1_part17 = some 1 ∧ music1_part17.length = 128 := by
  decide

set_option maxRecDepth 8000 in
/-- Part 18 of `music1`: its burst check, started with 1 notes seen, and its
length. -/
theorem music1_part18_check :
    burst_scan 1 music1_part18 = some 1 ∧ music1_part18.length = 128 := by
  decide

set_option maxRecDepth 8000 in
/-- Part 19 of `music1`: its burst check, started with 1 notes seen, and its
length. -/
theorem music1_part19_check :
    burst_scan 1 music1_part19 = some 1 ∧ music1_part19.length = 128 := by
  decide

set_option maxRecDepth 8000 in
/-- Part 20 of `music1`: its burst check, started with 1 notes seen, and its
length. -/
theorem music1_part20_check :
    burst_scan 1 music1_part20 = some 0 ∧ music1_part20.length = 128 := by
  decide

set_option maxRecDepth 8000 in
/-- Part 21 of `music1`: its burst check, started with 0 notes seen, and its
length. -/
theorem music1_part21_check :
    burst_scan 0 music1_part21 = some 0 ∧ music1_part21.length = 128 := by
  decide

set_option maxRecDepth 8000 in
/-- Part 22 of `music1`: its burst check, started with 0 notes seen, and its
length. -/
theorem music1_part22_check :
    burst_scan 0 music1_part22 = some 0 ∧ music1_part22.length = 128 := by
  decide

set_option maxRecDepth 8000 in
/-- Part 23 of `music1`: its burst check, started with 0 notes seen, and its
length. -/
theorem music1_part23_check :
    burst_scan 0 music1_part23 = some 3 ∧ music1_part23.length = 128 := by
  decide

set_option maxRecDepth 8000 in
/-- Part 24 of `music1`: its burst check, started with 3 notes seen, and its
length. -/
theorem music1_part24_check :
    burst_scan 3 music1_part24 = some 3 ∧ music1_part24.length = 41 := by
  decide

/-- The bytes of `music1` before its last byte pass the burst check and end
with a burst of three notes. -/
theorem music1_body_scan : burst_scan 0 music1.dropLast = some 3 := by
  rw [music1, List.dropLast_concat]
  simp only [List.append_assoc]
  rw [burst_scan_append_some _ _ _ _ music1_part0_check.1,
    burst_scan_append_some _ _ _ _ music1_part1_check.1,
    burst_scan_append_some _ _ _ _ music1_part2_check.1,
    burst_scan_append_some _ _ _ _ music1_part3_check.1,
    burst_scan_append_some _ _ _ _ music1_part4_check.1,
    burst_scan_append_some _ _ _ _ music1_part5_check.1,
    burst_scan_append_some _ _ _ _ music1_part6_check.1,
    burst_scan_append_some _ _ _ _ music1_part7_check.1,
    burst_scan_append_some _ _ _ _ music1_part8_check.1,
    burst_scan_append_some _ _ _ _ music1_part9_check.1,
    burst_scan_append_some _ _ _ _ music1_part10_check.1,
    burst_scan_append_some _ _ _ _ music1_part11_check.1,
    burst_scan_append_some _ _ _ _ music1_part12_check.1,
    burst_scan_append_some _ _ _ _ music1_part13_check.1,
    burst_scan_append_some _ _ _ _ music1_part14_check.1,
    burst_scan_append_some _ _ _ _ music1_part15_check.1,
    burst_scan_append_some _ _ _ _ music1_part16_check.1,
    burst_scan_append_some _ _ _ _ music1_part17_check.1,
    burst_scan_append_some _ _ _ _ music1_part18_check.1,
    burst_scan_append_some _ _ _ _ music1_part19_check.1,
    burst_scan_append_some _ _ _ _ music1_part20_check.1,
    burst_scan_append_some _ _ _ _ music1_part21_check.1,
    burst_scan_append_some _ _ _ _ music1_part22_check.1,
    burst_scan_append_some _ _ _ _ music1_part23_check.1]
  exact music1_part24_check.1

/-- What the burst check guarantees about the bytes: no `0xFF`, and nonzero
low six bits under every set high bit. -/
theorem burst_scan_bytes (body : List Nat) :
    ∀ (j k : Nat), burst_scan j body = some k →
      0xFF ∉ body ∧ ∀ b ∈ body, b &&& 0x80 ≠ 0 → b &&& 63 ≠ 0 := by
  induction body with
  | nil => intro j k _; simp
  | cons x xs ih =>
    intro j k h
    simp only [burst_scan] at h
    split_ifs at h with h1 h2 h3 h4
    · obtain ⟨h5, h6⟩ := ih _ _ h
      refine ⟨?_, ?_⟩
      · intro hm
        rcases List.mem_cons.mp hm with hm | hm
        · rw [← hm] at h1; exact absurd h1 (by decide)
        · exact h5 hm
      · intro b hb hbit
        rcases List.mem_cons.mp hb with hb | hb
        · rw [hb] at hbit; exact absurd h1 hbit
        · exact h6 b hb hbit
    · obtain ⟨h5, h6⟩ := ih _ _ h
      refine ⟨?_, ?_⟩
      · intro hm
        rcases List.mem_cons.mp hm with hm | hm
        · exact h3 hm.symm
        · exact h5 hm
      · intro b hb hbit
        rcases List.mem_cons.mp hb with hb | hb
        · rw [hb]; exact h4.2
        · exact h6 b hb hbit

/-- A body that passes the burst check is a last burst of notes, or a first
burst ended by a duration byte followed by a body that passes the check. -/
theorem burst_scan_split (body : List Nat) :
    ∀ (j k : Nat), burst_scan j body = some k →
      ((∀ b ∈ body, b &&& 0x80 = 0) ∧ k = j + body.length ∧ (body ≠ [] → k ≤ 3)) ∨
      (∃ (ns : List Nat) (t : Nat) (rest : List Nat), body = ns ++ t :: rest ∧
        (∀ b ∈ ns, b &&& 0x80 = 0) ∧ 1 ≤ j + ns.length ∧ (ns ≠ [] → j + ns.length ≤ 3) ∧
        t &&& 0x80 ≠ 0 ∧ t ≠ 0xff ∧ t &&& 63 ≠ 0 ∧ burst_scan 0 rest = some k) := by
  induction body with
  | nil =>
    intro j k h
    simp only [burst_scan, Option.some.injEq] at h
    exact Or.inl ⟨by simp, by simp [h], by simp⟩
  | cons x xs ih =>
    intro j k h
    simp only [burst_scan] at h
    split_ifs at h with h1 h2 h3 h4
    · rcases ih _ _ h with ⟨h5, h6, h7⟩ | ⟨ns, t, rest, h5, h6, h7, h8, h9⟩
      · left
        refine ⟨?_, by simp only [List.length_cons]; omega, ?_⟩
        · intro b hb
          rcases List.mem_cons.mp hb with hb | hb
          · rw [hb]; exact h1
          · exact h5 b hb
        · intro _
          by_cases hxs : xs = []
          · subst hxs; simp only [List.length_nil] at h6; omega
          · exact h7 hxs
      · right
        refine ⟨x :: ns, t, rest, by rw [h5]; rfl, ?_, by simp only [List.length_cons]; omega,
          ?_, h9⟩
        · intro b hb
          rcases List.mem_cons.mp hb with hb | hb
          · rw [hb]; exact h1
          · exact h6 b hb
        · intro _
          simp only [List.length_cons]
          by_cases hns : ns = []
          · subst hns; simp only [List.length_nil]; omega
          · have := h8 hns; omega
    · right
      exact ⟨[], x, xs, rfl, by simp, by simpa using h4.1, by simp, h1, h3, h4.2, h⟩

/-- Sequences of updates compose. -/
theorem play_append (c0 : Nat) :
    ∀ (m : Nat) (s : State) (rs1 : List Run) (n : Nat) (rs2 : List Run),
      play c0 m s = some rs1 → play c0 n (final_state s rs1) = some rs2 →
      play c0 (m + n) s = some (rs1 ++ rs2) := by
  intro m
  induction m with
  | zero =>
    intro s rs1 n rs2 h1 h2
    simp only [play, Option.some.injEq] at h1
    subst h1
    simpa [final_state] using h2
  | succ m ih =>
    intro s rs1 n rs2 h1 h2
    rw [play] at h1
    cases hu : music_update c0 s with
    | none => simp [hu] at h1
    | some r =>
      cases hpl : play c0 m r.st with
      | none => simp [hu, hpl] at h1
      | some rs =>
        simp only [hu, hpl, Option.some.injEq] at h1
        subst h1
        have := ih r.st rs n rs2 hpl (by simpa [final_state] using h2)
        rw [show m + 1 + n = (m + n) + 1 from by omega, play, hu]
        simp only [this, List.cons_append]

/-- The final state of a composed sequence. -/
theorem final_state_append (rs1 rs2 : List Run) :
    ∀ s : State, final_state s (rs1 ++ rs2) = final_state (final_state s rs1) rs2 := by
  induction rs1 with
  | nil => intro s; rfl
  | cons r rs ih => intro s; simp only [List.cons_append, final_state]; exact ih r.st

/-- The bytes read by a composed sequence. -/
theorem bytes_read_append (rs1 rs2 : List Run) :
    bytes_read (rs1 ++ rs2) = bytes_read rs1 ++ bytes_read rs2 := by
  induction rs1 with
  | nil => rfl
  | cons r rs ih =>
    show r.reads ++ bytes_read (rs ++ rs2) = (r.reads ++ bytes_read rs) ++ bytes_read rs2
    rw [ih, List.append_assoc]

/-- Updates that read nothing. -/
theorem bytes_read_nil (rs : List Run) (h : ∀ r ∈ rs, r.reads = []) : bytes_read rs = [] := by
  induction rs with
  | nil => rfl
  | cons y ys ih =>
    simp only [bytes_read]
    rw [h y (List.mem_cons_self _ _), ih (fun z hz => h z (List.mem_cons_of_mem _ hz))]
    rfl

/-- One frequency write per note. -/
theorem chord_writes_frequency_count (c0 f : Nat) (notes : List Nat) :
    ∀ i, ((chord_writes c0 f i notes).filter (fun w => w.isFrequency)).length
      = notes.length := by
  induction notes with
  | nil => intro i; rfl
  | cons n ns ih =>
    intro i
    have h := ih (i + 1)
    simp only [chord_writes, List.filter_cons, ChipWrite.isFrequency, List.length_cons]
    simpa using h

/-- Playing a song whose body passes the burst check, from a state with the
duration counter at 0 and the cursor on the song: some number of updates
return and clear the cursor, they read the whole song, and each of them
writes at most three frequencies and reads either nothing or a burst of one
to three notes and its ending byte. -/
theorem play_bursts (c0 : Nat) :
    ∀ (len : Nat) (body : List Nat) (k : Nat) (s : State), body.length ≤ len →
      burst_scan 0 body = some k → 1 ≤ k → s.cur_duration = 0 →
      s.music_ptr = some (body ++ [0xFF]) →
      ∃ (n : Nat) (rs : List Run), play c0 n s = some rs ∧
        (final_state s rs).music_ptr = none ∧ bytes_read rs = body ++ [0xFF] ∧
        ∀ r ∈ rs, (r.writes.filter (fun w => w.isFrequency)).length ≤ 3 ∧
          (r.reads = [] ∨
            ∃ (ns : List Nat) (t : Nat), r.reads = ns ++ [t] ∧ 1 ≤ ns.length ∧
              ns.length ≤ 3 ∧ (∀ b ∈ ns, b &&& 0x80 = 0) ∧ t &&& 0x80 ≠ 0 ∧
              t &&& 63 ≠ 0) := by
  intro len
  induction len with
  | zero =>
    intro body k s hlen hscan hk _ _
    have hb : body = [] := List.length_eq_zero.mp (by omega)
    subst hb
    simp only [burst_scan, Option.some.injEq] at hscan
    omega
  | succ len ih =>
    intro body k s hlen hscan hk hd hp
    have hfreq : ∀ (r : Run) (ns : List Nat),
        r.writes = (decay_all c0 s).2.writes ++ chord_writes c0 (decay_all c0 s).1 0 ns →
        (r.writes.filter (fun w => w.isFrequency)).length = ns.length := by
      intro r ns hw
      have hdec : (decay_all c0 s).2.writes.filter (fun w => w.isFrequency) = [] := by
        rw [List.filter_eq_nil_iff]
        intro w hw1
        simp [decay_all_no_frequency c0 s w hw1]
      rw [hw, List.filter_append, hdec, List.nil_append, chord_writes_frequency_count]
    rcases burst_scan_split body 0 k hscan with ⟨h1, h2, h3⟩ |
        ⟨ns, t, rest, h1, h2, h3, h4, h5, h6, h7, h8⟩
    · have hne : body ≠ [] := by
        intro h; rw [h] at h2; simp at h2; omega
      have hk3 := h3 hne
      obtain ⟨r, hu, hw, hr, _, hptr, _⟩ :=
        music_update_burst c0 s body 0xFF [] hd hp h1 (by decide) (by decide)
      refine ⟨1, [r], by simp [play, hu], by simp [final_state, hptr], by simp [bytes_read, hr],
        ?_⟩
      intro x hx
      simp only [List.mem_singleton] at hx
      subst hx
      refine ⟨by rw [hfreq x body hw]; omega, Or.inr ⟨body, 0xFF, hr, by omega, by omega, h1,
        by decide, by decide⟩⟩
    · have hns : ns ≠ [] := by
        intro h; rw [h] at h3; simp at h3
      have hns3 := h4 hns
      have hpt : s.music_ptr = some (ns ++ t :: (rest ++ [0xFF])) := by
        rw [hp, h1]; simp
      obtain ⟨r, hu, hw, hr, hdur, hptr, _⟩ :=
        music_update_burst c0 s ns t (rest ++ [0xFF]) hd hpt h2 h5 h7
      rw [if_neg h6] at hptr
      have h63 : t &&& 63 ≤ 63 := Nat.and_le_right
      obtain ⟨rsa, ha1, _, ha3, ha4, ha5⟩ := play_armed c0 ((t &&& 63) - 1) r.st
        (rest ++ [0xFF]) hptr (by omega) (by omega)
      have hrl : rest.length ≤ len := by
        rw [h1] at hlen
        simp only [List.length_append, List.length_cons] at hlen
        omega
      obtain ⟨n, rs, hb1, hb2, hb3, hb4⟩ := ih rest k (final_state r.st rsa) hrl h8 hk
        (by rw [ha3]; omega) ha4
      have hra : bytes_read rsa = [] := bytes_read_nil rsa (fun x hx => (ha5 x hx).1)
      have hplay1 : play c0 1 s = some [r] := by simp [play, hu]
      have hplay2 := play_append c0 1 s [r] _ rsa hplay1 (by simpa [final_state] using ha1)
      have hplay3 := play_append c0 _ s ([r] ++ rsa) n rs hplay2
        (by rw [final_state_append]; simpa [final_state] using hb1)
      refine ⟨_, _, hplay3, ?_, ?_, ?_⟩
      · rw [final_state_append, final_state_append]
        simpa [final_state] using hb2
      · rw [bytes_read_append, bytes_read_append, hra, hb3, h1]
        simp [bytes_read, hr]
      · intro x hx
        simp only [List.mem_append, List.mem_singleton] at hx
        rcases hx with (hx | hx) | hx
        · subst hx
          have hl : 1 ≤ ns.length := by omega
          exact ⟨by rw [hfreq x ns hw]; omega,
            Or.inr ⟨ns, t, hr, hl, by omega, h2, h5, h7⟩⟩
        · obtain ⟨hx1, hx2⟩ := ha5 x hx
          refine ⟨?_, Or.inl hx1⟩
          have : x.writes.filter (fun w => w.isFrequency) = [] := by
            rw [List.filter_eq_nil_iff]
            intro w hw1
            simp [hx2 w hw1]
          rw [this]; simp
        · exact hb4 x hx

/-- C26: the bundled demo song `music1` is well formed.  It has 3114 bytes;
its last byte is `0xFF` and no earlier byte is; every byte with the high bit
set has nonzero low six bits; the bytes before the sentinel pass the burst
check (every burst has one to three notes and ends with one duration byte)
and end with a burst of three notes, which the sentinel ends.  Played from
the initial state after `music_start`, some number of updates return and
leave the cursor cleared, having read the song byte by byte; each update
issues at most three frequency writes, and reads either nothing or one to
three notes and the one byte ending their burst. -/
theorem music1_well_formed (c0 : Nat) :
    music1.length = 3114 ∧
    music1.getLast? = some 0xFF ∧
    0xFF ∉ music1.dropLast ∧
    (∀ b ∈ music1, b &&& 0x80 ≠ 0 → b &&& 63 ≠ 0) ∧
    burst_scan 0 music1.dropLast = some 3 ∧
    ∃ (n : Nat) (rs : List Run), play c0 n (music_start music1 initial_state) = some rs ∧
      (final_state (music_start music1 initial_state) rs).music_ptr = none ∧
      bytes_read rs = music1 ∧
      ∀ r ∈ rs, (r.writes.filter (fun w => w.isFrequency)).length ≤ 3 ∧
        (r.reads = [] ∨
          ∃ (ns : List Nat) (t : Nat), r.reads = ns ++ [t] ∧ 1 ≤ ns.length ∧
            ns.length ≤ 3 ∧ (∀ b ∈ ns, b &&& 0x80 = 0) ∧ t &&& 0x80 ≠ 0 ∧
            t &&& 63 ≠ 0) := by
  have hsplit : music1 = music1.dropLast ++ [0xFF] := by
    conv_lhs => rw [music1]
    rw [music1, List.dropLast_concat]
  have hscan := music1_body_scan
  obtain ⟨hno, hlow⟩ := burst_scan_bytes music1.dropLast 0 3 hscan
  refine ⟨?_, ?_, hno, ?_, hscan, ?_⟩
  · rw [music1]
    simp only [List.length_append, List.length_singleton,
      music1_part0_check.2,
      music1_part1_check.2,
      music1_part2_check.2,
      music1_part3_check.2,
      music1_part4_check.2,
      music1_part5_check.2,
      music1_part6_check.2,
      music1_part7_check.2,
      music1_part8_check.2,
      music1_part9_check.2,
      music1_part10_check.2,
      music1_part11_check.2,
      music1_part12_check.2,
      music1_part13_check.2,
      music1_part14_check.2,
      music1_part15_check.2,
      music1_part16_check.2,
      music1_part17_check.2,
      music1_part18_check.2,
      music1_part19_check.2,
      music1_part20_check.2,
      music1_part21_check.2,
      music1_part22_check.2,
      music1_part23_check.2,
      music1_part24_check.2]
  · rw [hsplit, List.getLast?_append]; rfl
  · intro b hb hbit
    rw [hsplit] at hb
    rcases List.mem_append.mp hb with hb | hb
    · exact hlow b hb hbit
    · simp only [List.mem_singleton] at hb
      rw [hb]; decide
  · obtain ⟨n, rs, h1, h2, h3, h4⟩ := play_bursts c0 music1.dropLast.length music1.dropLast 3
      (music_start music1 initial_state) (Nat.le_refl _) hscan (by decide) rfl
      (by rw [← hsplit]; rfl)
    exact ⟨n, rs, h1, h2, by rw [h3, ← hsplit], h4⟩

/-! ## A sounding voice cut off beside a silent one -/

/-- C31: a sounding voice can be cut off while a silent voice is available.
In a state with voice 0 silent, voice 1 sounding and voice 2 silent, an
update that decodes a burst of two notes returns; the decay pass writes for
voice 1 only, the first note is triggered on voice 2 and the second on the
still sounding voice 1, which is set back to volume 31; voice 0 stays at
volume 0 and no write is addressed to its chip channel.  In general an update
that decodes a burst of at most three notes returns and the voices of its
notes are pairwise different. -/
theorem sounding_voice_cut_off (c0 : Nat) (s : State) (n1 n2 t : Nat) (rest : List Nat)
    (h0 : (s.voice 0).volume = 0) (h1 : (s.voice 1).volume ≠ 0)
    (h2 : (s.voice 2).volume = 0) (hd : s.cur_duration = 0)
    (hp : s.music_ptr = some (n1 :: n2 :: t :: rest))
    (hn1 : n1 &&& 0x80 = 0) (hn2 : n2 &&& 0x80 = 0) (ht : t &&& 0x80 ≠ 0)
    (hlow : t &&& 63 ≠ 0) :
    (∃ r : Run, music_update c0 s = some r ∧
      r.reads = [n1, n2, t] ∧
      r.writes =
        [ChipWrite.attenuation (c0 + 1 * 2) (32 - ((s.voice 1).volume : Int)),
         ChipWrite.attenuation (c0 + 2 * 2) 32,
         ChipWrite.frequency (c0 + 2 * 2) (note_table.getD (n1 &&& 63) 0),
         ChipWrite.attenuation (c0 + 1 * 2) 32,
         ChipWrite.frequency (c0 + 1 * 2) (note_table.getD (n2 &&& 63) 0)] ∧
      (r.st.voice 0).volume = 0 ∧
      (r.st.voice 1).volume = 31 ∧
      (r.st.voice 2).volume = 31 ∧
      (∀ w ∈ r.writes, w.channel ≠ c0 + 0 * 2)) ∧
    (∀ (s2 : State) (notes : List Nat) (t2 : Nat) (rest2 : List Nat),
      notes.length ≤ 3 → s2.cur_duration = 0 →
      s2.music_ptr = some (notes ++ t2 :: rest2) →
      (∀ n ∈ notes, n &&& 0x80 = 0) → t2 &&& 0x80 ≠ 0 → t2 &&& 63 ≠ 0 →
      ∃ r : Run, music_update c0 s2 = some r ∧
        r.writes = (decay_all c0 s2).2.writes ++ chord_writes c0 (decay_all c0 s2).1 0 notes ∧
        ∀ i j, i < j → j < notes.length →
          burst_channel (decay_all c0 s2).1 i ≠ burst_channel (decay_all c0 s2).1 j) := by
  constructor
  · have hf : (decay_all c0 s).1 = 2 := by rw [decay_all_freech]; simp [h2]
    obtain ⟨r1, e1, e2, e3, e4, e5, e6, e7⟩ :=
      decode_loop_burst_voices c0 2 [n1, n2] (t :: rest)
        (by
          intro n hn
          simp only [List.mem_cons, List.mem_singleton, List.not_mem_nil, or_false] at hn
          rcases hn with hn | hn <;> rw [hn] <;> assumption)
        0 (decay_all c0 s).2
        (by rw [decay_all_cur_duration]; exact hd) (by rw [decay_all_music_ptr]; exact hp)
    rw [decode_loop_stop c0 t rest _ r1 e4 e5 ht hlow] at e1
    have hb0 : burst_channel 2 0 = 2 := rfl
    rw [hb0] at e1
    have hu : music_update c0 s = some
        { st := { r1.st with
                  music_ptr := if t = 0xff then none else some rest
                  cur_duration := ((t &&& 63) + 255) % 256 }
          writes := r1.writes
          reads := r1.reads ++ [t] } := by
      simp only [music_update, decay_all_music_ptr, hp, hf]
      have e1b : decode_loop c0 (n1 :: n2 :: t :: rest) 2 (decay_all c0 s).2 = _ := e1
      rw [e1b]
    have hw : r1.writes =
        [ChipWrite.attenuation (c0 + 1 * 2) (32 - ((s.voice 1).volume : Int)),
         ChipWrite.attenuation (c0 + 2 * 2) 32,
         ChipWrite.frequency (c0 + 2 * 2) (note_table.getD (n1 &&& 63) 0),
         ChipWrite.attenuation (c0 + 1 * 2) 32,
         ChipWrite.frequency (c0 + 1 * 2) (note_table.getD (n2 &&& 63) 0)] := by
      rw [e2, decay_all_writes]
      simp [num_voices, List.range_succ, List.filterMap_cons, h0, h1, h2, chord_writes,
        burst_channel]
    refine ⟨_, hu, ?_, hw, ?_, ?_, ?_, ?_⟩
    · simp [e3, decay_all_reads]
    · have h := e7 0 (by
        intro m hm
        have hm2 : m = 0 ∨ m = 1 := by
          simp only [List.length_cons, List.length_nil] at hm; omega
        rcases hm2 with hm2 | hm2 <;> subst hm2 <;> decide)
      show (r1.st.voice 0).volume = 0
      rw [h, decay_all_volume]
      simp [h0]
    · exact e6 1 (by simp)
    · exact e6 0 (by simp)
    · intro w hw2
      have hw3 : w ∈ r1.writes := hw2
      rw [hw] at hw3
      simp only [List.mem_cons, List.mem_singleton, List.not_mem_nil, or_false] at hw3
      rcases hw3 with h | h | h | h | h <;> rw [h] <;> simp [ChipWrite.channel]
  · intro s2 notes t2 rest2 hlen hd2 hp2 hnotes ht2 hlow2
    obtain ⟨r, hu, hw, _⟩ := music_update_burst c0 s2 notes t2 rest2 hd2 hp2 hnotes ht2 hlow2
    refine ⟨r, hu, hw, ?_⟩
    intro i j hij hj
    simp only [burst_channel]
    omega

/-- C31, on a state whose voice 1 has volume 20 and whose other voices are
silent, with the cursor on the burst `[5, 10]` ended by `0x83`: the decay
write of voice 1 has level 12, note 5 goes to voice 2 and note 10 retriggers
voice 1, while voice 0 stays silent and unaddressed. -/
theorem sounding_voice_cut_off_witness :
    ∃ r : Run,
      music_update 0
        { voice := fun ch => if ch = 1 then ⟨20⟩ else ⟨0⟩, music_index := 0, cur_duration := 0,
          music_ptr := some [5, 10, 0x83, 0xFF] } = some r ∧
      r.reads = [5, 10, 0x83] ∧
      r.writes =
        [ChipWrite.attenuation 2 12, ChipWrite.attenuation 4 32, ChipWrite.frequency 4 26005,
         ChipWrite.attenuation 2 32, ChipWrite.frequency 2 19482] ∧
      (r.st.voice 0).volume = 0 ∧
      (r.st.voice 1).volume = 31 ∧
      (r.st.voice 2).volume = 31 ∧
      (∀ w ∈ r.writes, w.channel ≠ 0 + 0 * 2) :=
  (sounding_voice_cut_off 0
    { voice := fun ch => if ch = 1 then ⟨20⟩ else ⟨0⟩, music_index := 0, cur_duration := 0,
      music_ptr := some [5, 10, 0x83, 0xFF] } 5 10 0x83 [0xFF]
    rfl (by decide) rfl rfl rfl (by decide) (by decide) (by decide) (by decide)).1

/-! ## The period table -/

/-- The entries of `note_table` from index 13 on, each with the bounds and
the comparison with its successor that the table facts below rest on: an
entry lies in `1 .. 32767` at every index below 64, and is above the next
entry at every index in `13 .. 62`. -/
theorem note_table_steps :
    ∀ i, i < 64 →
      (1 ≤ note_table.getD i 0 ∧ note_table.getD i 0 ≤ 32767) ∧
      (13 ≤ i → i < 63 → note_table.getD (i + 1) 0 < note_table.getD i 0) := by
  decide

/-- An entry of `note_table` and the entry twelve indices later, for the
indices `13 .. 51`: the first differs from twice the second by at most one. -/
theorem note_table_halving :
    ∀ i, i < 52 → 13 ≤ i →
      -1 ≤ note_table.getD i 0 - 2 * note_table.getD (i + 12) 0 ∧
      note_table.getD i 0 - 2 * note_table.getD (i + 12) 0 ≤ 1 := by
  decide

/-- C32: every one of the 64 entries of `note_table` is a positive value
below `2 ^ 15`: the table has 64 entries, each entry `p` satisfies
`1 <= p <= 32767`, so it is a non-negative value of a 16-bit signed `int`
(the same value modulo `2 ^ 16`), and this holds for the entry at the masked
index `b & 63` of any byte, the one an update writes as a period. -/
theorem note_table_range :
    note_table.length = 64 ∧
    (∀ p ∈ note_table, 1 ≤ p ∧ p ≤ 32767 ∧ p < 2 ^ 15 ∧ p % 2 ^ 16 = p) ∧
    (∀ i, i < 64 → 1 ≤ note_table.getD i 0 ∧ note_table.getD i 0 ≤ 32767) ∧
    (∀ b : Nat, 1 ≤ note_table.getD (b &&& 63) 0 ∧ note_table.getD (b &&& 63) 0 ≤ 32767) := by
  have hidx : ∀ i, i < 64 → 1 ≤ note_table.getD i 0 ∧ note_table.getD i 0 ≤ 32767 :=
    fun i hi => (note_table_steps i hi).1
  refine ⟨rfl, ?_, hidx, ?_⟩
  · intro p hp
    obtain ⟨i, hi, hpi⟩ := List.getElem_of_mem hp
    have hlen : note_table.length = 64 := rfl
    have hget : note_table.getD i 0 = p := by
      rw [List.getD_eq_getElem?_getD, List.getElem?_eq_getElem hi, hpi]; rfl
    have := hidx i (by omega)
    rw [hget] at this
    refine ⟨this.1, this.2, by omega, ?_⟩
    omega
  · intro b
    exact hidx (b &&& 63) (by rw [and_63]; omega)

/-- C33: octave structure of `note_table`.  From index 13 to index 63 the
entries are strictly decreasing: each entry is above the next one, and so
above every later one.  For every index `i` in `13 .. 51` the entry twelve
notes higher is half the period up to rounding: the absolute difference of
the entry at `i` and twice the entry at `i + 12` is at most 1. -/
theorem note_table_octaves :
    (∀ i, 13 ≤ i → i < 63 → note_table.getD (i + 1) 0 < note_table.getD i 0) ∧
    (∀ i j, 13 ≤ i → i < j → j ≤ 63 → note_table.getD j 0 < note_table.getD i 0) ∧
    (∀ i, 13 ≤ i → i ≤ 51 →
      |note_table.getD i 0 - 2 * note_table.getD (i + 12) 0| ≤ 1) := by
  have hadj : ∀ i, 13 ≤ i → i < 63 → note_table.getD (i + 1) 0 < note_table.getD i 0 :=
    fun i h1 h2 => (note_table_steps i (by omega)).2 h1 h2
  refine ⟨hadj, ?_, ?_⟩
  · intro i j hi hij
    induction j with
    | zero => omega
    | succ k ih =>
      intro hk
      rcases Nat.lt_or_ge i k with h | h
      · exact lt_trans (hadj k (by omega) (by omega)) (ih h (by omega))
      · have hik : k = i := by omega
        rw [hik]
        exact hadj i hi (by omega)
  · intro i h1 h2
    rw [abs_le]
    exact note_table_halving i (by omega) h1

/-! ## Channel selection over all the bursts of one update -/

end MusicPlayer
